import Mathlib

/-!
# Animated interaction mesh (roboptim-retargeting)

A shallow embedding of `src/src/animated-interaction-mesh.cc` and of the inline
members of `src/include/roboptim/retargeting/animated-interaction-mesh.hh`.

Modelling conventions.

* `double` values are exact rationals (`ℚ`).  The rounding, the infinities and
  the NaN of IEEE arithmetic enter for `computeVertexWeights` only, the one
  member that computes with `double`: it is embedded a second time with the
  operations of `double` as a parameter.  The exact instance of that second
  embedding is the first one, and its instance `ieeeArithmetic` rounds every
  operation to the nearest value of binary64.
* `unsigned` is a 32-bit machine integer: every product and sum the source
  evaluates in `unsigned` is reduced modulo `2 ^ 32`.  `std::size_t` and
  `Eigen::Index` values are plain naturals / integers (they are bounded by the
  address space, never by the arithmetic done on them here).
* `Eigen::VectorXd` is a `List ℚ`.  A `Vertex::position_t`
  (`Eigen::VectorBlock<Eigen::VectorXd, 3>`) is a non-owning view of three
  consecutive elements of the state vector: it is represented by the offset of
  its first element, and it is read and written through the state vector.
* `boost::adjacency_list<vecS, vecS, undirectedS, V, E>` is the list of its
  vertex properties (a vertex descriptor is an index into it) together with the
  list of its edges in insertion order.  With `vecS` as out-edge container
  `boost::add_edge` always inserts and always reports success.
* A call that does not return a mesh is `Except.error`: a thrown exception, a
  failed `assert`, or a violated precondition of a library call (which the
  library asserts, and past which the behaviour of the program is undefined).
-/

namespace Retargeting

/-! ## Machine integers -/

/-- Number of values of the C++ type `unsigned`. -/
def UINT_SIZE : Nat := 2 ^ 32

/-- Multiplication of two `unsigned` values. -/
def umul (a b : Nat) : Nat := (a * b) % UINT_SIZE

/-- Addition of two `unsigned` values. -/
def uadd (a b : Nat) : Nat := (a + b) % UINT_SIZE

/-- Conversion `(unsigned int) n` of a `std::size_t`. -/
def toUnsigned (n : Nat) : Nat := n % UINT_SIZE

/-! ## Data model -/

/-- Robot body (`struct Vertex`): a label and one position view per frame. -/
structure Vertex where
  label : String
  positions : List Nat
  deriving DecidableEq, Repr

/-- Robot segment (`struct Edge`): the static scale, and the per-frame weight
sequence `weight` that `computeVertexWeights` sizes, resizes and indexes as a
`std::vector<double>`. -/
structure Edge where
  scale : ℚ
  weight : List ℚ
  deriving DecidableEq, Repr

/-- One stored edge of `graph_t`: the two vertex descriptors and the bundled
`Edge` property. -/
structure GraphEdge where
  source : Nat
  target : Nat
  prop : Edge
  deriving DecidableEq, Repr

/-- The skeleton graph `graph_t`. -/
structure Graph where
  vertices : List Vertex
  edges : List GraphEdge
  deriving DecidableEq, Repr

/-- Vertex property of an interaction mesh graph. -/
structure InteractionMeshVertex where
  label : String
  deriving DecidableEq, Repr

/-- Edge property of an interaction mesh graph. -/
structure InteractionMeshEdge where
  weight : ℚ
  deriving DecidableEq, Repr

/-- One stored edge of `interaction_mesh_graph_t`. -/
structure InteractionMeshGraphEdge where
  source : Nat
  target : Nat
  prop : InteractionMeshEdge
  deriving DecidableEq, Repr

/-- The per-frame graph `interaction_mesh_graph_t`. -/
structure InteractionMeshGraph where
  vertices : List InteractionMeshVertex
  edges : List InteractionMeshGraphEdge
  deriving DecidableEq, Repr

/-- The class `AnimatedInteractionMesh` (its data members). -/
structure AnimatedInteractionMesh where
  framerate : ℚ
  numFrames : Nat
  numVertices : Nat
  state : List ℚ
  graph : Graph
  interactionMeshes : List InteractionMeshGraph
  deriving DecidableEq, Repr

namespace AnimatedInteractionMesh

/-- The default constructor `AnimatedInteractionMesh ()`. -/
def empty : AnimatedInteractionMesh :=
  { framerate := 0, numFrames := 0, numVertices := 0, state := [],
    graph := { vertices := [], edges := [] }, interactionMeshes := [] }

/-! ## Inline members of the header -/

/-- The member `optimizationVectorSize ()`: `3 * numVertices_ * numFrames_`,
evaluated in `unsigned` and then widened to `std::size_t`. -/
def optimizationVectorSize (m : AnimatedInteractionMesh) : Nat :=
  umul (umul 3 m.numVertices) m.numFrames

/-- The member `optimizationVectorSizeOneFrame ()`: `3 * numVertices_`, evaluated
in `unsigned` and then widened. -/
def optimizationVectorSizeOneFrame (m : AnimatedInteractionMesh) : Nat :=
  umul 3 m.numVertices

/-- The member `makeOptimizationVector ()`. -/
def makeOptimizationVector (m : AnimatedInteractionMesh) : List ℚ :=
  m.state

/-- The Eigen call `v.segment (start, n)`: the `n` elements from `start` on. -/
def segment (v : List ℚ) (start n : Nat) : List ℚ :=
  (v.drop start).take n

/-- The member `makeOptimizationVectorOneFrame (frameId)`.  The product of the
`unsigned` frame id with the `std::size_t` frame size is a `std::size_t`. -/
def makeOptimizationVectorOneFrame (m : AnimatedInteractionMesh) (frameId : Nat) :
    List ℚ :=
  segment m.state (frameId * m.optimizationVectorSizeOneFrame)
    m.optimizationVectorSizeOneFrame

/-! ## Position views -/

/-- Offset of the view `graph ()[vertex].positions[frameId]`. -/
def viewOffset (g : Graph) (vertex frameId : Nat) : Nat :=
  match g.vertices[vertex]? with
  | some v => v.positions.getD frameId 0
  | none => 0

/-- Read `graph ()[vertex].positions[frameId][axis]`: the view is read through
the state vector. -/
def position (m : AnimatedInteractionMesh) (vertex frameId axis : Nat) : ℚ :=
  m.state.getD (viewOffset m.graph vertex frameId + axis) 0

/-- Write `graph ()[vertex].positions[frameId][axis] = x`: the view is written
through the state vector. -/
def setPosition (m : AnimatedInteractionMesh) (vertex frameId axis : Nat) (x : ℚ) :
    AnimatedInteractionMesh :=
  { m with state := m.state.set (viewOffset m.graph vertex frameId + axis) x }

/-! ## Lookups -/

/-- The loop of `getVertexFromLabel`, started at vertex iterator `i`. -/
def getVertexFromLabelLoop (label : String) : List Vertex → Nat → Nat
  | [], i => i
  | v :: vs, i => if v.label = label then i else getVertexFromLabelLoop label vs (i + 1)

/-- The member `getVertexFromLabel (label)`: the returned iterator, as a vertex
index; the end iterator is the number of vertices of the graph. -/
def getVertexFromLabel (m : AnimatedInteractionMesh) (label : String) : Nat :=
  getVertexFromLabelLoop label m.graph.vertices 0

/-- The end iterator `vertexEnd` of `boost::vertices (graph ())`. -/
def vertexEnd (m : AnimatedInteractionMesh) : Nat :=
  m.graph.vertices.length

/-- The test of `getVertexFromPosition` on one vertex: the three components of
its frame-`frameId` view equal `x`, `y` and `z`. -/
def positionMatches (state : List ℚ) (frameId : Nat) (x y z : ℚ) (v : Vertex) : Bool :=
  decide (state.getD (v.positions.getD frameId 0 + 0) 0 = x)
    && decide (state.getD (v.positions.getD frameId 0 + 1) 0 = y)
    && decide (state.getD (v.positions.getD frameId 0 + 2) 0 = z)

/-- The loop of `getVertexFromPosition`, started at vertex iterator `i`. -/
def getVertexFromPositionLoop (state : List ℚ) (frameId : Nat) (x y z : ℚ) :
    List Vertex → Nat → Nat
  | [], i => i
  | v :: vs, i =>
    if positionMatches state frameId x y z v then i
    else getVertexFromPositionLoop state frameId x y z vs (i + 1)

/-- The member `getVertexFromPosition (frameId, x, y, z)`. -/
def getVertexFromPosition (m : AnimatedInteractionMesh) (frameId : Nat) (x y z : ℚ) :
    Nat :=
  getVertexFromPositionLoop m.state frameId x y z m.graph.vertices 0

/-! ## Skeleton edges -/

/-- One entry `[startMarker, endMarker, scale]` of an edge list of the character
file. -/
structure EdgeEntry where
  startMarker : String
  endMarker : String
  scale : ℚ
  deriving DecidableEq, Repr

/-- The call `boost::add_edge (s, t, g)` followed by `g[edge].scale = scale`: the
edge is appended with a default-constructed property whose scale is then set. -/
def addEdge (g : Graph) (s t : Nat) (scale : ℚ) : Graph :=
  { g with edges := g.edges ++ [{ source := s, target := t,
                                  prop := { scale := scale, weight := [] } }] }

/-- One iteration of the loop of `loadEdgesFromYaml`; `vertexEnd` is the end
iterator taken before the loop. -/
def loadEdge (vertexEnd : Nat) (m : AnimatedInteractionMesh) (e : EdgeEntry) :
    AnimatedInteractionMesh :=
  let itStartMarker := m.getVertexFromLabel e.startMarker
  let itEndMarker := m.getVertexFromLabel e.endMarker
  if itStartMarker = vertexEnd then m
  else if itEndMarker = vertexEnd then m
  else if itStartMarker = itEndMarker then m
  else { m with graph := addEdge m.graph itStartMarker itEndMarker e.scale }

/-- The loop of `loadEdgesFromYaml` over the entries of the node. -/
def loadEdgesLoop (vertexEnd : Nat) :
    List EdgeEntry → AnimatedInteractionMesh → AnimatedInteractionMesh
  | [], m => m
  | e :: es, m => loadEdgesLoop vertexEnd es (loadEdge vertexEnd m e)

/-- The static member `loadEdgesFromYaml (node, animatedMesh)`. -/
def loadEdgesFromYaml (node : List EdgeEntry) (m : AnimatedInteractionMesh) :
    AnimatedInteractionMesh :=
  loadEdgesLoop m.vertexEnd node m

/-! ## Edge weights -/

/-- The call `w.resize (n)` of `std::vector<double>`: truncate to `n` elements
or pad with zeros up to `n` elements. -/
def resize (w : List ℚ) (n : Nat) : List ℚ :=
  w.take n ++ List.replicate (n - w.length) 0

/-- The value `(source.positions[frameId] - target.positions[frameId]).squaredNorm ()`
for the edge joining vertices `s` and `t`. -/
def squaredDistance (m : AnimatedInteractionMesh) (s t frameId : Nat) : ℚ :=
  (m.position s frameId 0 - m.position t frameId 0) ^ 2
    + (m.position s frameId 1 - m.position t frameId 1) ^ 2
    + (m.position s frameId 2 - m.position t frameId 2) ^ 2

/-- The body of the first edge loop of `computeVertexWeights` on one edge: grow
or cut the weight sequence to `numFrames_` when its size differs, store the
squared distance in slot `frameId`, then replace it by `1` when it is zero and
by its inverse otherwise. -/
def setRawWeight (m : AnimatedInteractionMesh) (frameId : Nat) (e : GraphEdge) :
    GraphEdge :=
  let w0 := if e.prop.weight.length ≠ m.numFrames then resize e.prop.weight m.numFrames
            else e.prop.weight
  let w1 := w0.set frameId (m.squaredDistance e.source e.target frameId)
  let w2 := if w1.getD frameId 0 = 0 then w1.set frameId 1
            else w1.set frameId (1 / w1.getD frameId 0)
  { e with prop := { e.prop with weight := w2 } }

/-- The first edge loop of `computeVertexWeights` for frame `frameId`: the
updated edges and the accumulated `weightSum`. -/
def rawWeightPass (m : AnimatedInteractionMesh) (frameId : Nat) :
    List GraphEdge → ℚ → List GraphEdge × ℚ
  | [], weightSum => ([], weightSum)
  | e :: es, weightSum =>
    let e1 := setRawWeight m frameId e
    let r := rawWeightPass m frameId es (weightSum + e1.prop.weight.getD frameId 0)
    (e1 :: r.1, r.2)

/-- The statement `graph ()[*edgeIt].weight[frameId] /= weightSum`. -/
def normalizeWeight (frameId : Nat) (weightSum : ℚ) (e : GraphEdge) : GraphEdge :=
  { e with prop := { e.prop with
      weight := e.prop.weight.set frameId (e.prop.weight.getD frameId 0 / weightSum) } }

/-- The body of the frame loop of `computeVertexWeights`. -/
def computeFrameWeights (m : AnimatedInteractionMesh) (frameId : Nat)
    (es : List GraphEdge) : List GraphEdge :=
  let r := rawWeightPass m frameId es 0
  if r.2 > 0 then r.1.map (normalizeWeight frameId r.2) else r.1

/-- The frame loop of `computeVertexWeights` over the given frame ids. -/
def computeVertexWeightsLoop (m : AnimatedInteractionMesh) :
    List Nat → List GraphEdge → List GraphEdge
  | [], es => es
  | frameId :: rest, es => computeVertexWeightsLoop m rest (computeFrameWeights m frameId es)

/-- The member `computeVertexWeights ()`. -/
def computeVertexWeights (m : AnimatedInteractionMesh) : AnimatedInteractionMesh :=
  { m with graph := { m.graph with
      edges := computeVertexWeightsLoop m (List.range m.numFrames) m.graph.edges } }

/-! ## Edge weights in the arithmetic of `double`

`computeVertexWeights` once more, with the operations of `double` as a
parameter.  The definitions above are the instance in which every operation is
exact; the instance `ieeeArithmetic` rounds every result to the nearest value
of IEEE 754 binary64, the format of `double`. -/

/-- The operations of `double` that `computeVertexWeights` uses: the value
stored for a number (`ofRat 0` and `ofRat 1` are the constants `0.` and `1.`),
the operators `-`, `*`, `+` and `/`, and the tests `== 0.` and `> 0.`. -/
structure Arithmetic (D : Type) where
  ofRat : ℚ → D
  sub : D → D → D
  mul : D → D → D
  add : D → D → D
  div : D → D → D
  isZero : D → Bool
  isPositive : D → Bool

/-- A skeleton edge with the weights it holds, as values of `D`. -/
structure WeightedEdge (D : Type) where
  source : Nat
  target : Nat
  weight : List D
  deriving DecidableEq, Repr

/-- The call `w.resize (n)` on a sequence of values of `D`. -/
def resizeIn {D : Type} (A : Arithmetic D) (w : List D) (n : Nat) : List D :=
  w.take n ++ List.replicate (n - w.length) (A.ofRat 0)

/-- The value `(source.positions[frameId] - target.positions[frameId]).squaredNorm ()`
in the arithmetic `A`: the three differences, their squares, and the sum of the
squares from the first coordinate to the last. -/
def squaredNormIn {D : Type} (A : Arithmetic D) (m : AnimatedInteractionMesh)
    (s t frameId : Nat) : D :=
  let d := fun axis =>
    A.sub (A.ofRat (m.position s frameId axis)) (A.ofRat (m.position t frameId axis))
  A.add (A.add (A.mul (d 0) (d 0)) (A.mul (d 1) (d 1))) (A.mul (d 2) (d 2))

/-- The body of the first edge loop of `computeVertexWeights` on one edge, in
the arithmetic `A`. -/
def setRawWeightIn {D : Type} (A : Arithmetic D) (m : AnimatedInteractionMesh)
    (frameId : Nat) (e : WeightedEdge D) : WeightedEdge D :=
  let w0 := if e.weight.length ≠ m.numFrames then resizeIn A e.weight m.numFrames
            else e.weight
  let w1 := w0.set frameId (squaredNormIn A m e.source e.target frameId)
  let w2 := if A.isZero (w1.getD frameId (A.ofRat 0)) then w1.set frameId (A.ofRat 1)
            else w1.set frameId (A.div (A.ofRat 1) (w1.getD frameId (A.ofRat 0)))
  { e with weight := w2 }

/-- The first edge loop of `computeVertexWeights` for frame `frameId`, in the
arithmetic `A`: the updated edges and the accumulated `weightSum`. -/
def rawWeightPassIn {D : Type} (A : Arithmetic D) (m : AnimatedInteractionMesh)
    (frameId : Nat) : List (WeightedEdge D) → D → List (WeightedEdge D) × D
  | [], weightSum => ([], weightSum)
  | e :: es, weightSum =>
    let e1 := setRawWeightIn A m frameId e
    let r := rawWeightPassIn A m frameId es
      (A.add weightSum (e1.weight.getD frameId (A.ofRat 0)))
    (e1 :: r.1, r.2)

/-- The statement `graph ()[*edgeIt].weight[frameId] /= weightSum` in the
arithmetic `A`. -/
def normalizeWeightIn {D : Type} (A : Arithmetic D) (frameId : Nat) (weightSum : D)
    (e : WeightedEdge D) : WeightedEdge D :=
  { e with
      weight := e.weight.set frameId (A.div (e.weight.getD frameId (A.ofRat 0)) weightSum) }

/-- The body of the frame loop of `computeVertexWeights` in the arithmetic `A`. -/
def computeFrameWeightsIn {D : Type} (A : Arithmetic D) (m : AnimatedInteractionMesh)
    (frameId : Nat) (es : List (WeightedEdge D)) : List (WeightedEdge D) :=
  let r := rawWeightPassIn A m frameId es (A.ofRat 0)
  if A.isPositive r.2 then r.1.map (normalizeWeightIn A frameId r.2) else r.1

/-- The frame loop of `computeVertexWeights` in the arithmetic `A`. -/
def computeVertexWeightsLoopIn {D : Type} (A : Arithmetic D) (m : AnimatedInteractionMesh) :
    List Nat → List (WeightedEdge D) → List (WeightedEdge D)
  | [], es => es
  | frameId :: rest, es =>
    computeVertexWeightsLoopIn A m rest (computeFrameWeightsIn A m frameId es)

/-- The skeleton edges of a mesh with the weights they hold, as values of `D`. -/
def weightedEdges {D : Type} (A : Arithmetic D) (m : AnimatedInteractionMesh) :
    List (WeightedEdge D) :=
  m.graph.edges.map (fun e => ⟨e.source, e.target, e.prop.weight.map A.ofRat⟩)

/-- The member `computeVertexWeights ()` in the arithmetic `A`: the skeleton
edges with their weights after the call. -/
def computeVertexWeightsIn {D : Type} (A : Arithmetic D) (m : AnimatedInteractionMesh) :
    List (WeightedEdge D) :=
  computeVertexWeightsLoopIn A m (List.range m.numFrames) (weightedEdges A m)

/-- The arithmetic in which every operation is exact. -/
def exactArithmetic : Arithmetic ℚ where
  ofRat := fun x => x
  sub := fun a b => a - b
  mul := fun a b => a * b
  add := fun a b => a + b
  div := fun a b => a / b
  isZero := fun a => decide (a = 0)
  isPositive := fun a => decide (0 < a)

/-- A value of the type `double` (IEEE 754 binary64): a finite number, an
infinity with its sign, or a NaN.  The sign of a zero is left out:
`computeVertexWeights` compares with zero by `==` and `>` only, which do not
see that sign, and never divides by a zero. -/
inductive Double where
  | finite (value : ℚ)
  | infinite (negative : Bool)
  | nan
  deriving DecidableEq, Repr

/-- Rounding of a rational to the nearest integer, a tie going to the even
one. -/
def roundHalfEven (q : ℚ) : ℤ :=
  if q - ⌊q⌋ < 1 / 2 then ⌊q⌋
  else if 1 / 2 < q - ⌊q⌋ then ⌊q⌋ + 1
  else if ⌊q⌋ % 2 = 0 then ⌊q⌋ else ⌊q⌋ + 1

/-- Rounding of a rational to `double`, to nearest, ties to even: with `e` the
binary exponent of `x`, not below the least exponent `-1022`, the result is the
multiple of `2 ^ (e - 52)` nearest to `x`, and an infinity when that multiple
reaches `2 ^ 1024`. -/
def roundDouble (x : ℚ) : Double :=
  if x = 0 then .finite 0
  else
    let e : ℤ := max (Int.log 2 |x|) (-1022)
    let r : ℚ := roundHalfEven (x / 2 ^ (e - 52)) * 2 ^ (e - 52)
    if 2 ^ (1024 : ℕ) ≤ |r| then .infinite (decide (x < 0)) else .finite r

/-- The operator `-` of `double`. -/
def Double.sub : Double → Double → Double
  | .finite a, .finite b => roundDouble (a - b)
  | .finite _, .infinite s => .infinite (!s)
  | .infinite s, .finite _ => .infinite s
  | .infinite s, .infinite t => if s = t then .nan else .infinite s
  | _, _ => .nan

/-- The operator `+` of `double`. -/
def Double.add : Double → Double → Double
  | .finite a, .finite b => roundDouble (a + b)
  | .finite _, .infinite s => .infinite s
  | .infinite s, .finite _ => .infinite s
  | .infinite s, .infinite t => if s = t then .infinite s else .nan
  | _, _ => .nan

/-- The operator `*` of `double`. -/
def Double.mul : Double → Double → Double
  | .finite a, .finite b => roundDouble (a * b)
  | .finite a, .infinite s => if a = 0 then .nan else .infinite (xor (decide (a < 0)) s)
  | .infinite s, .finite b => if b = 0 then .nan else .infinite (xor s (decide (b < 0)))
  | .infinite s, .infinite t => .infinite (xor s t)
  | _, _ => .nan

/-- The operator `/` of `double`; a zero divisor is taken as `+0`. -/
def Double.div : Double → Double → Double
  | .finite a, .finite b =>
    if b = 0 then (if a = 0 then .nan else .infinite (decide (a < 0)))
    else roundDouble (a / b)
  | .finite _, .infinite _ => .finite 0
  | .infinite s, .finite b => .infinite (xor s (decide (b < 0)))
  | _, _ => .nan

/-- The test `x == 0.` of `double`. -/
def Double.isZero : Double → Bool
  | .finite a => decide (a = 0)
  | _ => false

/-- The test `x > 0.` of `double`. -/
def Double.isPositive : Double → Bool
  | .finite a => decide (0 < a)
  | .infinite s => !s
  | .nan => false

/-- The arithmetic of `double`: every operation rounds its exact result to the
nearest value of binary64. -/
def ieeeArithmetic : Arithmetic Double where
  ofRat := roundDouble
  sub := Double.sub
  mul := Double.mul
  add := Double.add
  div := Double.div
  isZero := Double.isZero
  isPositive := Double.isPositive

/-! ## Loading -/

/-- The content of a parsed trajectory document, as `loadAnimatedMesh` reads it:
the scalars `type`, `frameRate` and `numFrames`, the sequence `partLabels`, and
the sequence `frames` of sequences of `[x, y, z]` nodes. -/
structure TrajectoryDoc where
  type : String
  frameRate : ℚ
  numFrames : Nat
  partLabels : List String
  frames : List (List (ℚ × ℚ × ℚ))
  deriving DecidableEq, Repr

/-- The content of a parsed character document: the two edge lists. -/
structure CharacterDoc where
  edges : List EdgeEntry
  extraMarkerEdges : List EdgeEntry
  deriving DecidableEq, Repr

/-- The inner loop of the label loop of `loadAnimatedMesh`: push one view per
frame for the vertex `vertex`.  `frameId * numVertices_ * 3` is an `unsigned`
product, `vertex * 3` a `std::size_t` one.  Building the view
`Vertex::position_t (state_, offset, 3)` has the precondition that the block
lies inside the vector (Eigen asserts `offset <= size - 3`); with a block
outside it the load does not produce a mesh. -/
def pushViews (stateSize numVertices vertex : Nat) : List Nat → Except String (List Nat)
  | [] => .ok []
  | frameId :: rest =>
    let offset := umul (umul frameId numVertices) 3 + vertex * 3
    if offset + 3 ≤ stateSize then
      match pushViews stateSize numVertices vertex rest with
      | .ok views => .ok (offset :: views)
      | .error e => .error e
    else .error "position view outside of the state vector"

/-- The label loop of `loadAnimatedMesh`: one vertex per label; `vertex` is the
descriptor `boost::add_vertex` returns, the number of vertices added so far. -/
def addVertices (stateSize numVertices numFrames : Nat) :
    List String → Nat → Except String (List Vertex)
  | [], _ => .ok []
  | label :: rest, vertex =>
    match pushViews stateSize numVertices vertex (List.range numFrames) with
    | .error e => .error e
    | .ok views =>
      match addVertices stateSize numVertices numFrames rest (vertex + 1) with
      | .ok vs => .ok ({ label := label, positions := views } :: vs)
      | .error e => .error e

/-- The vertex loop of one frame node of `loadAnimatedMesh`. -/
def loadFrame (frameId : Nat) :
    List (ℚ × ℚ × ℚ) → Nat → AnimatedInteractionMesh → Except String AnimatedInteractionMesh
  | [], _, m => .ok m
  | (x, y, z) :: rest, vertex, m =>
    if vertex ≥ m.numVertices then
      .error "announced number of vertices do not match data"
    else
      loadFrame frameId rest (vertex + 1)
        (((m.setPosition vertex frameId 0 x).setPosition vertex frameId 1 y).setPosition
          vertex frameId 2 z)

/-- The loop of `loadAnimatedMesh` over the `frames` sequence. -/
def loadFrames :
    List (List (ℚ × ℚ × ℚ)) → Nat → AnimatedInteractionMesh →
      Except String AnimatedInteractionMesh
  | [], _, m => .ok m
  | node :: rest, frameId, m =>
    if frameId ≥ m.numFrames then
      .error "announced number of frames do not match data"
    else
      match loadFrame frameId node 0 m with
      | .ok m1 => loadFrames rest (frameId + 1) m1
      | .error e => .error e

/-- The static member `loadAnimatedMesh (trajectoryFile, characterFile)` as the
translation unit defines it, on the parsed documents.  A `numFrames` scalar
that does not fit `unsigned` is rejected by the YAML conversion. -/
def loadAnimatedMesh (doc : TrajectoryDoc) (character : CharacterDoc) :
    Except String AnimatedInteractionMesh :=
  if doc.type ≠ "MultiVector3Seq" then .error "bad content"
  else if doc.numFrames ≥ UINT_SIZE then .error "invalid scalar"
  else
    let numVertices := toUnsigned doc.partLabels.length
    let stateSize := umul (umul doc.numFrames numVertices) 3
    match addVertices stateSize numVertices doc.numFrames doc.partLabels 0 with
    | .error e => .error e
    | .ok vs =>
      let m0 : AnimatedInteractionMesh :=
        { framerate := doc.frameRate, numFrames := doc.numFrames,
          numVertices := numVertices, state := List.replicate stateSize 0,
          graph := { vertices := vs, edges := [] }, interactionMeshes := [] }
      match loadFrames doc.frames 0 m0 with
      | .error e => .error e
      | .ok m1 =>
        .ok (computeVertexWeights
          (loadEdgesFromYaml character.extraMarkerEdges
            (loadEdgesFromYaml character.edges m1)))

/-! ## Snapshot from optimization variables -/

/-- The frame loop of `makeFromOptimizationVariables` for the vertex numbered
`vertexId`: the offset is an `unsigned` expression, the assertion compares
signed `Eigen::Index` values, and the placement `new` replaces the view in slot
`frameId`. -/
def rebindViews (numVertices stateSize vertexId : Nat) :
    List Nat → List Nat → Except String (List Nat)
  | [], views => .ok views
  | frameId :: rest, views =>
    let offset := uadd (umul (umul frameId numVertices) 3) (umul vertexId 3)
    if (offset : Int) ≤ (stateSize : Int) - 3 then
      rebindViews numVertices stateSize vertexId rest (views.set frameId offset)
    else .error "assertion failed: offset <= animatedMesh->state ().size () - 3"

/-- The vertex loop of `makeFromOptimizationVariables`; `vertexId` is the
`unsigned` counter incremented along with the vertex iterator. -/
def rebindVertices (numVertices numFrames stateSize : Nat) :
    List Vertex → Nat → Except String (List Vertex)
  | [], _ => .ok []
  | v :: vs, vertexId =>
    match rebindViews numVertices stateSize vertexId (List.range numFrames) v.positions with
    | .error e => .error e
    | .ok views =>
      match rebindVertices numVertices numFrames stateSize vs (uadd vertexId 1) with
      | .ok rest => .ok ({ v with positions := views } :: rest)
      | .error e => .error e

/-- The static member `makeFromOptimizationVariables (x, previousAnimatedMesh)`. -/
def makeFromOptimizationVariables (x : List ℚ) (previous : AnimatedInteractionMesh) :
    Except String AnimatedInteractionMesh :=
  match rebindVertices previous.numVertices previous.numFrames x.length
      previous.graph.vertices 0 with
  | .error e => .error e
  | .ok vs =>
    .ok (computeVertexWeights
      { framerate := previous.framerate, numFrames := previous.numFrames,
        numVertices := previous.numVertices, state := x,
        graph := { vertices := vs, edges := previous.graph.edges },
        interactionMeshes := [] })

/-! ## Cached data -/

/-- The member `recomputeCachedData ()`. -/
def recomputeCachedData (m : AnimatedInteractionMesh) : AnimatedInteractionMesh :=
  let numVertices := toUnsigned m.graph.vertices.length
  if numVertices = 0 then { m with numVertices := numVertices, numFrames := 0 }
  else
    computeVertexWeights
      { m with numVertices := numVertices,
               numFrames := toUnsigned
                 (match m.graph.vertices[0]? with
                  | some v => v.positions.length
                  | none => 0) }

/-! ## Interaction meshes

`CGAL::Triangulation_3` is an external library.  It enters the embedding as a
parameter: the value of a default-constructed point, and, for the list of
points the triangulation is built from, what the two loops of
`computeInteractionMesh` get to see — for every finite edge, in iteration order,
the triangle of each facet the circulator visits around it. -/

/-- A `Triangulation::Point`: three coordinates. -/
abbrev Point : Type := ℚ × ℚ × ℚ

/-- A `Triangulation::Triangle`: its three corners. -/
structure Triangle where
  corner0 : Point
  corner1 : Point
  corner2 : Point
  deriving DecidableEq, Repr

/-- The access `triangle[i]`, which returns corner `i % 3`. -/
def Triangle.get (t : Triangle) (i : Nat) : Point :=
  match i % 3 with
  | 0 => t.corner0
  | 1 => t.corner1
  | _ => t.corner2

/-- The facets visited by the `do ... while (facets != facetsEnd)` loop around
one finite edge, as triangles: the first one and the following ones. -/
structure FacetCirculation where
  first : Triangle
  next : List Triangle
  deriving DecidableEq, Repr

/-- The triangulation library as `computeInteractionMesh` uses it. -/
structure Triangulation3 where
  defaultPoint : Point
  incidentFacets : List Point → List FacetCirculation

/-- A default-constructed `interaction_mesh_graph_t`. -/
def InteractionMeshGraph.empty : InteractionMeshGraph :=
  { vertices := [], edges := [] }

/-- The call `boost::add_edge (u, v, g)` on an `interaction_mesh_graph_t`: with a
`vecS` vertex container the vertex list is first grown to hold `max (u, v)`, by
default-constructed vertices; with a `vecS` out-edge container the edge is then
always appended, with a value-initialized property. -/
def InteractionMeshGraph.addEdge (g : InteractionMeshGraph) (u v : Nat) :
    InteractionMeshGraph :=
  { vertices :=
      if max u v ≥ g.vertices.length then
        g.vertices ++ List.replicate (max u v + 1 - g.vertices.length) { label := "" }
      else g.vertices,
    edges := g.edges ++ [{ source := u, target := v, prop := { weight := 0 } }] }

/-- The point built from the frame-`frameId` view of a vertex. -/
def vertexPoint (state : List ℚ) (frameId : Nat) (v : Vertex) : Point :=
  (state.getD (v.positions.getD frameId 0 + 0) 0,
   state.getD (v.positions.getD frameId 0 + 1) 0,
   state.getD (v.positions.getD frameId 0 + 2) 0)

/-- The vector `points` that `computeInteractionMesh` hands to the
triangulation: it is constructed with `numVertices ()` default points, and one
point per vertex of the graph is then pushed at its back. -/
def triangulationPoints (defaultPoint : Point) (m : AnimatedInteractionMesh)
    (frameId : Nat) : List Point :=
  List.replicate m.numVertices defaultPoint
    ++ m.graph.vertices.map (vertexPoint m.state frameId)

/-- The loop `for (unsigned i = 0; i < 3; ++i)` of `computeInteractionMesh` on one
triangle: the iterator each lookup returns is dereferenced as it is. -/
def addTriangleEdges (m : AnimatedInteractionMesh) (frameId : Nat) (triangle : Triangle)
    (g : InteractionMeshGraph) : InteractionMeshGraph :=
  (List.range 3).foldl
    (fun g i =>
      let source := m.getVertexFromPosition frameId (triangle.get i).1
        (triangle.get i).2.1 (triangle.get i).2.2
      let target := m.getVertexFromPosition frameId (triangle.get (i + 1)).1
        (triangle.get (i + 1)).2.1 (triangle.get (i + 1)).2.2
      InteractionMeshGraph.addEdge g source target)
    g

/-- The facet loop around one finite edge. -/
def addFacets (m : AnimatedInteractionMesh) (frameId : Nat) (c : FacetCirculation)
    (g : InteractionMeshGraph) : InteractionMeshGraph :=
  (c.first :: c.next).foldl (fun g triangle => addTriangleEdges m frameId triangle g) g

/-- The loop over the finite edges of the triangulation. -/
def addFiniteEdges (m : AnimatedInteractionMesh) (frameId : Nat)
    (circulations : List FacetCirculation) (g : InteractionMeshGraph) :
    InteractionMeshGraph :=
  circulations.foldl (fun g c => addFacets m frameId c g) g

/-- The member `computeInteractionMesh (frameId)`. -/
def computeInteractionMesh (cgal : Triangulation3) (m : AnimatedInteractionMesh)
    (frameId : Nat) : AnimatedInteractionMesh :=
  let points := triangulationPoints cgal.defaultPoint m frameId
  let circulations := cgal.incidentFacets points
  { m with
    interactionMeshes :=
      List.modify (addFiniteEdges m frameId circulations) frameId m.interactionMeshes }

/-- The call `interactionMeshes_.resize (n)`. -/
def resizeMeshes (l : List InteractionMeshGraph) (n : Nat) : List InteractionMeshGraph :=
  l.take n ++ List.replicate (n - l.length) InteractionMeshGraph.empty

/-- The member `computeInteractionMeshes ()`. -/
def computeInteractionMeshes (cgal : Triangulation3) (m : AnimatedInteractionMesh) :
    AnimatedInteractionMesh :=
  (List.range m.numFrames).foldl (fun acc i => computeInteractionMesh cgal acc i)
    { m with interactionMeshes := resizeMeshes m.interactionMeshes m.numFrames }

/-- An entry of a frame node. -/
inductive VertexNode where
  | scalar (value : ℚ)
  | sequence (items : List ℚ)
  deriving DecidableEq, Repr

/-- The content of a trajectory document, node by node, with all the keys
`writeTrajectory` emits. -/
structure YamlTrajectory where
  type : String
  content : String
  frameRate : ℚ
  numFrames : Nat
  partLabels : List String
  numParts : Nat
  frames : List (List VertexNode)
  deriving DecidableEq, Repr

/-- The body of the vertex loop of `loadAnimatedMesh`, on one node: the type
check, the bound check, the three reads `vertexNode[i] >> ...`, the three
writes.  The helper `checkNodeType (vertexNode, YAML::NodeType::Sequence)` is
defined in `yaml-helper.hh`, which is not among the sources: it enters as the
parameter `checkNodeType`, an error being its exception.  The read
`vertexNode[i]` of yaml-cpp throws when the node has no `i`-th item, as on every
scalar. -/
def loadVertexYaml (checkNodeType : VertexNode → Except String Unit) (frameId : Nat)
    (vertexNode : VertexNode) (vertex : Nat) (m : AnimatedInteractionMesh) :
    Except String AnimatedInteractionMesh :=
  match checkNodeType vertexNode with
  | .error e => .error e
  | .ok _ =>
    if vertex ≥ m.numVertices then
      .error "announced number of vertices do not match data"
    else
      match vertexNode with
      | .sequence (x :: y :: z :: _) =>
        .ok (((m.setPosition vertex frameId 0 x).setPosition vertex frameId 1 y).setPosition
          vertex frameId 2 z)
      | _ => .error "bad dereference"

/-- The vertex loop of one frame node of `loadAnimatedMesh`, on nodes. -/
def loadFrameYaml (checkNodeType : VertexNode → Except String Unit) (frameId : Nat) :
    List VertexNode → Nat → AnimatedInteractionMesh → Except String AnimatedInteractionMesh
  | [], _, m => .ok m
  | vertexNode :: rest, vertex, m =>
    match loadVertexYaml checkNodeType frameId vertexNode vertex m with
    | .error e => .error e
    | .ok m1 => loadFrameYaml checkNodeType frameId rest (vertex + 1) m1

/-- The loop of `loadAnimatedMesh` over the `frames` sequence, on nodes. -/
def loadFramesYaml (checkNodeType : VertexNode → Except String Unit) :
    List (List VertexNode) → Nat → AnimatedInteractionMesh →
      Except String AnimatedInteractionMesh
  | [], _, m => .ok m
  | node :: rest, frameId, m =>
    if frameId ≥ m.numFrames then
      .error "announced number of frames do not match data"
    else
      match loadFrameYaml checkNodeType frameId node 0 m with
      | .ok m1 => loadFramesYaml checkNodeType rest (frameId + 1) m1
      | .error e => .error e

/-- The static member `loadAnimatedMesh (trajectoryFile, characterFile)` on a
document given node by node. -/
def loadAnimatedMeshYaml (checkNodeType : VertexNode → Except String Unit)
    (doc : YamlTrajectory) (character : CharacterDoc) :
    Except String AnimatedInteractionMesh :=
  if doc.type ≠ "MultiVector3Seq" then .error "bad content"
  else if doc.numFrames ≥ UINT_SIZE then .error "invalid scalar"
  else
    let numVertices := toUnsigned doc.partLabels.length
    let stateSize := umul (umul doc.numFrames numVertices) 3
    match addVertices stateSize numVertices doc.numFrames doc.partLabels 0 with
    | .error e => .error e
    | .ok vs =>
      let m0 : AnimatedInteractionMesh :=
        { framerate := doc.frameRate, numFrames := doc.numFrames,
          numVertices := numVertices, state := List.replicate stateSize 0,
          graph := { vertices := vs, edges := [] }, interactionMeshes := [] }
      match loadFramesYaml checkNodeType doc.frames 0 m0 with
      | .error e => .error e
      | .ok m1 =>
        .ok (computeVertexWeights
          (loadEdgesFromYaml character.extraMarkerEdges
            (loadEdgesFromYaml character.edges m1)))

/-- The nodes of a `TrajectoryDoc`: every entry of every frame is the sequence
of its three coordinates. -/
def TrajectoryDoc.toYaml (doc : TrajectoryDoc) : YamlTrajectory :=
  { type := doc.type, content := "MarkerMotion", frameRate := doc.frameRate,
    numFrames := doc.numFrames, partLabels := doc.partLabels,
    numParts := doc.partLabels.length,
    frames := doc.frames.map
      (fun node => node.map (fun p => VertexNode.sequence [p.1, p.2.1, p.2.2])) }

/-- The member `writeTrajectory (filename)`: the document it emits.  Each frame
is one sequence holding the elements of
`makeOptimizationVectorOneFrame (frameId)` one after the other. -/
def writeTrajectory (m : AnimatedInteractionMesh) : YamlTrajectory :=
  { type := "MultiVector3Seq", content := "MarkerMotion", frameRate := m.framerate,
    numFrames := m.numFrames,
    partLabels := m.graph.vertices.map (fun v => v.label),
    numParts := m.numVertices,
    frames := (List.range m.numFrames).map
      (fun frameId => (m.makeOptimizationVectorOneFrame frameId).map VertexNode.scalar) }

end AnimatedInteractionMesh

/-! ## Marker problem builder

`libmocap`, `roboptim-core` and `roboptim-trajectory` are external libraries:
their types enter the embedding through the members the code uses. -/

/-- The accessors of `libmocap::MarkerTrajectory` that `convertToTrajectory`
calls. -/
structure MarkerTrajectory where
  dataRate : ℚ
  numFrames : Nat
  numMarkers : Nat
  positions : List (List ℚ)
  deriving DecidableEq, Repr

/-- What `convertToTrajectory` hands to the constructor of the trajectory type
`T`: the parameter vector, the output size and the time step.  The parameter
vector is constructed with a size and no value: an element that no assignment
has reached is `none`. -/
structure DiscreteTrajectory where
  parameters : List (Option ℚ)
  outputSize : Nat
  timeStep : ℚ
  deriving DecidableEq, Repr

/-- The assignment `v.segment (start, values.size ()) = values`. -/
def assignSegment (v : List (Option ℚ)) (start : Nat) (values : List ℚ) :
    List (Option ℚ) :=
  v.take start ++ values.map some ++ v.drop (start + values.length)

/-- The loop of `convertToTrajectory` over `raw.positions ()`; `nFrame` is the
index of the frame `it` points to.  The map `positions` reads the first
`numMarkers * 3` elements of the frame, which must be there, and the segment
written starts at `nFrame * numMarkers` and must lie inside `parameters`. -/
def copyFrames (numMarkers : Nat) :
    List (List ℚ) → Nat → List (Option ℚ) → Except String (List (Option ℚ))
  | [], _, parameters => .ok parameters
  | frame :: rest, nFrame, parameters =>
    if frame.length < numMarkers * 3 then .error "frame shorter than the mapped range"
    else if nFrame * numMarkers + numMarkers * 3 > parameters.length then
      .error "segment outside of the vector"
    else
      copyFrames numMarkers rest (nFrame + 1)
        (assignSegment parameters (nFrame * numMarkers) (frame.take (numMarkers * 3)))

/-- The function template `convertToTrajectory<T> (raw)`.  The time step
`1. / raw.dataRate ()` is represented for a non-zero data rate only. -/
def convertToTrajectory (raw : MarkerTrajectory) : Except String DiscreteTrajectory :=
  match copyFrames raw.numMarkers raw.positions 0
      (List.replicate (raw.numFrames * raw.numMarkers * 3) none) with
  | .error e => .error e
  | .ok parameters =>
    .ok { parameters := parameters, outputSize := raw.numMarkers,
          timeStep := 1 / raw.dataRate }

/-- A recording of two markers over two frames. -/
def sampleTrajectory : MarkerTrajectory :=
  { dataRate := 100, numFrames := 2, numMarkers := 2,
    positions := [[1, 2, 3, 4, 5, 6], [7, 8, 9, 10, 11, 12]] }

/-! ## Marker function factory -/

/-- A `GenericNumericLinearFunction`, the map `x ↦ A x + b`. -/
structure NumericLinearFunction where
  a : List (List ℚ)
  b : List ℚ
  deriving DecidableEq, Repr

/-- The member `outputSize ()` of a linear function: the size of `b`. -/
def NumericLinearFunction.outputSize (f : NumericLinearFunction) : Nat :=
  f.b.length

/-- The member of `MarkerFunctionData` that the factory reads: the pointer
`trajectory`, which may be null. -/
structure MarkerFunctionData where
  trajectory : Option DiscreteTrajectory
  deriving DecidableEq, Repr

namespace detail

/-- The allocator `detail::null<T>`: the zero function of one output on the
parameters of the trajectory. -/
def null (data : MarkerFunctionData) : Except String (Option NumericLinearFunction) :=
  match data.trajectory with
  | none => .error "failed to create null function: no joint trajectory"
  | some trajectory =>
    .ok (some { a := [List.replicate trajectory.parameters.length 0], b := [0] })

/-- The allocator `detail::laplacianDeformationEnergy<T>`: a null pointer. -/
def laplacianDeformationEnergy (_ : MarkerFunctionData) :
    Except String (Option NumericLinearFunction) :=
  .ok none

/-- The allocator `detail::boneLength<T>`: a null pointer. -/
def boneLength (_ : MarkerFunctionData) : Except String (Option NumericLinearFunction) :=
  .ok none

/-- A pair of a function name and its allocator, which may be a null pointer. -/
structure Mapping where
  name : String
  factory : Option (MarkerFunctionData → Except String (Option NumericLinearFunction))

/-- The table `MarkerFunctionFactoryMapping<T>::map`, up to its terminating
entry. -/
def map : List Mapping :=
  [⟨"null", some null⟩, ⟨"lde", some laplacianDeformationEnergy⟩,
   ⟨"bone-length", some boneLength⟩]

end detail

/-- The loop of `MarkerFunctionFactory::buildFunction` over the table. -/
def buildFunctionLoop (data : MarkerFunctionData) (name : String) :
    List detail.Mapping → Except String (Option NumericLinearFunction)
  | [] => .error "invalid function name"
  | element :: rest =>
    if element.name = name then
      match element.factory with
      | some factory => factory data
      | none => buildFunctionLoop data name rest
    else buildFunctionLoop data name rest

/-- The member `MarkerFunctionFactory::buildFunction<T> (name)` of a factory
built on `data`. -/
def buildFunction (data : MarkerFunctionData) (name : String) :
    Except String (Option NumericLinearFunction) :=
  buildFunctionLoop data name detail.map

/-- The two values of `Constraint<T>::type` that the problem builder
distinguishes. -/
inductive ConstraintType where
  | once
  | perFrame
  deriving DecidableEq, Repr

/-- The members of `Constraint<T>` that `buildConstraint` fills; an interval
bound `none` is infinite. -/
structure Constraint where
  function : Option NumericLinearFunction
  intervals : List (Option ℚ × Option ℚ)
  scales : List ℚ
  type : ConstraintType
  stateFunctionOrder : Nat
  deriving DecidableEq, Repr

/-- The member `MarkerFunctionFactory::buildConstraint<T> (name)`.  The call
`constraint.function->outputSize ()` goes through the pointer: on a null pointer
no constraint is returned. -/
def buildConstraint (data : MarkerFunctionData) (name : String) : Except String Constraint :=
  match buildFunction data name with
  | .error e => .error e
  | .ok none => .error "null function dereferenced"
  | .ok (some function) =>
    let constraint : Constraint :=
      { function := some function,
        intervals := List.replicate function.outputSize (none, none),
        scales := List.replicate function.outputSize 1,
        type := ConstraintType.once,
        stateFunctionOrder := 0 }
    if name = "bone-length" then .ok constraint
    else .error "unknown constraint"

/-- The member `MarkerFunctionFactory::listFunctions ()`. -/
def listFunctions : List String :=
  detail.map.map (fun element => element.name)

namespace AnimatedInteractionMesh

/-! ## Derived notions used by the statements -/

/-- Label of the vertex of index `j`, when the graph has such a vertex. -/
def vertexLabel (m : AnimatedInteractionMesh) (j : Nat) : Option String :=
  (m.graph.vertices[j]?).map (fun v => v.label)

/-- The frame-`frameId` position of vertex `j` is `(x, y, z)`, component by
component. -/
def HasPosition (m : AnimatedInteractionMesh) (j frameId : Nat) (x y z : ℚ) : Prop :=
  m.position j frameId 0 = x ∧ m.position j frameId 1 = y ∧ m.position j frameId 2 = z

instance (m : AnimatedInteractionMesh) (j frameId : Nat) (x y z : ℚ) :
    Decidable (m.HasPosition j frameId x y z) := by
  unfold HasPosition; infer_instance

/-- What is fixed in a skeleton edge: its two endpoints and its scale. -/
def GraphEdge.skeleton (e : GraphEdge) : Nat × Nat × ℚ :=
  (e.source, e.target, e.prop.scale)

/-- The raw weight of an edge in a frame, as the specification words it: the
inverse of the squared distance of its endpoints, and `1` when the endpoints
coincide. -/
def rawWeight (m : AnimatedInteractionMesh) (frameId : Nat) (e : GraphEdge) : ℚ :=
  if m.squaredDistance e.source e.target frameId = 0 then 1
  else 1 / m.squaredDistance e.source e.target frameId

/-- Sum of the raw weights of all skeleton edges in a frame. -/
def rawWeightSum (m : AnimatedInteractionMesh) (frameId : Nat) : ℚ :=
  (m.graph.edges.map (m.rawWeight frameId)).sum

/-- Sum of the stored weights of all skeleton edges in a frame. -/
def weightSum (m : AnimatedInteractionMesh) (frameId : Nat) : ℚ :=
  (m.graph.edges.map (fun e => e.prop.weight.getD frameId 0)).sum

/-- A weight sequence after the size test of `computeVertexWeights`. -/
def sized (numFrames : Nat) (w : List ℚ) : List ℚ :=
  if w.length ≠ numFrames then resize w numFrames else w

/-- What one frame of `computeVertexWeights` makes of an edge when the weights
are normalized by `total`. -/
def edgeStep (m : AnimatedInteractionMesh) (frameId : Nat) (total : ℚ) (e : GraphEdge) :
    GraphEdge :=
  { e with prop := { e.prop with
      weight := (sized m.numFrames e.prop.weight).set frameId (m.rawWeight frameId e / total) } }

/-- A weight sequence of values of `D` after the size test of
`computeVertexWeights`. -/
def sizedIn {D : Type} (A : Arithmetic D) (numFrames : Nat) (w : List D) : List D :=
  if w.length ≠ numFrames then resizeIn A w numFrames else w

/-- The raw weight, in the arithmetic `A`, of an edge from `s` to `t` in a
frame: `1.` when the squared norm computed for its endpoints is zero, the
inverse of that squared norm otherwise. -/
def rawWeightIn {D : Type} (A : Arithmetic D) (m : AnimatedInteractionMesh)
    (frameId s t : Nat) : D :=
  if A.isZero (squaredNormIn A m s t frameId) then A.ofRat 1
  else A.div (A.ofRat 1) (squaredNormIn A m s t frameId)

/-- The raw weights, in the arithmetic `A`, of a list of edges given by their
endpoints. -/
def rawWeightsIn {D : Type} (A : Arithmetic D) (m : AnimatedInteractionMesh)
    (frameId : Nat) (ends : List (Nat × Nat)) : List D :=
  ends.map (fun p => rawWeightIn A m frameId p.1 p.2)

/-- The sum of the raw weights of all skeleton edges in a frame, accumulated in
the arithmetic `A` from `0.` in the order of the edges. -/
def rawWeightSumIn {D : Type} (A : Arithmetic D) (m : AnimatedInteractionMesh)
    (frameId : Nat) : D :=
  (rawWeightsIn A m frameId (m.graph.edges.map (fun e => (e.source, e.target)))).foldl
    A.add (A.ofRat 0)

/-- The weight, in the arithmetic `A`, of an edge from `s` to `t` in a frame:
its raw weight divided by the accumulated sum when that sum is positive, and
its raw weight otherwise. -/
def normalizedWeightIn {D : Type} (A : Arithmetic D) (m : AnimatedInteractionMesh)
    (frameId s t : Nat) : D :=
  if A.isPositive (rawWeightSumIn A m frameId)
  then A.div (rawWeightIn A m frameId s t) (rawWeightSumIn A m frameId)
  else rawWeightIn A m frameId s t

/-- A skeleton edge of the mesh as a weighted edge over `ℚ`. -/
def GraphEdge.weighted (e : GraphEdge) : WeightedEdge ℚ :=
  ⟨e.source, e.target, e.prop.weight⟩

/-- The mesh `loadAnimatedMesh` holds once the vertices `vs` are added and before
it reads the frames: the metadata of the document and a zeroed state vector. -/
def initialMesh (doc : TrajectoryDoc) (vs : List Vertex) : AnimatedInteractionMesh :=
  { framerate := doc.frameRate, numFrames := doc.numFrames,
    numVertices := toUnsigned doc.partLabels.length,
    state := List.replicate (umul (umul doc.numFrames (toUnsigned doc.partLabels.length)) 3) 0,
    graph := { vertices := vs, edges := [] }, interactionMeshes := [] }

/-- Component `a` (0, 1 or 2) of a 3-tuple of the document. -/
def component (p : ℚ × ℚ × ℚ) (a : Nat) : ℚ :=
  match a with
  | 0 => p.1
  | 1 => p.2.1
  | _ => p.2.2

/-- Component `a` of the 3-tuple `frames[f][v]` when the document supplies it,
and `0` when it does not. -/
def suppliedCoordinate (doc : TrajectoryDoc) (f v a : Nat) : ℚ :=
  match doc.frames[f]? with
  | some node =>
    match node[v]? with
    | some p => component p a
    | none => 0
  | none => 0

/-- The two endpoints of an edge of an interaction mesh graph. -/
def endpoints (e : InteractionMeshGraphEdge) : Nat × Nat :=
  (e.source, e.target)

/-- The triangles of the facets that the loops of `computeInteractionMesh`
visit, in the order of the visits. -/
def visitedTriangles (circulations : List FacetCirculation) : List Triangle :=
  (circulations.map (fun c => c.first :: c.next)).flatten

/-- The three pairs `(source, target)` that the loop over the corners of one
triangle hands to `boost::add_edge`: the lookups of corner `i` and of corner
`i + 1`. -/
def triangleSides (m : AnimatedInteractionMesh) (frameId : Nat) (triangle : Triangle) :
    List (Nat × Nat) :=
  (List.range 3).map (fun i =>
    (m.getVertexFromPosition frameId (triangle.get i).1 (triangle.get i).2.1
        (triangle.get i).2.2,
     m.getVertexFromPosition frameId (triangle.get (i + 1)).1 (triangle.get (i + 1)).2.1
        (triangle.get (i + 1)).2.2))

/-- One more than the largest endpoint of a list of edges, and `0` for no
edge. -/
def endpointBound (es : List InteractionMeshGraphEdge) : Nat :=
  (es.map (fun e => max e.source e.target + 1)).foldr max 0

/-- The graph that `computeInteractionMesh (frameId)` builds from an empty
graph. -/
def frameGraph (cgal : Triangulation3) (m : AnimatedInteractionMesh) (frameId : Nat) :
    InteractionMeshGraph :=
  addFiniteEdges m frameId
    (cgal.incidentFacets (triangulationPoints cgal.defaultPoint m frameId))
    InteractionMeshGraph.empty

/-- The position of vertex `v` in frame `f`, as a point. -/
def framePoint (m : AnimatedInteractionMesh) (v f : Nat) : Point :=
  (m.position v f 0, m.position v f 1, m.position v f 2)

/-- The vertices the label loop builds when every view lies in the state
vector. -/
def labelledVertices (nv nf : Nat) (labels : List String) (v0 : Nat) : List Vertex :=
  (labels.enumFrom v0).map
    (fun p => { label := p.2,
                positions := (List.range nf).map (fun f => umul (umul f nv) 3 + p.1 * 3) })

/-- Two meshes that differ at most by the content (not the size) of the state
vector. -/
def SameShape (m m1 : AnimatedInteractionMesh) : Prop :=
  m1.framerate = m.framerate ∧ m1.numFrames = m.numFrames
    ∧ m1.numVertices = m.numVertices ∧ m1.graph = m.graph
    ∧ m1.interactionMeshes = m.interactionMeshes ∧ m1.state.length = m.state.length

/-- The invariant that both factories establish: the exact size
`3 * numVertices * numFrames` fits `unsigned`, it is the length of the state
vector, and the graph has `numVertices` vertices, vertex `i` holding `numFrames`
views, the one of frame `f` at offset `f * numVertices * 3 + i * 3`. -/
structure WellFormed (m : AnimatedInteractionMesh) : Prop where
  size_lt : 3 * m.numVertices * m.numFrames < UINT_SIZE
  state_length : m.state.length = 3 * m.numVertices * m.numFrames
  views : m.graph.vertices.map (fun v => v.positions)
    = (List.range m.numVertices).map
        (fun i => (List.range m.numFrames).map (fun f => f * m.numVertices * 3 + i * 3))

/-- A mesh as the default constructor and the accessor `graph ()` can build it:
a state vector of three elements and one vertex holding 1431655766 views of
it. -/
def manyViewsMesh : AnimatedInteractionMesh :=
  { empty with
    state := [0, 0, 0],
    graph := { vertices := [Vertex.mk "marker" (List.replicate 1431655766 0)],
               edges := [] } }

/-- The mesh `manyViewsMesh` after `recomputeCachedData ()`: one vertex and
1431655766 frames; both counts are `unsigned` values, their triple product is
not. -/
def manyFramesMesh : AnimatedInteractionMesh :=
  recomputeCachedData manyViewsMesh

/-- A mesh as the default constructor and the accessors `state ()` and
`graph ()` can build it: a state vector of three elements and 1431655766
vertices holding one view of it each. -/
def manyVerticesGraph : AnimatedInteractionMesh :=
  { empty with
    state := [5, 7, 9],
    graph := { vertices := List.replicate 1431655766 (Vertex.mk "marker" [0]),
               edges := [] } }

/-- The mesh `manyVerticesGraph` after `recomputeCachedData ()`: 1431655766
vertices and one frame; the count of vertices is an `unsigned` value, its
triple is not. -/
def manyVerticesMesh : AnimatedInteractionMesh :=
  recomputeCachedData manyVerticesGraph

/-! ## Sample data -/

/-- A trajectory document with two markers and two frames. -/
def sampleDoc : TrajectoryDoc :=
  { type := "MultiVector3Seq", frameRate := 30, numFrames := 2,
    partLabels := ["head", "hand"],
    frames := [[(1, 2, 3), (4, 5, 6)], [(7, 8, 9), (10, 11, 13)]] }

/-- A character document: one edge between the two markers of `sampleDoc`, one
edge to a marker it does not have. -/
def sampleCharacter : CharacterDoc :=
  { edges := [⟨"head", "hand", 1⟩, ⟨"head", "foot", 1⟩], extraMarkerEdges := [] }

/-- The mesh `loadAnimatedMesh` builds from `sampleDoc` and `sampleCharacter`. -/
def sampleMesh : AnimatedInteractionMesh :=
  { framerate := 30, numFrames := 2, numVertices := 2,
    state := [1, 2, 3, 4, 5, 6, 7, 8, 9, 10, 11, 13],
    graph := { vertices := [⟨"head", [0, 6]⟩, ⟨"hand", [3, 9]⟩],
               edges := [⟨0, 1, ⟨1, [1, 1]⟩⟩] },
    interactionMeshes := [] }

/-- A trajectory document in which two markers carry the same label. -/
def duplicateDoc : TrajectoryDoc :=
  { type := "MultiVector3Seq", frameRate := 30, numFrames := 1,
    partLabels := ["hand", "hand"],
    frames := [[(1, 2, 3), (4, 5, 6)]] }

/-- A character document without edges. -/
def noEdges : CharacterDoc :=
  { edges := [], extraMarkerEdges := [] }

/-- The mesh `loadAnimatedMesh` builds from `duplicateDoc` and `noEdges`. -/
def duplicateMesh : AnimatedInteractionMesh :=
  { framerate := 30, numFrames := 1, numVertices := 2,
    state := [1, 2, 3, 4, 5, 6],
    graph := { vertices := [⟨"hand", [0]⟩, ⟨"hand", [3]⟩], edges := [] },
    interactionMeshes := [] }

/-- A vector with one element more than the state vector of `sampleMesh`. -/
def longVector : List ℚ :=
  [1, 2, 3, 4, 5, 6, 7, 8, 9, 10, 11, 13, 0]

/-- A vector with as many elements as the state vector of `sampleMesh`. -/
def otherVector : List ℚ :=
  [0, 0, 0, 1, 0, 0, 0, 0, 0, 0, 2, 0]

/-- The sample mesh after its caller has removed, through `graph ()`, the view
of the last frame from every vertex. -/
def trimmedMesh : AnimatedInteractionMesh :=
  { sampleMesh with
    graph := { vertices := [⟨"head", [0]⟩, ⟨"hand", [3]⟩],
               edges := sampleMesh.graph.edges } }

/-- The mesh on which `recomputeCachedData ()` calls `computeVertexWeights ()`
when it is run on `trimmedMesh`: one frame, and an edge whose weight sequence
still has two elements. -/
def oneFrameMesh : AnimatedInteractionMesh :=
  { trimmedMesh with numFrames := 1 }

/-- A trajectory document with one marker that declares 1431655766 frames and
supplies none. -/
def manyFramesDoc : TrajectoryDoc :=
  { type := "MultiVector3Seq", frameRate := 30, numFrames := 1431655766,
    partLabels := ["marker"], frames := [] }

/-- A trajectory document that supplies the second marker in its first frame
only. -/
def sparseDoc : TrajectoryDoc :=
  { type := "MultiVector3Seq", frameRate := 30, numFrames := 2,
    partLabels := ["head", "hand"],
    frames := [[(1, 2, 3), (4, 5, 6)], [(7, 8, 9)]] }

/-- A trajectory document with four markers at the corners of a tetrahedron, in
one frame. -/
def tetraDoc : TrajectoryDoc :=
  { type := "MultiVector3Seq", frameRate := 30, numFrames := 1,
    partLabels := ["a", "b", "c", "d"],
    frames := [[(0, 0, 0), (1, 0, 0), (0, 1, 0), (0, 0, 1)]] }

/-- The mesh `loadAnimatedMesh` builds from `tetraDoc` and `noEdges`. -/
def tetraMesh : AnimatedInteractionMesh :=
  { framerate := 30, numFrames := 1, numVertices := 4,
    state := [0, 0, 0, 1, 0, 0, 0, 1, 0, 0, 0, 1],
    graph := { vertices := [⟨"a", [0]⟩, ⟨"b", [3]⟩, ⟨"c", [6]⟩, ⟨"d", [9]⟩], edges := [] },
    interactionMeshes := [] }

/-- The points `computeInteractionMesh (0)` hands to the triangulation for
`tetraMesh` when a default point is the origin: four default points and the
four corners. -/
def tetraPoints : List Point :=
  [(0, 0, 0), (0, 0, 0), (0, 0, 0), (0, 0, 0), (0, 0, 0), (1, 0, 0), (0, 1, 0), (0, 0, 1)]

/-- The six edges of the tetrahedron of `tetraMesh`, each with the two faces of
the tetrahedron that contain it. -/
def tetraCirculations : List FacetCirculation :=
  [ ⟨⟨(0, 0, 0), (1, 0, 0), (0, 1, 0)⟩, [⟨(0, 0, 0), (1, 0, 0), (0, 0, 1)⟩]⟩,
    ⟨⟨(0, 0, 0), (1, 0, 0), (0, 1, 0)⟩, [⟨(0, 0, 0), (0, 1, 0), (0, 0, 1)⟩]⟩,
    ⟨⟨(0, 0, 0), (1, 0, 0), (0, 0, 1)⟩, [⟨(0, 0, 0), (0, 1, 0), (0, 0, 1)⟩]⟩,
    ⟨⟨(0, 0, 0), (1, 0, 0), (0, 1, 0)⟩, [⟨(1, 0, 0), (0, 1, 0), (0, 0, 1)⟩]⟩,
    ⟨⟨(0, 0, 0), (1, 0, 0), (0, 0, 1)⟩, [⟨(1, 0, 0), (0, 1, 0), (0, 0, 1)⟩]⟩,
    ⟨⟨(0, 0, 0), (0, 1, 0), (0, 0, 1)⟩, [⟨(1, 0, 0), (0, 1, 0), (0, 0, 1)⟩]⟩ ]

/-- A triangulation library whose default point is the origin and which, for
the points of `tetraMesh`, answers with the single tetrahedron they span. -/
def tetraCgal : Triangulation3 :=
  { defaultPoint := (0, 0, 0),
    incidentFacets := fun points => if points = tetraPoints then tetraCirculations else [] }

/-- A trajectory document without markers that declares five frames. -/
def noLabelsDoc : TrajectoryDoc :=
  { type := "MultiVector3Seq", frameRate := 30, numFrames := 5,
    partLabels := [], frames := [] }

/-- The mesh `loadAnimatedMesh` builds from `noLabelsDoc` and `noEdges`. -/
def noLabelsMesh : AnimatedInteractionMesh :=
  { framerate := 30, numFrames := 5, numVertices := 0, state := [],
    graph := { vertices := [], edges := [] }, interactionMeshes := [] }

/-- A trajectory document with three markers on a line, in two frames. -/
def chainDoc : TrajectoryDoc :=
  { type := "MultiVector3Seq", frameRate := 30, numFrames := 2,
    partLabels := ["a", "b", "c"],
    frames := [[(0, 0, 0), (1, 0, 0), (3, 0, 0)], [(0, 0, 0), (2, 0, 0), (3, 0, 0)]] }

/-- A character document that joins the markers of `chainDoc` in a chain. -/
def chainCharacter : CharacterDoc :=
  { edges := [⟨"a", "b", 1⟩, ⟨"b", "c", 1⟩], extraMarkerEdges := [] }

/-- The mesh `loadAnimatedMesh` builds from `chainDoc` and `chainCharacter`:
two skeleton edges, of squared lengths 1 and 4 in frame 0, 4 and 1 in frame 1. -/
def chainMesh : AnimatedInteractionMesh :=
  { framerate := 30, numFrames := 2, numVertices := 3,
    state := [0, 0, 0, 1, 0, 0, 3, 0, 0, 0, 0, 0, 2, 0, 0, 3, 0, 0],
    graph := { vertices := [⟨"a", [0, 9]⟩, ⟨"b", [3, 12]⟩, ⟨"c", [6, 15]⟩],
               edges := [⟨0, 1, ⟨1, [4 / 5, 1 / 5]⟩⟩, ⟨1, 2, ⟨1, [1 / 5, 4 / 5]⟩⟩] },
    interactionMeshes := [] }

/-- The mesh `chainMesh` with other positions in its second frame: the middle
marker is at `(1, 0, 0)` and the last one at `(2, 0, 0)`. -/
def chainMoved : AnimatedInteractionMesh :=
  { chainMesh with state := [0, 0, 0, 1, 0, 0, 3, 0, 0, 0, 0, 0, 1, 0, 0, 2, 0, 0] }

/-- The mesh `chainMesh` with every position `p` of its first frame replaced by
`3 * p + (1, 1, 1)`. -/
def chainSimilar : AnimatedInteractionMesh :=
  { chainMesh with state := [1, 1, 1, 4, 1, 1, 10, 1, 1, 0, 0, 0, 2, 0, 0, 3, 0, 0] }

/-- The frame-0 graph of `tetraMesh` for the library answer `tetraCgal`: four
vertices without label and three edges for each of the twelve facet visits. -/
def tetraGraph : InteractionMeshGraph :=
  { vertices := [⟨""⟩, ⟨""⟩, ⟨""⟩, ⟨""⟩],
    edges := [
      ⟨0, 1, ⟨0⟩⟩, ⟨1, 2, ⟨0⟩⟩, ⟨2, 0, ⟨0⟩⟩, ⟨0, 1, ⟨0⟩⟩, ⟨1, 3, ⟨0⟩⟩, ⟨3, 0, ⟨0⟩⟩,
      ⟨0, 1, ⟨0⟩⟩, ⟨1, 2, ⟨0⟩⟩, ⟨2, 0, ⟨0⟩⟩, ⟨0, 2, ⟨0⟩⟩, ⟨2, 3, ⟨0⟩⟩, ⟨3, 0, ⟨0⟩⟩,
      ⟨0, 1, ⟨0⟩⟩, ⟨1, 3, ⟨0⟩⟩, ⟨3, 0, ⟨0⟩⟩, ⟨0, 2, ⟨0⟩⟩, ⟨2, 3, ⟨0⟩⟩, ⟨3, 0, ⟨0⟩⟩,
      ⟨0, 1, ⟨0⟩⟩, ⟨1, 2, ⟨0⟩⟩, ⟨2, 0, ⟨0⟩⟩, ⟨1, 2, ⟨0⟩⟩, ⟨2, 3, ⟨0⟩⟩, ⟨3, 1, ⟨0⟩⟩,
      ⟨0, 1, ⟨0⟩⟩, ⟨1, 3, ⟨0⟩⟩, ⟨3, 0, ⟨0⟩⟩, ⟨1, 2, ⟨0⟩⟩, ⟨2, 3, ⟨0⟩⟩, ⟨3, 1, ⟨0⟩⟩,
      ⟨0, 2, ⟨0⟩⟩, ⟨2, 3, ⟨0⟩⟩, ⟨3, 0, ⟨0⟩⟩, ⟨1, 2, ⟨0⟩⟩, ⟨2, 3, ⟨0⟩⟩, ⟨3, 1, ⟨0⟩⟩ ] }

/-- A trajectory document with three markers, none at the origin, in one
frame. -/
def triDoc : TrajectoryDoc :=
  { type := "MultiVector3Seq", frameRate := 30, numFrames := 1,
    partLabels := ["b", "c", "d"],
    frames := [[(1, 0, 0), (0, 1, 0), (0, 0, 1)]] }

/-- The mesh `loadAnimatedMesh` builds from `triDoc` and `noEdges`. -/
def triMesh : AnimatedInteractionMesh :=
  { framerate := 30, numFrames := 1, numVertices := 3,
    state := [1, 0, 0, 0, 1, 0, 0, 0, 1],
    graph := { vertices := [⟨"b", [0]⟩, ⟨"c", [3]⟩, ⟨"d", [6]⟩], edges := [] },
    interactionMeshes := [] }

/-- The points `computeInteractionMesh (0)` hands to the triangulation for
`triMesh` when a default point is the origin: three default points and the
three markers. -/
def triPoints : List Point :=
  [(0, 0, 0), (0, 0, 0), (0, 0, 0), (1, 0, 0), (0, 1, 0), (0, 0, 1)]

/-- A triangulation library whose default point is the origin and which, for
the points of `triMesh`, answers with the single tetrahedron they span: the
origin and the three markers. -/
def triCgal : Triangulation3 :=
  { defaultPoint := (0, 0, 0),
    incidentFacets := fun points => if points = triPoints then tetraCirculations else [] }

/-- The frame-0 graph of `triMesh` for the library answer `triCgal`: the origin,
which is the position of no vertex, is looked up as the end iterator 3. -/
def triGraph : InteractionMeshGraph :=
  { vertices := [⟨""⟩, ⟨""⟩, ⟨""⟩, ⟨""⟩],
    edges := [
      ⟨3, 0, ⟨0⟩⟩, ⟨0, 1, ⟨0⟩⟩, ⟨1, 3, ⟨0⟩⟩, ⟨3, 0, ⟨0⟩⟩, ⟨0, 2, ⟨0⟩⟩, ⟨2, 3, ⟨0⟩⟩,
      ⟨3, 0, ⟨0⟩⟩, ⟨0, 1, ⟨0⟩⟩, ⟨1, 3, ⟨0⟩⟩, ⟨3, 1, ⟨0⟩⟩, ⟨1, 2, ⟨0⟩⟩, ⟨2, 3, ⟨0⟩⟩,
      ⟨3, 0, ⟨0⟩⟩, ⟨0, 2, ⟨0⟩⟩, ⟨2, 3, ⟨0⟩⟩, ⟨3, 1, ⟨0⟩⟩, ⟨1, 2, ⟨0⟩⟩, ⟨2, 3, ⟨0⟩⟩,
      ⟨3, 0, ⟨0⟩⟩, ⟨0, 1, ⟨0⟩⟩, ⟨1, 3, ⟨0⟩⟩, ⟨0, 1, ⟨0⟩⟩, ⟨1, 2, ⟨0⟩⟩, ⟨2, 0, ⟨0⟩⟩,
      ⟨3, 0, ⟨0⟩⟩, ⟨0, 2, ⟨0⟩⟩, ⟨2, 3, ⟨0⟩⟩, ⟨0, 1, ⟨0⟩⟩, ⟨1, 2, ⟨0⟩⟩, ⟨2, 0, ⟨0⟩⟩,
      ⟨3, 1, ⟨0⟩⟩, ⟨1, 2, ⟨0⟩⟩, ⟨2, 3, ⟨0⟩⟩, ⟨0, 1, ⟨0⟩⟩, ⟨1, 2, ⟨0⟩⟩, ⟨2, 0, ⟨0⟩⟩ ] }

/-- The mesh `tetraMesh` once `computeInteractionMeshes ()` has run with the
library answer `tetraCgal`. -/
def tetraMeshOnce : AnimatedInteractionMesh :=
  { tetraMesh with interactionMeshes := [tetraGraph] }

/-- A length whose square is below the least positive `double`. -/
def tiny : ℚ := 1 / 2 ^ 600

/-- A length whose square is above the greatest finite `double`. -/
def huge : ℚ := 2 ^ 600

/-- The mesh `loadAnimatedMesh` hands to `computeVertexWeights ()` for one frame
with three markers, at `(0, 0, 0)`, `(tiny, 0, 0)` and `(1, 0, 0)`, and
skeleton edges from the first marker to the other two. -/
def closeMesh : AnimatedInteractionMesh :=
  { framerate := 30, numFrames := 1, numVertices := 3,
    state := [0, 0, 0, tiny, 0, 0, 1, 0, 0],
    graph := { vertices := [⟨"a", [0]⟩, ⟨"b", [3]⟩, ⟨"c", [6]⟩],
               edges := [⟨0, 1, ⟨1, []⟩⟩, ⟨0, 2, ⟨1, []⟩⟩] },
    interactionMeshes := [] }

/-- The mesh `loadAnimatedMesh` hands to `computeVertexWeights ()` for one frame
with two markers, at `(0, 0, 0)` and `(huge, 0, 0)`, joined by a skeleton
edge. -/
def farMesh : AnimatedInteractionMesh :=
  { framerate := 30, numFrames := 1, numVertices := 2,
    state := [0, 0, 0, huge, 0, 0],
    graph := { vertices := [⟨"a", [0]⟩, ⟨"b", [3]⟩], edges := [⟨0, 1, ⟨1, []⟩⟩] },
    interactionMeshes := [] }

/-! ## Lemmas on machine integers -/

theorem umul_eq_of_lt {a b : Nat} (h : a * b < UINT_SIZE) : umul a b = a * b :=
  Nat.mod_eq_of_lt h

theorem uadd_eq_of_lt {a b : Nat} (h : a + b < UINT_SIZE) : uadd a b = a + b :=
  Nat.mod_eq_of_lt h

theorem umul_umul_left (a b c : Nat) : umul (umul a b) c = (a * b * c) % UINT_SIZE := by
  unfold umul
  rw [Nat.mul_mod, Nat.mod_mod, ← Nat.mul_mod]

theorem optimizationVectorSize_eq_mod (m : AnimatedInteractionMesh) :
    m.optimizationVectorSize = (3 * m.numVertices * m.numFrames) % UINT_SIZE :=
  umul_umul_left 3 m.numVertices m.numFrames

/-! ## Lemmas on the lookup loops -/

/-- First index, counted from `i`, of an element satisfying `p`. -/
theorem getVertexFromLabelLoop_eq (label : String) (vs : List Vertex) (i : Nat) :
    getVertexFromLabelLoop label vs i = i + vs.findIdx (fun v => decide (v.label = label)) := by
  induction vs generalizing i with
  | nil => simp [getVertexFromLabelLoop]
  | cons v vs ih =>
    by_cases h : v.label = label
    · simp [getVertexFromLabelLoop, List.findIdx_cons, h]
    · simp [getVertexFromLabelLoop, List.findIdx_cons, h, ih]
      omega

theorem getVertexFromPositionLoop_eq (state : List ℚ) (frameId : Nat) (x y z : ℚ)
    (vs : List Vertex) (i : Nat) :
    getVertexFromPositionLoop state frameId x y z vs i
      = i + vs.findIdx (positionMatches state frameId x y z) := by
  induction vs generalizing i with
  | nil => simp [getVertexFromPositionLoop]
  | cons v vs ih =>
    by_cases h : positionMatches state frameId x y z v = true
    · simp [getVertexFromPositionLoop, List.findIdx_cons, h]
    · simp [getVertexFromPositionLoop, List.findIdx_cons, h, ih]
      omega

theorem getVertexFromLabel_eq_findIdx (m : AnimatedInteractionMesh) (label : String) :
    m.getVertexFromLabel label
      = m.graph.vertices.findIdx (fun v => decide (v.label = label)) := by
  simp [getVertexFromLabel, getVertexFromLabelLoop_eq]

theorem getVertexFromPosition_eq_findIdx (m : AnimatedInteractionMesh) (frameId : Nat)
    (x y z : ℚ) :
    m.getVertexFromPosition frameId x y z
      = m.graph.vertices.findIdx (positionMatches m.state frameId x y z) := by
  simp [getVertexFromPosition, getVertexFromPositionLoop_eq]

/-- A `findIdx` result is the least index of a match, or the length when there
is none. -/
theorem findIdx_least {α : Type} (p : α → Bool) (xs : List α) :
    xs.findIdx p ≤ xs.length
    ∧ (∀ j, j < xs.findIdx p → ∀ a, xs[j]? = some a → p a = false)
    ∧ (xs.findIdx p < xs.length → ∃ a, xs[xs.findIdx p]? = some a ∧ p a = true)
    ∧ (xs.findIdx p = xs.length ↔ ∀ j, j < xs.length → ∀ a, xs[j]? = some a → p a = false) := by
  refine ⟨List.findIdx_le_length p, ?_, ?_, ?_⟩
  · intro j hj a ha
    have hlt : j < xs.length := lt_of_lt_of_le hj (List.findIdx_le_length p)
    have h := List.not_of_lt_findIdx hj
    rw [List.getElem?_eq_getElem hlt] at ha
    cases ha
    exact h
  · intro h
    exact ⟨xs[xs.findIdx p], List.getElem?_eq_getElem h, List.findIdx_getElem⟩
  · rw [List.findIdx_eq_length]
    constructor
    · intro h j hj a ha
      rw [List.getElem?_eq_getElem hj] at ha
      cases ha
      exact h _ (List.getElem_mem _)
    · intro h a ha
      obtain ⟨j, hj, rfl⟩ := List.getElem_of_mem ha
      exact h j hj _ (List.getElem?_eq_getElem hj)

theorem positionMatches_iff (m : AnimatedInteractionMesh) (frameId : Nat) (x y z : ℚ)
    (j : Nat) (v : Vertex) (hv : m.graph.vertices[j]? = some v) :
    positionMatches m.state frameId x y z v = true ↔ m.HasPosition j frameId x y z := by
  simp [positionMatches, HasPosition, position, viewOffset, hv, and_assoc]

/-- The result of `getVertexFromLabel` is the least index of a vertex carrying the
label, or the end iterator when there is none. -/
theorem getVertexFromLabel_least (m : AnimatedInteractionMesh) (label : String) :
    m.getVertexFromLabel label ≤ m.vertexEnd
    ∧ (∀ j, j < m.getVertexFromLabel label → m.vertexLabel j ≠ some label)
    ∧ (m.getVertexFromLabel label < m.vertexEnd →
        m.vertexLabel (m.getVertexFromLabel label) = some label)
    ∧ (m.getVertexFromLabel label = m.vertexEnd ↔
        ∀ j, j < m.vertexEnd → m.vertexLabel j ≠ some label) := by
  rw [getVertexFromLabel_eq_findIdx]
  obtain ⟨h1, h2, h3, h4⟩ :=
    findIdx_least (fun v : Vertex => decide (v.label = label)) m.graph.vertices
  refine ⟨h1, ?_, ?_, ?_⟩
  · intro j hj hl
    have hlt : j < m.graph.vertices.length := lt_of_lt_of_le hj h1
    have := h2 j hj _ (List.getElem?_eq_getElem hlt)
    simp [vertexLabel, List.getElem?_eq_getElem hlt] at hl
    simp [hl] at this
  · intro h
    obtain ⟨a, ha, hp⟩ := h3 h
    simpa [vertexLabel, ha] using hp
  · unfold vertexEnd
    rw [h4]
    constructor
    · intro h j hj hl
      have := h j hj _ (List.getElem?_eq_getElem hj)
      simp [vertexLabel, List.getElem?_eq_getElem hj] at hl
      simp [hl] at this
    · intro h j hj a ha
      have := h j hj
      simp [vertexLabel, ha] at this
      simpa using this

/-! ## Lemmas on the skeleton edge loader -/

theorem loadEdge_vertices (vEnd : Nat) (m : AnimatedInteractionMesh) (e : EdgeEntry) :
    (loadEdge vEnd m e).graph.vertices = m.graph.vertices := by
  unfold loadEdge
  simp only []
  split_ifs <;> rfl

theorem loadEdge_skip (vEnd : Nat) (m : AnimatedInteractionMesh) (e : EdgeEntry)
    (h : m.getVertexFromLabel e.startMarker = vEnd
      ∨ m.getVertexFromLabel e.endMarker = vEnd
      ∨ m.getVertexFromLabel e.startMarker = m.getVertexFromLabel e.endMarker) :
    loadEdge vEnd m e = m := by
  unfold loadEdge
  simp only []
  split_ifs with h1 h2 h3
  · rfl
  · rfl
  · rfl
  · rcases h with h | h | h
    · exact absurd h h1
    · exact absurd h h2
    · exact absurd h h3

theorem loadEdgesLoop_vertices (vEnd : Nat) (es : List EdgeEntry)
    (m : AnimatedInteractionMesh) :
    (loadEdgesLoop vEnd es m).graph.vertices = m.graph.vertices := by
  induction es generalizing m with
  | nil => rfl
  | cons e es ih => rw [loadEdgesLoop, ih, loadEdge_vertices]

theorem loadEdgesFromYaml_vertices (es : List EdgeEntry) (m : AnimatedInteractionMesh) :
    (loadEdgesFromYaml es m).graph.vertices = m.graph.vertices :=
  loadEdgesLoop_vertices _ es m

theorem loadEdgesLoop_append (vEnd : Nat) (es₁ es₂ : List EdgeEntry)
    (m : AnimatedInteractionMesh) :
    loadEdgesLoop vEnd (es₁ ++ es₂) m = loadEdgesLoop vEnd es₂ (loadEdgesLoop vEnd es₁ m) := by
  induction es₁ generalizing m with
  | nil => rfl
  | cons e es ih => simp [loadEdgesLoop, ih]

theorem getVertexFromLabel_congr (m₁ m₂ : AnimatedInteractionMesh)
    (h : m₁.graph.vertices = m₂.graph.vertices) (label : String) :
    m₁.getVertexFromLabel label = m₂.getVertexFromLabel label := by
  simp [getVertexFromLabel, h]

/-- A label that no vertex carries resolves to the end iterator. -/
theorem getVertexFromLabel_eq_end (m : AnimatedInteractionMesh) (label : String)
    (h : ∀ v ∈ m.graph.vertices, v.label ≠ label) :
    m.getVertexFromLabel label = m.vertexEnd := by
  rw [getVertexFromLabel_eq_findIdx, vertexEnd, List.findIdx_eq_length]
  intro v hv
  simpa using h v hv

/-! ## Lemmas on the vertex loop of the loader -/

theorem pushViews_ok_iff (S nv v : Nat) (fs views : List Nat) :
    pushViews S nv v fs = .ok views ↔
      (∀ f ∈ fs, umul (umul f nv) 3 + v * 3 + 3 ≤ S)
      ∧ views = fs.map (fun f => umul (umul f nv) 3 + v * 3) := by
  induction fs generalizing views with
  | nil => simp [pushViews, eq_comm]
  | cons f fs ih =>
    simp only [pushViews]
    by_cases hin : umul (umul f nv) 3 + v * 3 + 3 ≤ S
    · simp only [hin, if_true]
      cases hrec : pushViews S nv v fs with
      | error e =>
        simp only [List.mem_cons, forall_eq_or_imp, hin, true_and, List.map_cons]
        constructor
        · intro h; cases h
        · rintro ⟨h1, -⟩
          have := (ih (fs.map (fun f => umul (umul f nv) 3 + v * 3))).mpr ⟨h1, rfl⟩
          rw [hrec] at this; cases this
      | ok vs =>
        have := (ih vs).mp hrec
        simp only [List.mem_cons, forall_eq_or_imp, hin, true_and, List.map_cons]
        constructor
        · intro h
          injection h with h
          subst h
          exact ⟨this.1, by rw [this.2]⟩
        · rintro ⟨-, h2⟩
          rw [h2, this.2]
    · simp [hin]

theorem addVertices_ok_iff (S nv nf : Nat) (labels : List String) (v0 : Nat)
    (vs : List Vertex) :
    addVertices S nv nf labels v0 = .ok vs ↔
      (∀ i, i < labels.length → ∀ f, f < nf → umul (umul f nv) 3 + (v0 + i) * 3 + 3 ≤ S)
      ∧ vs = labelledVertices nv nf labels v0 := by
  induction labels generalizing v0 vs with
  | nil => simp [addVertices, labelledVertices, eq_comm]
  | cons l ls ih =>
    have hsplit : (∀ i, i < (l :: ls).length → ∀ f, f < nf →
          umul (umul f nv) 3 + (v0 + i) * 3 + 3 ≤ S) ↔
        (∀ f ∈ List.range nf, umul (umul f nv) 3 + v0 * 3 + 3 ≤ S)
        ∧ (∀ i, i < ls.length → ∀ f, f < nf →
            umul (umul f nv) 3 + (v0 + 1 + i) * 3 + 3 ≤ S) := by
      constructor
      · intro h
        refine ⟨fun f hf => ?_, fun i hi f hf => ?_⟩
        · simpa using h 0 (by simp) f (List.mem_range.mp hf)
        · have := h (i + 1) (by simpa using hi) f hf
          rwa [show v0 + (i + 1) = v0 + 1 + i by omega] at this
      · rintro ⟨h0, hs⟩ i hi f hf
        cases i with
        | zero => simpa using h0 f (List.mem_range.mpr hf)
        | succ i =>
          have := hs i (by simpa using hi) f hf
          rwa [show v0 + 1 + i = v0 + (i + 1) by omega] at this
    have hcons : labelledVertices nv nf (l :: ls) v0
        = { label := l,
            positions := (List.range nf).map (fun f => umul (umul f nv) 3 + v0 * 3) }
          :: labelledVertices nv nf ls (v0 + 1) := by
      simp [labelledVertices, List.enumFrom]
    rw [hsplit, hcons]
    simp only [addVertices]
    cases hp : pushViews S nv v0 (List.range nf) with
    | error e =>
      constructor
      · intro h; cases h
      · rintro ⟨⟨h0, -⟩, -⟩
        have := (pushViews_ok_iff S nv v0 (List.range nf) _).mpr ⟨h0, rfl⟩
        rw [hp] at this; cases this
    | ok views =>
      obtain ⟨h0, hviews⟩ := (pushViews_ok_iff S nv v0 (List.range nf) views).mp hp
      cases hr : addVertices S nv nf ls (v0 + 1) with
      | error e =>
        constructor
        · intro h; cases h
        · rintro ⟨⟨-, hs⟩, -⟩
          have := (ih (v0 + 1) _).mpr ⟨hs, rfl⟩
          rw [hr] at this; cases this
      | ok rest =>
        obtain ⟨hs, hrest⟩ := (ih (v0 + 1) rest).mp hr
        constructor
        · intro h
          injection h with h
          subst h
          exact ⟨⟨h0, hs⟩, by rw [hviews, hrest]⟩
        · rintro ⟨-, h⟩
          rw [h, hviews, hrest]

theorem labelledVertices_length (nv nf : Nat) (labels : List String) (v0 : Nat) :
    (labelledVertices nv nf labels v0).length = labels.length := by
  simp [labelledVertices]

theorem labelledVertices_labels (nv nf : Nat) (labels : List String) (v0 : Nat) :
    (labelledVertices nv nf labels v0).map (fun v => v.label) = labels := by
  induction labels generalizing v0 with
  | nil => simp [labelledVertices]
  | cons l ls ih =>
    have := ih (v0 + 1)
    simp only [labelledVertices, List.enumFrom, List.map_cons, List.map_map] at this ⊢
    rw [this]

theorem labelledVertices_getElem? (nv nf : Nat) (labels : List String) (v0 i : Nat) :
    (labelledVertices nv nf labels v0)[i]?
      = (labels[i]?).map (fun l => Vertex.mk l
          ((List.range nf).map (fun f => umul (umul f nv) 3 + (v0 + i) * 3))) := by
  simp only [labelledVertices, List.getElem?_map, List.getElem?_enumFrom, Option.map_map]
  rfl

/-! ## Lemmas on the frame loop of the loader -/

theorem SameShape.refl (m : AnimatedInteractionMesh) : SameShape m m :=
  ⟨rfl, rfl, rfl, rfl, rfl, rfl⟩

theorem SameShape.trans {m m1 m2 : AnimatedInteractionMesh}
    (h1 : SameShape m m1) (h2 : SameShape m1 m2) : SameShape m m2 := by
  rcases h1 with ⟨hrate, hframes, hverts, hgraph, hmeshes, hsize⟩
  rcases h2 with ⟨krate, kframes, kverts, kgraph, kmeshes, ksize⟩
  refine ⟨?_, ?_, ?_, ?_, ?_, ?_⟩
  · rw [krate, hrate]
  · rw [kframes, hframes]
  · rw [kverts, hverts]
  · rw [kgraph, hgraph]
  · rw [kmeshes, hmeshes]
  · rw [ksize, hsize]

theorem setPosition_sameShape (m : AnimatedInteractionMesh) (v f a : Nat) (x : ℚ) :
    SameShape m (m.setPosition v f a x) := by
  simp [SameShape, setPosition]

theorem loadFrame_sameShape (frameId : Nat) (node : List (ℚ × ℚ × ℚ)) (vertex : Nat)
    (m m1 : AnimatedInteractionMesh) (h : loadFrame frameId node vertex m = .ok m1) :
    SameShape m m1 := by
  induction node generalizing vertex m with
  | nil =>
    simp only [loadFrame] at h
    injection h with h
    subst h
    exact SameShape.refl m
  | cons p rest ih =>
    obtain ⟨x, y, z⟩ := p
    simp only [loadFrame] at h
    split_ifs at h with hv
    exact SameShape.trans
      (SameShape.trans
        (SameShape.trans (setPosition_sameShape m vertex frameId 0 x)
          (setPosition_sameShape _ vertex frameId 1 y))
        (setPosition_sameShape _ vertex frameId 2 z))
      (ih _ _ h)

theorem loadFrames_sameShape (frames : List (List (ℚ × ℚ × ℚ))) (frameId : Nat)
    (m m1 : AnimatedInteractionMesh) (h : loadFrames frames frameId m = .ok m1) :
    SameShape m m1 := by
  induction frames generalizing frameId m with
  | nil =>
    simp only [loadFrames] at h
    injection h with h
    subst h
    exact SameShape.refl m
  | cons node rest ih =>
    simp only [loadFrames] at h
    split_ifs at h with hf
    cases hn : loadFrame frameId node 0 m with
    | error e => rw [hn] at h; cases h
    | ok m2 =>
      rw [hn] at h
      exact SameShape.trans (loadFrame_sameShape frameId node 0 m m2 hn) (ih _ _ h)

/-! ## Lemmas on fields left alone by the edge loader and the weight computation -/

theorem loadEdge_fields (vEnd : Nat) (m : AnimatedInteractionMesh) (e : EdgeEntry) :
    (loadEdge vEnd m e).framerate = m.framerate ∧ (loadEdge vEnd m e).numFrames = m.numFrames
    ∧ (loadEdge vEnd m e).numVertices = m.numVertices ∧ (loadEdge vEnd m e).state = m.state
    ∧ (loadEdge vEnd m e).interactionMeshes = m.interactionMeshes := by
  unfold loadEdge
  simp only []
  split_ifs <;> exact ⟨rfl, rfl, rfl, rfl, rfl⟩

theorem loadEdgesLoop_fields (vEnd : Nat) (es : List EdgeEntry)
    (m : AnimatedInteractionMesh) :
    (loadEdgesLoop vEnd es m).framerate = m.framerate
    ∧ (loadEdgesLoop vEnd es m).numFrames = m.numFrames
    ∧ (loadEdgesLoop vEnd es m).numVertices = m.numVertices
    ∧ (loadEdgesLoop vEnd es m).state = m.state
    ∧ (loadEdgesLoop vEnd es m).interactionMeshes = m.interactionMeshes := by
  induction es generalizing m with
  | nil => exact ⟨rfl, rfl, rfl, rfl, rfl⟩
  | cons e es ih =>
    obtain ⟨a1, a2, a3, a4, a5⟩ := ih (loadEdge vEnd m e)
    obtain ⟨b1, b2, b3, b4, b5⟩ := loadEdge_fields vEnd m e
    exact ⟨a1.trans b1, a2.trans b2, a3.trans b3, a4.trans b4, a5.trans b5⟩

theorem loadEdgesFromYaml_fields (es : List EdgeEntry) (m : AnimatedInteractionMesh) :
    (loadEdgesFromYaml es m).framerate = m.framerate
    ∧ (loadEdgesFromYaml es m).numFrames = m.numFrames
    ∧ (loadEdgesFromYaml es m).numVertices = m.numVertices
    ∧ (loadEdgesFromYaml es m).state = m.state
    ∧ (loadEdgesFromYaml es m).interactionMeshes = m.interactionMeshes :=
  loadEdgesLoop_fields _ es m

theorem computeVertexWeights_fields (m : AnimatedInteractionMesh) :
    m.computeVertexWeights.framerate = m.framerate
    ∧ m.computeVertexWeights.numFrames = m.numFrames
    ∧ m.computeVertexWeights.numVertices = m.numVertices
    ∧ m.computeVertexWeights.state = m.state
    ∧ m.computeVertexWeights.graph.vertices = m.graph.vertices
    ∧ m.computeVertexWeights.interactionMeshes = m.interactionMeshes :=
  ⟨rfl, rfl, rfl, rfl, rfl, rfl⟩

/-! ## Views never wrap in a mesh that could be built -/

/-- When every view built by the label loop lies inside a state vector of the
(wrapped) size `numFrames_ * numVertices_ * 3`, nothing wrapped: the number of
labels fits `unsigned` and the exact product is below `2 ^ 32`. -/
theorem views_exact (L nf : Nat) (hnf : 0 < nf)
    (h : ∀ i, i < L → ∀ f, f < nf →
      umul (umul f (toUnsigned L)) 3 + (0 + i) * 3 + 3 ≤ umul (umul nf (toUnsigned L)) 3) :
    L < UINT_SIZE ∧ nf * L * 3 < UINT_SIZE
      ∧ umul (umul nf (toUnsigned L)) 3 = nf * L * 3 := by
  have hS : umul (umul nf (toUnsigned L)) 3 < UINT_SIZE :=
    Nat.mod_lt _ (by unfold UINT_SIZE; positivity)
  rcases Nat.eq_zero_or_pos L with hL | hL
  · subst hL
    refine ⟨by unfold UINT_SIZE; positivity, by unfold UINT_SIZE; simp, ?_⟩
    simp [umul, toUnsigned]
  · have h0 := h (L - 1) (by omega) 0 hnf
    have hz : umul (umul 0 (toUnsigned L)) 3 = 0 := by simp [umul]
    rw [hz] at h0
    have hLlt : L < UINT_SIZE := by omega
    have hu : toUnsigned L = L := Nat.mod_eq_of_lt hLlt
    rw [hu] at h hS ⊢
    have key : ∀ f, f ≤ nf → f * L * 3 ≤ umul (umul nf L) 3 := by
      intro f
      induction f with
      | zero => intro _; simp
      | succ f ih =>
        intro hf
        have hprev := ih (by omega)
        have hex : umul (umul f L) 3 = f * L * 3 := by
          rw [umul_umul_left]
          exact Nat.mod_eq_of_lt (by omega)
        have := h (L - 1) (by omega) f (by omega)
        rw [hex] at this
        have e : ∀ k, L = k + 1 → (f + 1) * L * 3 = f * L * 3 + (0 + k) * 3 + 3 := by
          intro k hk
          rw [hk]
          ring
        have := e (L - 1) (by omega)
        omega
    have hle := key nf le_rfl
    have hlt : nf * L * 3 < UINT_SIZE := by omega
    refine ⟨hLlt, hlt, ?_⟩
    rw [umul_umul_left]
    exact Nat.mod_eq_of_lt hlt

/-- Inside a representable state vector the offset of the view of frame `f` and
vertex `v` is computed without wrapping, by the loader and by the snapshot
alike, and the view ends inside the vector. -/
theorem offset_exact {nv nf f v : Nat} (hf : f < nf) (hv : v < nv)
    (hb : nf * nv * 3 < UINT_SIZE) :
    umul (umul f nv) 3 + v * 3 = f * nv * 3 + v * 3
    ∧ uadd (umul (umul f nv) 3) (umul v 3) = f * nv * 3 + v * 3
    ∧ f * nv * 3 + v * 3 + 3 ≤ nf * nv * 3 := by
  have h1 : (f + 1) * nv ≤ nf * nv := Nat.mul_le_mul_right nv hf
  have h2 : (f + 1) * nv = f * nv + nv := by ring
  have h3 : f * nv * 3 + v * 3 + 3 ≤ nf * nv * 3 := by omega
  have e1 : umul (umul f nv) 3 = f * nv * 3 := by
    rw [umul_umul_left]
    exact Nat.mod_eq_of_lt (by omega)
  have e2 : umul v 3 = v * 3 := umul_eq_of_lt (by omega)
  refine ⟨by rw [e1], ?_, h3⟩
  rw [e1, e2]
  exact uadd_eq_of_lt (by omega)

theorem WellFormed.vertices_length {m : AnimatedInteractionMesh} (h : m.WellFormed) :
    m.graph.vertices.length = m.numVertices := by
  have := congrArg List.length h.views
  simpa using this

theorem WellFormed.positions {m : AnimatedInteractionMesh} (h : m.WellFormed)
    {i : Nat} {v : Vertex} (hv : m.graph.vertices[i]? = some v) :
    v.positions = (List.range m.numFrames).map (fun f => f * m.numVertices * 3 + i * 3) := by
  have hi : i < m.numVertices := by
    rw [← h.vertices_length]
    exact (List.getElem?_eq_some.mp hv).1
  have := congrArg (fun l => l[i]?) h.views
  simp only [List.getElem?_map, hv, Option.map_some', List.getElem?_range hi] at this
  exact Option.some.inj this

theorem WellFormed.viewOffset_eq {m : AnimatedInteractionMesh} (h : m.WellFormed)
    {v f : Nat} (hv : v < m.numVertices) (hf : f < m.numFrames) :
    viewOffset m.graph v f = f * m.numVertices * 3 + v * 3 := by
  have hlt : v < m.graph.vertices.length := by rw [h.vertices_length]; exact hv
  have hget := List.getElem?_eq_getElem hlt
  have hp := h.positions hget
  simp [viewOffset, hget, hp, List.getD_eq_getElem?_getD, List.getElem?_range hf]

theorem WellFormed.offset_lt {m : AnimatedInteractionMesh} (h : m.WellFormed)
    {v f a : Nat} (hv : v < m.numVertices) (hf : f < m.numFrames) (ha : a < 3) :
    f * m.numVertices * 3 + v * 3 + a < m.state.length := by
  have hb : m.numFrames * m.numVertices * 3 < UINT_SIZE := by
    have := h.size_lt
    have e : m.numFrames * m.numVertices * 3 = 3 * m.numVertices * m.numFrames := by ring
    omega
  have := (offset_exact hf hv hb).2.2
  have e : m.numFrames * m.numVertices * 3 = 3 * m.numVertices * m.numFrames := by ring
  rw [h.state_length]
  omega

/-! ## What a successful load establishes -/

theorem loadAnimatedMesh_ok {doc : TrajectoryDoc} {character : CharacterDoc}
    {m : AnimatedInteractionMesh} (h : loadAnimatedMesh doc character = .ok m) :
    doc.numFrames < UINT_SIZE
    ∧ m.framerate = doc.frameRate
    ∧ m.numFrames = doc.numFrames
    ∧ m.numVertices = toUnsigned doc.partLabels.length
    ∧ m.graph.vertices
        = labelledVertices (toUnsigned doc.partLabels.length) doc.numFrames doc.partLabels 0
    ∧ m.state.length = umul (umul doc.numFrames (toUnsigned doc.partLabels.length)) 3
    ∧ (∀ i, i < doc.partLabels.length → ∀ f, f < doc.numFrames →
        umul (umul f (toUnsigned doc.partLabels.length)) 3 + (0 + i) * 3 + 3
          ≤ umul (umul doc.numFrames (toUnsigned doc.partLabels.length)) 3) := by
  unfold loadAnimatedMesh at h
  split_ifs at h with ht hn
  simp only [] at h
  cases hv : addVertices (umul (umul doc.numFrames (toUnsigned doc.partLabels.length)) 3)
      (toUnsigned doc.partLabels.length) doc.numFrames doc.partLabels 0 with
  | error e => rw [hv] at h; cases h
  | ok vs =>
    rw [hv] at h
    simp only [] at h
    obtain ⟨hin, hvs⟩ := (addVertices_ok_iff _ _ _ _ _ _).mp hv
    split at h
    · cases h
    · rename_i m1 hf
      injection h with h
      obtain ⟨s1, s2, s3, s4, -, s6⟩ := loadFrames_sameShape _ _ _ _ hf
      obtain ⟨a1, a2, a3, a4, -⟩ := loadEdgesFromYaml_fields character.edges m1
      obtain ⟨b1, b2, b3, b4, -⟩ :=
        loadEdgesFromYaml_fields character.extraMarkerEdges
          (loadEdgesFromYaml character.edges m1)
      have c1 := loadEdgesFromYaml_vertices character.edges m1
      have c2 := loadEdgesFromYaml_vertices character.extraMarkerEdges
          (loadEdgesFromYaml character.edges m1)
      subst h
      refine ⟨Nat.lt_of_not_ge hn, ?_, ?_, ?_, ?_, ?_, hin⟩
      · show (loadEdgesFromYaml _ (loadEdgesFromYaml _ m1)).framerate = _
        rw [b1, a1, s1]
      · show (loadEdgesFromYaml _ (loadEdgesFromYaml _ m1)).numFrames = _
        rw [b2, a2, s2]
      · show (loadEdgesFromYaml _ (loadEdgesFromYaml _ m1)).numVertices = _
        rw [b3, a3, s3]
      · show (loadEdgesFromYaml _ (loadEdgesFromYaml _ m1)).graph.vertices = _
        rw [c2, c1, s4, hvs]
      · show (loadEdgesFromYaml _ (loadEdgesFromYaml _ m1)).state.length = _
        rw [b4, a4, s6]
        simp

/-- A mesh loaded with at least one frame satisfies the invariant, and its
vertex count is the number of labels of the document. -/
theorem loadAnimatedMesh_wellFormed {doc : TrajectoryDoc} {character : CharacterDoc}
    {m : AnimatedInteractionMesh} (h : loadAnimatedMesh doc character = .ok m)
    (hnf : 0 < m.numFrames) :
    m.WellFormed ∧ m.numVertices = doc.partLabels.length := by
  obtain ⟨-, -, h3, h4, h5, h6, h7⟩ := loadAnimatedMesh_ok h
  rw [← h3] at h5 h6 h7
  obtain ⟨hL, hb, hS⟩ := views_exact doc.partLabels.length m.numFrames hnf h7
  have hu : toUnsigned doc.partLabels.length = doc.partLabels.length := Nat.mod_eq_of_lt hL
  rw [hu] at h4 h5 h6 hS
  rw [← h4] at hb hS h5 h6
  have e : m.numFrames * m.numVertices * 3 = 3 * m.numVertices * m.numFrames := by ring
  refine ⟨⟨by omega, by omega, ?_⟩, h4⟩
  apply List.ext_getElem?
  intro i
  rw [h5]
  simp only [List.getElem?_map, labelledVertices_getElem?, Option.map_map]
  by_cases hi : i < m.numVertices
  · have hi2 : i < doc.partLabels.length := by omega
    rw [List.getElem?_eq_getElem hi2, List.getElem?_range hi]
    simp only [Option.map_some', Function.comp_apply, Option.some.injEq]
    apply List.map_congr_left
    intro f hf
    have := (offset_exact (List.mem_range.mp hf) hi hb).1
    simpa using this
  · have hi2 : doc.partLabels.length ≤ i := by omega
    rw [List.getElem?_eq_none hi2, List.getElem?_eq_none (by simpa using (by omega : m.numVertices ≤ i))]
    rfl

/-- The state vector of every loaded mesh has exactly
`3 * numVertices * numFrames` elements. -/
theorem loadAnimatedMesh_state_length {doc : TrajectoryDoc} {character : CharacterDoc}
    {m : AnimatedInteractionMesh} (h : loadAnimatedMesh doc character = .ok m) :
    m.state.length = 3 * m.numVertices * m.numFrames := by
  rcases Nat.eq_zero_or_pos m.numFrames with h0 | hpos
  · obtain ⟨-, -, h3, -, -, h6, -⟩ := loadAnimatedMesh_ok h
    rw [h6, ← h3, h0]
    simp [umul]
  · exact (loadAnimatedMesh_wellFormed h hpos).1.state_length

/-! ## Evaluation of the loader on the sample documents -/

theorem sampleDoc_loads : loadAnimatedMesh sampleDoc sampleCharacter = .ok sampleMesh := by
  simp [loadAnimatedMesh, sampleDoc, sampleCharacter, sampleMesh, addVertices, pushViews,
    loadFrames, loadFrame, umul, toUnsigned, UINT_SIZE, List.range, List.range.loop,
    setPosition, viewOffset, loadEdgesFromYaml, loadEdgesLoop, loadEdge, getVertexFromLabel,
    getVertexFromLabelLoop, vertexEnd, addEdge, computeVertexWeights,
    computeVertexWeightsLoop, computeFrameWeights, rawWeightPass, setRawWeight,
    normalizeWeight, resize, squaredDistance, position]
  norm_num [rawWeightPass, setRawWeight, normalizeWeight, resize, squaredDistance, position,
    viewOffset]

theorem duplicateDoc_loads : loadAnimatedMesh duplicateDoc noEdges = .ok duplicateMesh := by
  simp [loadAnimatedMesh, duplicateDoc, noEdges, duplicateMesh, addVertices, pushViews,
    loadFrames, loadFrame, umul, toUnsigned, UINT_SIZE, List.range, List.range.loop,
    setPosition, viewOffset, loadEdgesFromYaml, loadEdgesLoop, computeVertexWeights,
    computeVertexWeightsLoop, computeFrameWeights, rawWeightPass]

/-! ## Labels of a loaded mesh -/

theorem loadAnimatedMesh_vertexLabel {doc : TrajectoryDoc} {character : CharacterDoc}
    {m : AnimatedInteractionMesh} (h : loadAnimatedMesh doc character = .ok m) (j : Nat) :
    m.vertexLabel j = doc.partLabels[j]? := by
  obtain ⟨-, -, -, -, h5, -, -⟩ := loadAnimatedMesh_ok h
  unfold vertexLabel
  rw [h5, labelledVertices_getElem?, Option.map_map]
  cases doc.partLabels[j]? <;> rfl

theorem loadAnimatedMesh_vertexEnd {doc : TrajectoryDoc} {character : CharacterDoc}
    {m : AnimatedInteractionMesh} (h : loadAnimatedMesh doc character = .ok m) :
    m.vertexEnd = doc.partLabels.length := by
  obtain ⟨-, -, -, -, h5, -, -⟩ := loadAnimatedMesh_ok h
  unfold vertexEnd
  rw [h5, labelledVertices_length]

/-! ## Lemmas on the snapshot loops -/

theorem foldl_set_getElem? (g : Nat → Nat) (fs : List Nat) (views : List Nat) (k : Nat) :
    (fs.foldl (fun acc f => acc.set f (g f)) views)[k]?
      = if k ∈ fs then (if k < views.length then some (g k) else none) else views[k]? := by
  induction fs generalizing views with
  | nil => simp
  | cons f fs ih =>
    rw [List.foldl_cons, ih, List.length_set, List.getElem?_set]
    by_cases hk : k ∈ fs
    · simp [hk]
    · by_cases hfk : f = k
      · subst hfk
        simp [hk]
      · have : k ≠ f := fun e => hfk e.symm
        simp [hk, hfk, this]

/-- Replacing, frame after frame, each of the `n` views of a vertex yields the
list of the new views. -/
theorem foldl_set_range (g : Nat → Nat) (views : List Nat) (n : Nat)
    (h : views.length = n) :
    (List.range n).foldl (fun acc f => acc.set f (g f)) views = (List.range n).map g := by
  apply List.ext_getElem?
  intro k
  rw [foldl_set_getElem?, List.getElem?_map]
  by_cases hk : k < n
  · simp [hk, h, List.getElem?_range hk]
  · have h1 : views[k]? = none := List.getElem?_eq_none (by omega)
    have h2 : (List.range n)[k]? = none := List.getElem?_eq_none (by simp; omega)
    simp [hk, h1, h2]

theorem rebindViews_ok_iff (nv S vid : Nat) (fs views views1 : List Nat) :
    rebindViews nv S vid fs views = .ok views1 ↔
      (∀ f ∈ fs, uadd (umul (umul f nv) 3) (umul vid 3) + 3 ≤ S)
      ∧ views1 = fs.foldl
          (fun acc f => acc.set f (uadd (umul (umul f nv) 3) (umul vid 3))) views := by
  induction fs generalizing views with
  | nil => simp [rebindViews, eq_comm]
  | cons f fs ih =>
    simp only [rebindViews, List.mem_cons, forall_eq_or_imp, List.foldl_cons]
    by_cases hin : uadd (umul (umul f nv) 3) (umul vid 3) + 3 ≤ S
    · have hint : ((uadd (umul (umul f nv) 3) (umul vid 3) : Nat) : Int) ≤ (S : Int) - 3 := by
        omega
      simp only [hint, if_true, hin, true_and]
      exact ih _
    · have hint : ¬ ((uadd (umul (umul f nv) 3) (umul vid 3) : Nat) : Int) ≤ (S : Int) - 3 := by
        omega
      simp [hint, hin]

theorem rebindVertices_zero_frames (nv S : Nat) (vs : List Vertex) (vid : Nat) :
    rebindVertices nv 0 S vs vid = .ok vs := by
  induction vs generalizing vid with
  | nil => rfl
  | cons v vs ih => simp [rebindVertices, rebindViews, ih]

/-- On vertices whose views already sit at the exact offsets, inside a
representable layout, the vertex loop of the snapshot succeeds and changes
nothing when the new vector is long enough, and stops on the assertion when the
new vector is too short. -/
theorem rebindVertices_exact (nv nf S : Nat) (hb : nf * nv * 3 < UINT_SIZE) (hnf : 0 < nf)
    (vs : List Vertex) (vid : Nat) (hvid : vid + vs.length ≤ nv)
    (hpos : ∀ i v, vs[i]? = some v →
      v.positions = (List.range nf).map (fun f => f * nv * 3 + (vid + i) * 3)) :
    (nf * nv * 3 ≤ S → rebindVertices nv nf S vs vid = .ok vs)
    ∧ (S < nf * nv * 3 → vs ≠ [] → vid + vs.length = nv →
        ∀ r, rebindVertices nv nf S vs vid ≠ .ok r) := by
  induction vs generalizing vid with
  | nil => exact ⟨fun _ => rfl, fun _ h => absurd rfl h⟩
  | cons v vs ih =>
    have hlen : (v :: vs).length = vs.length + 1 := rfl
    have hv : vid < nv := by omega
    have hnv : nv < UINT_SIZE := by
      have : 1 * nv ≤ nf * nv := Nat.mul_le_mul_right nv hnf
      omega
    have hnext : uadd vid 1 = vid + 1 := uadd_eq_of_lt (by omega)
    have hoff : ∀ f ∈ List.range nf,
        uadd (umul (umul f nv) 3) (umul vid 3) = f * nv * 3 + vid * 3 :=
      fun f hf => (offset_exact (List.mem_range.mp hf) hv hb).2.1
    have hpv : v.positions = (List.range nf).map (fun f => f * nv * 3 + vid * 3) := by
      simpa using hpos 0 v (by simp)
    have hposTail : ∀ i w, vs[i]? = some w →
        w.positions = (List.range nf).map (fun f => f * nv * 3 + (vid + 1 + i) * 3) := by
      intro i w hw
      have := hpos (i + 1) w (by simpa using hw)
      rwa [show vid + (i + 1) = vid + 1 + i by omega] at this
    obtain ⟨ih1, ih2⟩ := ih (vid + 1) (by omega) hposTail
    constructor
    · intro hS
      have hhead : rebindViews nv S vid (List.range nf) v.positions = .ok v.positions := by
        rw [rebindViews_ok_iff]
        refine ⟨fun f hf => ?_, ?_⟩
        · rw [hoff f hf]
          have := (offset_exact (List.mem_range.mp hf) hv hb).2.2
          omega
        · rw [foldl_set_range _ _ _ (by rw [hpv]; simp)]
          rw [hpv]
          exact (List.map_congr_left (fun f hf => (hoff f hf))).symm
      simp only [rebindVertices, hhead, hnext, ih1 hS]
    · intro hS _ hfull r
      simp only [rebindVertices, hnext]
      cases hhead : rebindViews nv S vid (List.range nf) v.positions with
      | error e => simp
      | ok views =>
        simp only []
        cases vs with
        | nil =>
          exfalso
          have hall := ((rebindViews_ok_iff _ _ _ _ _ _).mp hhead).1
          have hlast := hall (nf - 1) (List.mem_range.mpr (by omega))
          rw [hoff (nf - 1) (List.mem_range.mpr (by omega))] at hlast
          have e : ∀ k j, nf = k + 1 → nv = j + 1 →
              nf * nv * 3 = k * nv * 3 + j * 3 + 3 := by
            intro k j hk hj
            rw [hk, hj]
            ring
          have := e (nf - 1) (nv - 1) (by omega) (by omega)
          have hvid2 : vid = nv - 1 := by simp at hfull; omega
          rw [hvid2] at hlast
          omega
        | cons w ws =>
          have := ih2 hS (by simp) (by simp at hfull ⊢; omega)
          cases htail : rebindVertices nv nf S (w :: ws) (vid + 1) with
          | error e => simp
          | ok rest => exact absurd htail (this rest)

/-! ## Lemmas on what the weight computation leaves alone -/

theorem rawWeightPass_skeleton (m : AnimatedInteractionMesh) (frameId : Nat)
    (es : List GraphEdge) (weightSum : ℚ) :
    (rawWeightPass m frameId es weightSum).1.map GraphEdge.skeleton
      = es.map GraphEdge.skeleton := by
  induction es generalizing weightSum with
  | nil => rfl
  | cons e es ih =>
    simp only [rawWeightPass, List.map_cons, ih]
    rfl

theorem computeFrameWeights_skeleton (m : AnimatedInteractionMesh) (frameId : Nat)
    (es : List GraphEdge) :
    (computeFrameWeights m frameId es).map GraphEdge.skeleton = es.map GraphEdge.skeleton := by
  unfold computeFrameWeights
  simp only []
  split_ifs
  · rw [List.map_map]
    have : GraphEdge.skeleton ∘ normalizeWeight frameId (rawWeightPass m frameId es 0).2
        = GraphEdge.skeleton := rfl
    rw [this, rawWeightPass_skeleton]
  · exact rawWeightPass_skeleton m frameId es 0

theorem computeVertexWeightsLoop_skeleton (m : AnimatedInteractionMesh) (fs : List Nat)
    (es : List GraphEdge) :
    (computeVertexWeightsLoop m fs es).map GraphEdge.skeleton = es.map GraphEdge.skeleton := by
  induction fs generalizing es with
  | nil => rfl
  | cons f fs ih => rw [computeVertexWeightsLoop, ih, computeFrameWeights_skeleton]

theorem computeVertexWeights_skeleton (m : AnimatedInteractionMesh) :
    m.computeVertexWeights.graph.edges.map GraphEdge.skeleton
      = m.graph.edges.map GraphEdge.skeleton :=
  computeVertexWeightsLoop_skeleton m _ _

theorem position_congr (m r : AnimatedInteractionMesh) (hs : r.state = m.state)
    (hv : r.graph.vertices = m.graph.vertices) (v f a : Nat) :
    r.position v f a = m.position v f a := by
  simp [position, viewOffset, hs, hv]

/-! ## The snapshot of a well-formed mesh -/

theorem WellFormed.size_eq {m : AnimatedInteractionMesh} (h : m.WellFormed) :
    m.optimizationVectorSize = 3 * m.numVertices * m.numFrames := by
  rw [optimizationVectorSize_eq_mod]
  exact Nat.mod_eq_of_lt h.size_lt

/-- On a well-formed mesh and a vector at least as long as its optimization
vector, the snapshot keeps the graph of the source, takes the vector as state,
and recomputes the weights. -/
theorem makeFromOptimizationVariables_ok (m : AnimatedInteractionMesh) (hwf : m.WellFormed)
    (x : List ℚ) (hx : m.optimizationVectorSize ≤ x.length) :
    makeFromOptimizationVariables x m
      = .ok (computeVertexWeights { m with state := x, interactionMeshes := [] }) := by
  have hvs : rebindVertices m.numVertices m.numFrames x.length m.graph.vertices 0
      = .ok m.graph.vertices := by
    rcases Nat.eq_zero_or_pos m.numFrames with h0 | hpos
    · rw [h0]
      exact rebindVertices_zero_frames _ _ _ _
    · have e : m.numFrames * m.numVertices * 3 = 3 * m.numVertices * m.numFrames := by ring
      have hb : m.numFrames * m.numVertices * 3 < UINT_SIZE := by
        have := hwf.size_lt
        omega
      refine (rebindVertices_exact m.numVertices m.numFrames x.length hb hpos
        m.graph.vertices 0 (by rw [hwf.vertices_length]; omega) ?_).1 ?_
      · intro i v hv
        rw [hwf.positions hv]
        simp
      · rw [hwf.size_eq] at hx
        omega
  unfold makeFromOptimizationVariables
  rw [hvs]

theorem sampleMesh_wellFormed : sampleMesh.WellFormed :=
  ⟨by decide, by decide, by decide⟩

theorem resize_length (w : List ℚ) (n : Nat) : (resize w n).length = n := by
  simp [resize]
  omega

theorem sized_length (n : Nat) (w : List ℚ) : (sized n w).length = n := by
  unfold sized
  split_ifs with h
  · exact resize_length w n
  · exact not_not.mp h

theorem sized_of_length {n : Nat} {w : List ℚ} (h : w.length = n) : sized n w = w := by
  simp [sized, h]

theorem squaredDistance_nonneg (m : AnimatedInteractionMesh) (s t f : Nat) :
    0 ≤ m.squaredDistance s t f := by
  unfold squaredDistance
  positivity

theorem rawWeight_pos (m : AnimatedInteractionMesh) (f : Nat) (e : GraphEdge) :
    0 < m.rawWeight f e := by
  unfold rawWeight
  split_ifs with h
  · exact one_pos
  · have := squaredDistance_nonneg m e.source e.target f
    have hpos : 0 < m.squaredDistance e.source e.target f := lt_of_le_of_ne this (Ne.symm h)
    positivity

theorem rawWeight_sum_pos (m : AnimatedInteractionMesh) (f : Nat) (es : List GraphEdge)
    (h : es ≠ []) : 0 < (es.map (m.rawWeight f)).sum := by
  cases es with
  | nil => exact absurd rfl h
  | cons e es =>
    rw [List.map_cons, List.sum_cons]
    have h1 := rawWeight_pos m f e
    have h2 : 0 ≤ (es.map (m.rawWeight f)).sum :=
      List.sum_nonneg (by
        intro x hx
        obtain ⟨e', -, rfl⟩ := List.mem_map.mp hx
        exact le_of_lt (rawWeight_pos m f e'))
    linarith

theorem rawWeight_sum_nonneg (m : AnimatedInteractionMesh) (f : Nat) (es : List GraphEdge) :
    0 ≤ (es.map (m.rawWeight f)).sum := by
  cases es with
  | nil => simp
  | cons e es => exact le_of_lt (rawWeight_sum_pos m f _ (List.cons_ne_nil e es))

/-- The raw weight only reads the endpoints of an edge. -/
theorem rawWeight_congr (m : AnimatedInteractionMesh) (f : Nat) (e e1 : GraphEdge)
    (h : GraphEdge.skeleton e1 = GraphEdge.skeleton e) : m.rawWeight f e1 = m.rawWeight f e := by
  simp only [GraphEdge.skeleton, Prod.mk.injEq] at h
  unfold rawWeight
  rw [h.1, h.2.1]

theorem rawWeight_map_congr (m : AnimatedInteractionMesh) (f : Nat) (es es1 : List GraphEdge)
    (h : es1.map GraphEdge.skeleton = es.map GraphEdge.skeleton) :
    es1.map (m.rawWeight f) = es.map (m.rawWeight f) := by
  induction es generalizing es1 with
  | nil =>
    cases es1 with
    | nil => rfl
    | cons a l => simp at h
  | cons e es ih =>
    cases es1 with
    | nil => simp at h
    | cons a l =>
      simp only [List.map_cons, List.cons.injEq] at h ⊢
      exact ⟨rawWeight_congr m f e a h.1, ih l h.2⟩

/-- The weight sequence the raw pass stores in an edge, for a frame of the
mesh. -/
theorem setRawWeight_weight (m : AnimatedInteractionMesh) (f : Nat) (hf : f < m.numFrames)
    (e : GraphEdge) :
    (setRawWeight m f e).prop.weight
      = (sized m.numFrames e.prop.weight).set f (m.rawWeight f e) := by
  have hlen : f < (sized m.numFrames e.prop.weight).length := by
    rw [sized_length]; exact hf
  have hget : ((sized m.numFrames e.prop.weight).set f
      (m.squaredDistance e.source e.target f)).getD f 0
      = m.squaredDistance e.source e.target f := by
    rw [List.getD_eq_getElem?_getD, List.getElem?_set_self hlen]
    rfl
  show (if ((sized m.numFrames e.prop.weight).set f
        (m.squaredDistance e.source e.target f)).getD f 0 = 0
      then ((sized m.numFrames e.prop.weight).set f
        (m.squaredDistance e.source e.target f)).set f 1
      else ((sized m.numFrames e.prop.weight).set f
        (m.squaredDistance e.source e.target f)).set f
          (1 / ((sized m.numFrames e.prop.weight).set f
            (m.squaredDistance e.source e.target f)).getD f 0)) = _
  rw [hget]
  unfold rawWeight
  split_ifs <;> rw [List.set_set]

theorem setRawWeight_getD (m : AnimatedInteractionMesh) (f : Nat) (hf : f < m.numFrames)
    (e : GraphEdge) : (setRawWeight m f e).prop.weight.getD f 0 = m.rawWeight f e := by
  rw [setRawWeight_weight m f hf, List.getD_eq_getElem?_getD,
    List.getElem?_set_self (by rw [sized_length]; exact hf)]
  rfl

theorem rawWeightPass_eq (m : AnimatedInteractionMesh) (f : Nat) (hf : f < m.numFrames)
    (es : List GraphEdge) (acc : ℚ) :
    rawWeightPass m f es acc
      = (es.map (setRawWeight m f), acc + (es.map (m.rawWeight f)).sum) := by
  induction es generalizing acc with
  | nil => simp [rawWeightPass]
  | cons e es ih =>
    simp only [rawWeightPass, ih, setRawWeight_getD m f hf, List.map_cons, List.sum_cons,
      add_assoc]

/-- One frame of `computeVertexWeights` on a non-empty edge list: every edge
gets its raw weight divided by the sum of the raw weights. -/
theorem computeFrameWeights_eq (m : AnimatedInteractionMesh) (f : Nat) (hf : f < m.numFrames)
    (es : List GraphEdge) (hne : es ≠ []) :
    computeFrameWeights m f es
      = es.map (edgeStep m f ((es.map (m.rawWeight f)).sum)) := by
  unfold computeFrameWeights
  simp only [rawWeightPass_eq m f hf, zero_add]
  rw [if_pos (rawWeight_sum_pos m f es hne), List.map_map]
  apply List.map_congr_left
  intro e _
  have hlen : f < (sized m.numFrames e.prop.weight).length := by
    rw [sized_length]; exact hf
  have hw := setRawWeight_weight m f hf e
  have hg := setRawWeight_getD m f hf e
  show ({ setRawWeight m f e with prop := { (setRawWeight m f e).prop with
      weight := (setRawWeight m f e).prop.weight.set f
        ((setRawWeight m f e).prop.weight.getD f 0 / _) } } : GraphEdge) = _
  rw [hg, hw, List.set_set]
  rfl

theorem computeFrameWeights_nil (m : AnimatedInteractionMesh) (f : Nat) :
    computeFrameWeights m f [] = [] := by
  simp [computeFrameWeights, rawWeightPass]

theorem computeVertexWeightsLoop_nil (m : AnimatedInteractionMesh) (fs : List Nat) :
    computeVertexWeightsLoop m fs [] = [] := by
  induction fs with
  | nil => rfl
  | cons f fs ih => rw [computeVertexWeightsLoop, computeFrameWeights_nil, ih]

theorem computeVertexWeightsLoop_append (m : AnimatedInteractionMesh) (fs : List Nat)
    (f : Nat) (es : List GraphEdge) :
    computeVertexWeightsLoop m (fs ++ [f]) es
      = computeFrameWeights m f (computeVertexWeightsLoop m fs es) := by
  induction fs generalizing es with
  | nil => rfl
  | cons g fs ih => exact ih (computeFrameWeights m g es)

/-! ## Lemmas on the weights after all frames -/

/-- After the first `n` frames every edge keeps its endpoints and scale, has a
weight sequence of `numFrames` elements (once a frame has been done), and holds
in each slot `f < n` its raw weight divided by the sum of the raw weights. -/
theorem computeVertexWeightsLoop_range (m : AnimatedInteractionMesh) (es : List GraphEdge)
    (n : Nat) (hn : n ≤ m.numFrames) (i : Nat) (e : GraphEdge) (he : es[i]? = some e) :
    ∃ e1, (computeVertexWeightsLoop m (List.range n) es)[i]? = some e1
      ∧ GraphEdge.skeleton e1 = GraphEdge.skeleton e
      ∧ (0 < n → e1.prop.weight.length = m.numFrames)
      ∧ (n = 0 → e1 = e)
      ∧ ∀ f, f < n →
          e1.prop.weight[f]? = some (m.rawWeight f e / (es.map (m.rawWeight f)).sum) := by
  induction n with
  | zero =>
    refine ⟨e, he, rfl, fun h => absurd h (lt_irrefl 0), fun _ => rfl, ?_⟩
    intro f hf
    exact absurd hf (Nat.not_lt_zero f)
  | succ n ih =>
    obtain ⟨e0, hget, hsk, hlen, hzero, hslots⟩ := ih (by omega)
    have hnf : n < m.numFrames := by omega
    have hne : computeVertexWeightsLoop m (List.range n) es ≠ [] := by
      intro h0
      rw [h0] at hget
      simp at hget
    have htotal : ((computeVertexWeightsLoop m (List.range n) es).map (m.rawWeight n)).sum
        = (es.map (m.rawWeight n)).sum := by
      rw [rawWeight_map_congr m n es _ (computeVertexWeightsLoop_skeleton m _ es)]
    rw [List.range_succ, computeVertexWeightsLoop_append, computeFrameWeights_eq m n hnf _ hne,
      htotal]
    refine ⟨edgeStep m n ((es.map (m.rawWeight n)).sum) e0, ?_, hsk, ?_, ?_, ?_⟩
    · rw [List.getElem?_map, hget]
      rfl
    · intro _
      show ((sized m.numFrames e0.prop.weight).set n _).length = m.numFrames
      rw [List.length_set, sized_length]
    · intro h
      exact absurd h (Nat.succ_ne_zero n)
    · intro f hf
      show ((sized m.numFrames e0.prop.weight).set n
        (m.rawWeight n e0 / (es.map (m.rawWeight n)).sum))[f]? = _
      rcases Nat.lt_or_eq_of_le (Nat.lt_succ_iff.mp hf) with hlt | heq
      · have hpos : 0 < n := by omega
        rw [List.getElem?_set_ne (by omega), sized_of_length (hlen hpos)]
        exact hslots f hlt
      · subst heq
        rw [List.getElem?_set_self (by rw [sized_length]; exact hnf),
          rawWeight_congr m f e e0 hsk]

theorem computeVertexWeightsLoop_length (m : AnimatedInteractionMesh) (fs : List Nat)
    (es : List GraphEdge) : (computeVertexWeightsLoop m fs es).length = es.length := by
  have := congrArg List.length (computeVertexWeightsLoop_skeleton m fs es)
  simpa using this

/-- The weights `computeVertexWeights` stores for a frame of the mesh: the raw
weights divided by their sum. -/
theorem computeVertexWeights_frame (m : AnimatedInteractionMesh) (f : Nat)
    (hf : f < m.numFrames) :
    m.computeVertexWeights.graph.edges.map (fun e => e.prop.weight.getD f 0)
      = m.graph.edges.map (fun e => m.rawWeight f e / m.rawWeightSum f) := by
  apply List.ext_getElem?
  intro i
  rw [List.getElem?_map, List.getElem?_map]
  cases he : m.graph.edges[i]? with
  | none =>
    have hlen : m.graph.edges.length ≤ i := by
      by_contra hlt
      rw [List.getElem?_eq_getElem (by omega)] at he
      cases he
    have : m.computeVertexWeights.graph.edges[i]? = none := by
      apply List.getElem?_eq_none
      show (computeVertexWeightsLoop m _ _).length ≤ i
      rw [computeVertexWeightsLoop_length]
      exact hlen
    rw [this]
    rfl
  | some e =>
    obtain ⟨e1, hget, -, -, -, hslots⟩ :=
      computeVertexWeightsLoop_range m m.graph.edges m.numFrames le_rfl i e he
    have : m.computeVertexWeights.graph.edges[i]? = some e1 := hget
    rw [this]
    simp only [Option.map_some', Option.some.injEq]
    rw [List.getD_eq_getElem?_getD, hslots f hf]
    rfl

/-- With at least one frame, `computeVertexWeights` leaves every weight sequence
with `numFrames` elements. -/
theorem computeVertexWeights_weight_length (m : AnimatedInteractionMesh)
    (hnf : 0 < m.numFrames) (e1 : GraphEdge) (he1 : e1 ∈ m.computeVertexWeights.graph.edges) :
    e1.prop.weight.length = m.numFrames := by
  obtain ⟨i, hi, hget⟩ := List.getElem_of_mem he1
  have hlen : i < m.graph.edges.length := by
    have : m.computeVertexWeights.graph.edges.length = m.graph.edges.length :=
      computeVertexWeightsLoop_length m _ _
    omega
  obtain ⟨e2, hget2, -, hl, -, -⟩ :=
    computeVertexWeightsLoop_range m m.graph.edges m.numFrames le_rfl i _
      (List.getElem?_eq_getElem hlen)
  have h3 : m.computeVertexWeights.graph.edges[i]? = some e1 := by
    rw [List.getElem?_eq_getElem hi, hget]
  have h4 : m.computeVertexWeights.graph.edges[i]? = some e2 := hget2
  rw [h3] at h4
  injection h4 with h4
  rw [h4]
  exact hl hnf

/-! ## Lemmas on the bounds checked by the frame loop -/

theorem loadFrame_ok_bound (frameId : Nat) (node : List (ℚ × ℚ × ℚ)) (vertex : Nat)
    (m m1 : AnimatedInteractionMesh) (h : loadFrame frameId node vertex m = .ok m1) :
    node = [] ∨ vertex + node.length ≤ m.numVertices := by
  induction node generalizing vertex m with
  | nil => exact Or.inl rfl
  | cons p rest ih =>
    obtain ⟨x, y, z⟩ := p
    simp only [loadFrame] at h
    split_ifs at h with hv
    right
    rcases ih _ _ h with h0 | hle
    · subst h0
      simp only [List.length_cons, List.length_nil]
      omega
    · have : (((m.setPosition vertex frameId 0 x).setPosition vertex frameId 1 y).setPosition
          vertex frameId 2 z).numVertices = m.numVertices := rfl
      rw [this] at hle
      simp only [List.length_cons]
      omega

theorem loadFrames_ok_bound (frames : List (List (ℚ × ℚ × ℚ))) (frameId : Nat)
    (m m1 : AnimatedInteractionMesh) (h : loadFrames frames frameId m = .ok m1) :
    (frames = [] ∨ frameId + frames.length ≤ m.numFrames)
    ∧ ∀ node ∈ frames, node.length ≤ m.numVertices := by
  induction frames generalizing frameId m with
  | nil => exact ⟨Or.inl rfl, fun node hn => absurd hn (List.not_mem_nil node)⟩
  | cons node rest ih =>
    simp only [loadFrames] at h
    split_ifs at h with hf
    cases hn : loadFrame frameId node 0 m with
    | error e => rw [hn] at h; cases h
    | ok m2 =>
      rw [hn] at h
      obtain ⟨-, s2, s3, -, -, -⟩ := loadFrame_sameShape frameId node 0 m m2 hn
      obtain ⟨hcount, hnodes⟩ := ih _ _ h
      rw [s2] at hcount
      rw [s3] at hnodes
      refine ⟨Or.inr ?_, ?_⟩
      · rcases hcount with h0 | hle
        · subst h0
          simp only [List.length_cons, List.length_nil]
          omega
        · simp only [List.length_cons]
          omega
      · intro node1 hmem
        rcases List.mem_cons.mp hmem with heq | hin
        · subst heq
          rcases loadFrame_ok_bound frameId node1 0 m m2 hn with h0 | hle
          · subst h0; simp
          · omega
        · exact hnodes node1 hin

/-- The steps of a load that returns a mesh. -/
theorem loadAnimatedMesh_steps {doc : TrajectoryDoc} {character : CharacterDoc}
    {m : AnimatedInteractionMesh} (h : loadAnimatedMesh doc character = .ok m) :
    ∃ vs m1,
      addVertices (umul (umul doc.numFrames (toUnsigned doc.partLabels.length)) 3)
        (toUnsigned doc.partLabels.length) doc.numFrames doc.partLabels 0 = .ok vs
      ∧ loadFrames doc.frames 0 (initialMesh doc vs) = .ok m1
      ∧ m = computeVertexWeights
          (loadEdgesFromYaml character.extraMarkerEdges
            (loadEdgesFromYaml character.edges m1)) := by
  unfold loadAnimatedMesh at h
  split_ifs at h with ht hn
  simp only [] at h
  cases hv : addVertices (umul (umul doc.numFrames (toUnsigned doc.partLabels.length)) 3)
      (toUnsigned doc.partLabels.length) doc.numFrames doc.partLabels 0 with
  | error e => rw [hv] at h; cases h
  | ok vs =>
    rw [hv] at h
    simp only [] at h
    split at h
    · cases h
    · rename_i m1 hf
      injection h with h
      exact ⟨vs, m1, rfl, hf, h.symm⟩

/-- The result of a load whose vertices and frames are accepted. -/
theorem loadAnimatedMesh_of_steps (doc : TrajectoryDoc) (character : CharacterDoc)
    (ht : doc.type = "MultiVector3Seq") (hn : doc.numFrames < UINT_SIZE)
    (vs : List Vertex) (m1 : AnimatedInteractionMesh)
    (hvs : addVertices (umul (umul doc.numFrames (toUnsigned doc.partLabels.length)) 3)
        (toUnsigned doc.partLabels.length) doc.numFrames doc.partLabels 0 = .ok vs)
    (hframes : loadFrames doc.frames 0 (initialMesh doc vs) = .ok m1) :
    loadAnimatedMesh doc character
      = .ok (computeVertexWeights
          (loadEdgesFromYaml character.extraMarkerEdges
            (loadEdgesFromYaml character.edges m1))) := by
  unfold loadAnimatedMesh
  rw [if_neg (not_not.mpr ht), if_neg (Nat.not_le.mpr hn)]
  simp only [hvs]
  unfold initialMesh at hframes
  rw [hframes]

/-! ## Lemmas on what the frame loop writes -/

/-- The block of a frame ends where the block of the next frame starts. -/
theorem block_le {f g nv : Nat} (h : f < g) : f * nv * 3 + nv * 3 ≤ g * nv * 3 := by
  have h1 : (f + 1) * nv ≤ g * nv := Nat.mul_le_mul_right nv h
  have h2 : (f + 1) * nv = f * nv + nv := by ring
  omega

theorem setPosition_state (m : AnimatedInteractionMesh) (v f a : Nat) (x : ℚ) (k : Nat) :
    (m.setPosition v f a x).state[k]?
      = if viewOffset m.graph v f + a = k then
          (if k < m.state.length then some x else none)
        else m.state[k]? := by
  unfold setPosition
  simp only [List.getElem?_set]
  split_ifs with h1 h2 h3 <;> first | rfl | omega

/-- The vertex loop of one frame writes the components of the node's tuples
into the block of the frame, tuple `j` at vertex `v0 + j`, and leaves every
other element of the state vector as it was. -/
theorem loadFrame_spec (nv nf frameId : Nat) (hf : frameId < nf)
    (node : List (ℚ × ℚ × ℚ)) (v0 : Nat) (m : AnimatedInteractionMesh)
    (hnv : m.numVertices = nv)
    (hoff : ∀ v, v < nv → viewOffset m.graph v frameId = frameId * nv * 3 + v * 3)
    (hlen : m.state.length = nf * nv * 3) (hfit : v0 + node.length ≤ nv) :
    ∃ m1, loadFrame frameId node v0 m = .ok m1 ∧ SameShape m m1
      ∧ (∀ j p, node[j]? = some p → ∀ a, a < 3 →
          m1.state[frameId * nv * 3 + (v0 + j) * 3 + a]? = some (component p a))
      ∧ (∀ k, (k < frameId * nv * 3 + v0 * 3
            ∨ frameId * nv * 3 + (v0 + node.length) * 3 ≤ k) →
          m1.state[k]? = m.state[k]?) := by
  induction node generalizing v0 m with
  | nil =>
    refine ⟨m, rfl, SameShape.refl m, ?_, fun k _ => rfl⟩
    intro j p hj
    simp at hj
  | cons p rest ih =>
    obtain ⟨x, y, z⟩ := p
    simp only [List.length_cons] at hfit
    have hv0 : v0 < nv := by omega
    have hblock := @block_le _ _ nv hf
    have hbase := hoff v0 hv0
    let mx := m.setPosition v0 frameId 0 x
    let my := mx.setPosition v0 frameId 1 y
    let mz := my.setPosition v0 frameId 2 z
    have hshape : SameShape m mz :=
      SameShape.trans (SameShape.trans (setPosition_sameShape m v0 frameId 0 x)
        (setPosition_sameShape mx v0 frameId 1 y)) (setPosition_sameShape my v0 frameId 2 z)
    have hstate : ∀ k, mz.state[k]?
        = if frameId * nv * 3 + v0 * 3 + 2 = k then some z
          else if frameId * nv * 3 + v0 * 3 + 1 = k then some y
          else if frameId * nv * 3 + v0 * 3 + 0 = k then some x
          else m.state[k]? := by
      intro k
      have gx : mx.graph = m.graph := rfl
      have gy : my.graph = m.graph := rfl
      have lx : mx.state.length = m.state.length := (setPosition_sameShape m v0 frameId 0 x).2.2.2.2.2
      have ly : my.state.length = m.state.length :=
        ((setPosition_sameShape mx v0 frameId 1 y).2.2.2.2.2).trans lx
      show (my.setPosition v0 frameId 2 z).state[k]? = _
      rw [setPosition_state, gy, ly, hbase]
      show (if _ then _ else (mx.setPosition v0 frameId 1 y).state[k]?) = _
      rw [setPosition_state, gx, lx, hbase]
      show (if _ then _ else if _ then _ else (m.setPosition v0 frameId 0 x).state[k]?) = _
      rw [setPosition_state, hbase]
      split_ifs <;> first | rfl | omega
    obtain ⟨m1, hload, hsame, hwritten, hother⟩ :=
      ih (v0 + 1) mz (hshape.2.2.1.trans hnv)
        (by intro v hv; rw [hshape.2.2.2.1]; exact hoff v hv)
        (hshape.2.2.2.2.2.trans hlen) (by omega)
    refine ⟨m1, ?_, SameShape.trans hshape hsame, ?_, ?_⟩
    · simp only [loadFrame]
      rw [if_neg (by rw [hnv]; omega)]
      exact hload
    · intro j q hj a ha
      cases j with
      | zero =>
        simp only [List.getElem?_cons_zero, Option.some.injEq] at hj
        subst hj
        rw [hother _ (Or.inl (by omega)), hstate]
        interval_cases a
        · rw [if_neg (by omega), if_neg (by omega), if_pos (by omega)]; rfl
        · rw [if_neg (by omega), if_pos (by omega)]; rfl
        · rw [if_pos (by omega)]; rfl
      | succ j =>
        simp only [List.getElem?_cons_succ] at hj
        have := hwritten j q hj a ha
        rwa [show v0 + 1 + j = v0 + (j + 1) by omega] at this
    · intro k hk
      simp only [List.length_cons] at hk
      have hk1 : k < frameId * nv * 3 + (v0 + 1) * 3
          ∨ frameId * nv * 3 + (v0 + 1 + rest.length) * 3 ≤ k := by omega
      have n2 : ¬ frameId * nv * 3 + v0 * 3 + 2 = k := by omega
      have n1 : ¬ frameId * nv * 3 + v0 * 3 + 1 = k := by omega
      have n0 : ¬ frameId * nv * 3 + v0 * 3 + 0 = k := by omega
      rw [hother k hk1, hstate, if_neg n2, if_neg n1, if_neg n0]

/-- The frame loop writes tuple `j` of frame entry `i` into the view of vertex
`j` at frame `f0 + i`, and leaves the elements of every view that the document
does not supply as they were. -/
theorem loadFrames_spec (nv nf : Nat) (frames : List (List (ℚ × ℚ × ℚ))) (f0 : Nat)
    (m : AnimatedInteractionMesh) (hnv : m.numVertices = nv) (hnf : m.numFrames = nf)
    (hoff : ∀ f, f < nf → ∀ v, v < nv → viewOffset m.graph v f = f * nv * 3 + v * 3)
    (hlen : m.state.length = nf * nv * 3) (hfit : f0 + frames.length ≤ nf)
    (hnodes : ∀ node ∈ frames, node.length ≤ nv) :
    ∃ m1, loadFrames frames f0 m = .ok m1 ∧ SameShape m m1
      ∧ (∀ i node, frames[i]? = some node → ∀ j p, node[j]? = some p → ∀ a, a < 3 →
          m1.state[(f0 + i) * nv * 3 + j * 3 + a]? = some (component p a))
      ∧ (∀ f v a, f < nf → v < nv → a < 3 →
          (f < f0 ∨ ∀ node, frames[f - f0]? = some node → node.length ≤ v) →
          m1.state[f * nv * 3 + v * 3 + a]? = m.state[f * nv * 3 + v * 3 + a]?) := by
  induction frames generalizing f0 m with
  | nil =>
    refine ⟨m, rfl, SameShape.refl m, ?_, fun _ _ _ _ _ _ _ => rfl⟩
    intro i node hi
    simp at hi
  | cons node rest ih =>
    simp only [List.length_cons] at hfit
    have hf0 : f0 < nf := by omega
    have hnode : node.length ≤ nv := hnodes node (List.mem_cons_self _ _)
    obtain ⟨m2, hload2, hsA, hwritten2, hother2⟩ :=
      loadFrame_spec nv nf f0 hf0 node 0 m hnv (hoff f0 hf0) hlen (by omega)
    obtain ⟨m1, hload, hshape, hwritten, hother⟩ :=
      ih (f0 + 1) m2 (hsA.2.2.1.trans hnv) (hsA.2.1.trans hnf)
        (by intro f hf v hv; rw [hsA.2.2.2.1]; exact hoff f hf v hv)
        (hsA.2.2.2.2.2.trans hlen) (by omega)
        (fun n hn => hnodes n (List.mem_cons_of_mem _ hn))
    refine ⟨m1, ?_, SameShape.trans hsA hshape, ?_, ?_⟩
    · simp only [loadFrames]
      rw [if_neg (by rw [hnf]; omega), hload2]
      exact hload
    · intro i nd hi j p hj a ha
      cases i with
      | zero =>
        simp only [List.getElem?_cons_zero, Option.some.injEq] at hi
        subst hi
        have hjlt : j < node.length := (List.getElem?_eq_some.mp hj).1
        rw [Nat.add_zero, hother f0 j a hf0 (by omega) ha (Or.inl (by omega))]
        have := hwritten2 j p hj a ha
        rwa [Nat.zero_add] at this
      | succ i =>
        simp only [List.getElem?_cons_succ] at hi
        have := hwritten i nd hi j p hj a ha
        rwa [show f0 + 1 + i = f0 + (i + 1) by omega] at this
    · intro f v a hf hv ha hcond
      have hrest : f < f0 + 1 ∨ ∀ nd, rest[f - (f0 + 1)]? = some nd → nd.length ≤ v := by
        rcases Nat.lt_or_ge f (f0 + 1) with hlt | hge
        · exact Or.inl hlt
        · right
          intro nd hnd
          rcases hcond with hc | hc
          · omega
          · apply hc nd
            rw [show f - f0 = (f - (f0 + 1)) + 1 by omega]
            simpa using hnd
      rw [hother f v a hf hv ha hrest]
      apply hother2
      rcases Nat.lt_trichotomy f f0 with hlt | heq | hgt
      · left
        have := @block_le _ _ nv hlt
        omega
      · right
        subst heq
        rcases hcond with hc | hc
        · omega
        · have := hc node (by simp)
          omega
      · right
        have := @block_le _ _ nv hgt
        omega

/-! ## Lemmas on the load of a document whose sizes fit -/

theorem labelledVertices_viewOffset (nv nf : Nat) (labels : List String)
    (g : Graph) (hg : g.vertices = labelledVertices nv nf labels 0)
    (hb : nf * nv * 3 < UINT_SIZE) (hL : labels.length = nv)
    (f v : Nat) (hf : f < nf) (hv : v < nv) :
    viewOffset g v f = f * nv * 3 + v * 3 := by
  unfold viewOffset
  rw [hg, labelledVertices_getElem?, List.getElem?_eq_getElem (by omega)]
  simp only [Option.map_some', List.getD_eq_getElem?_getD, List.getElem?_map,
    List.getElem?_range hf, Option.getD_some, Nat.zero_add]
  exact (offset_exact hf hv hb).1

theorem pushViews_head_error (S nv v f : Nat) (rest : List Nat)
    (h : ¬ umul (umul f nv) 3 + v * 3 + 3 ≤ S) :
    pushViews S nv v (f :: rest) = .error "position view outside of the state vector" := by
  simp only [pushViews]
  rw [if_neg h]

theorem loadAnimatedMesh_of_addVertices_error (doc : TrajectoryDoc)
    (character : CharacterDoc) (ht : doc.type = "MultiVector3Seq")
    (hn : doc.numFrames < UINT_SIZE) (e : String)
    (h : addVertices (umul (umul doc.numFrames (toUnsigned doc.partLabels.length)) 3)
        (toUnsigned doc.partLabels.length) doc.numFrames doc.partLabels 0 = .error e) :
    loadAnimatedMesh doc character = .error e := by
  unfold loadAnimatedMesh
  rw [if_neg (not_not.mpr ht), if_neg (Nat.not_le.mpr hn)]
  simp only [h]

/-- A document with a label and a frame whose first view does not fit the
(wrapped) size of the state vector is refused when that view is built. -/
theorem loadAnimatedMesh_first_view_error (doc : TrajectoryDoc) (character : CharacterDoc)
    (ht : doc.type = "MultiVector3Seq") (hn : doc.numFrames < UINT_SIZE)
    (label : String) (rest : List String) (hlabels : doc.partLabels = label :: rest)
    (hF : 0 < doc.numFrames)
    (hbad : ¬ umul (umul 0 (toUnsigned doc.partLabels.length)) 3 + 0 * 3 + 3
        ≤ umul (umul doc.numFrames (toUnsigned doc.partLabels.length)) 3) :
    loadAnimatedMesh doc character
      = .error "position view outside of the state vector" := by
  apply loadAnimatedMesh_of_addVertices_error doc character ht hn
  obtain ⟨n, hnum⟩ : ∃ n, doc.numFrames = n + 1 := ⟨doc.numFrames - 1, by omega⟩
  generalize hS : umul (umul doc.numFrames (toUnsigned doc.partLabels.length)) 3 = S at hbad ⊢
  generalize hV : toUnsigned doc.partLabels.length = nv at hbad ⊢
  rw [hlabels, hnum]
  simp only [addVertices]
  rw [List.range_succ_eq_map, pushViews_head_error S nv 0 0 _ hbad]

theorem manyFramesDoc_fails :
    loadAnimatedMesh manyFramesDoc noEdges
      = .error "position view outside of the state vector" :=
  loadAnimatedMesh_first_view_error manyFramesDoc noEdges rfl (by decide) "marker" [] rfl
    (by decide) (by decide)

/-- A document whose sizes fit `unsigned` and whose frames stay within the
declared bounds is loaded, and the frame loop has written what it supplies. -/
theorem loadAnimatedMesh_fits (doc : TrajectoryDoc) (character : CharacterDoc)
    (ht : doc.type = "MultiVector3Seq")
    (hL : doc.partLabels.length < UINT_SIZE) (hF : doc.numFrames < UINT_SIZE)
    (hsize : 3 * doc.partLabels.length * doc.numFrames < UINT_SIZE)
    (hframes : doc.frames.length ≤ doc.numFrames)
    (hnodes : ∀ node ∈ doc.frames, node.length ≤ doc.partLabels.length) :
    ∃ m, loadAnimatedMesh doc character = .ok m
      ∧ ∀ f v a, f < doc.numFrames → v < doc.partLabels.length → a < 3 →
          m.position v f a = suppliedCoordinate doc f v a := by
  have hu : toUnsigned doc.partLabels.length = doc.partLabels.length := Nat.mod_eq_of_lt hL
  have hb : doc.numFrames * doc.partLabels.length * 3 < UINT_SIZE := by
    have e : doc.numFrames * doc.partLabels.length * 3
        = 3 * doc.partLabels.length * doc.numFrames := by ring
    omega
  have hS : umul (umul doc.numFrames doc.partLabels.length) 3
      = doc.numFrames * doc.partLabels.length * 3 := by
    rw [umul_umul_left]
    exact Nat.mod_eq_of_lt hb
  have hvs : addVertices (umul (umul doc.numFrames (toUnsigned doc.partLabels.length)) 3)
      (toUnsigned doc.partLabels.length) doc.numFrames doc.partLabels 0
      = .ok (labelledVertices doc.partLabels.length doc.numFrames doc.partLabels 0) := by
    rw [hu, addVertices_ok_iff]
    refine ⟨?_, rfl⟩
    intro i hi f hf
    have := offset_exact hf hi hb
    rw [hS, Nat.zero_add, this.1]
    exact this.2.2
  have hoff : ∀ f, f < doc.numFrames → ∀ v, v < doc.partLabels.length →
      viewOffset (initialMesh doc
        (labelledVertices doc.partLabels.length doc.numFrames doc.partLabels 0)).graph v f
        = f * doc.partLabels.length * 3 + v * 3 :=
    fun f hf v hv =>
      labelledVertices_viewOffset _ _ doc.partLabels _ rfl hb rfl f v hf hv
  have hlen0 : (initialMesh doc
      (labelledVertices doc.partLabels.length doc.numFrames doc.partLabels 0)).state.length
      = doc.numFrames * doc.partLabels.length * 3 := by
    show (List.replicate _ (0 : ℚ)).length = _
    rw [List.length_replicate, hu, hS]
  obtain ⟨m1, hload, hshape, hwritten, hother⟩ :=
    loadFrames_spec doc.partLabels.length doc.numFrames doc.frames 0
      (initialMesh doc (labelledVertices doc.partLabels.length doc.numFrames doc.partLabels 0))
      hu rfl hoff hlen0 (by omega) hnodes
  refine ⟨_, loadAnimatedMesh_of_steps doc character ht hF _ m1 hvs hload, ?_⟩
  intro f v a hf hv ha
  have hstate : (computeVertexWeights (loadEdgesFromYaml character.extraMarkerEdges
      (loadEdgesFromYaml character.edges m1))).state = m1.state := by
    show (loadEdgesFromYaml _ (loadEdgesFromYaml _ m1)).state = _
    rw [(loadEdgesFromYaml_fields _ _).2.2.2.1, (loadEdgesFromYaml_fields _ _).2.2.2.1]
  have hverts : (computeVertexWeights (loadEdgesFromYaml character.extraMarkerEdges
      (loadEdgesFromYaml character.edges m1))).graph.vertices = m1.graph.vertices := by
    show (loadEdgesFromYaml _ (loadEdgesFromYaml _ m1)).graph.vertices = _
    rw [loadEdgesFromYaml_vertices, loadEdgesFromYaml_vertices]
  rw [position_congr m1 _ hstate hverts]
  unfold position
  rw [hshape.2.2.2.1, hoff f hf v hv, List.getD_eq_getElem?_getD]
  unfold suppliedCoordinate
  cases hnode : doc.frames[f]? with
  | none =>
    rw [hother f v a hf hv ha (Or.inr (by
      intro node hn
      rw [Nat.sub_zero, hnode] at hn
      cases hn))]
    have hidx := (offset_exact hf hv hb).2.2
    show (List.replicate _ (0 : ℚ))[_]?.getD 0 = 0
    rw [List.getElem?_replicate]
    split_ifs <;> rfl
  | some node =>
    show _ = (match node[v]? with
      | some p => component p a
      | none => 0)
    cases hp : node[v]? with
    | none =>
      rw [hother f v a hf hv ha (Or.inr (by
        intro nd hn
        rw [Nat.sub_zero, hnode] at hn
        injection hn with hn
        subst hn
        by_contra hlt
        rw [List.getElem?_eq_getElem (by omega)] at hp
        cases hp))]
      show (List.replicate _ (0 : ℚ))[_]?.getD 0 = 0
      rw [List.getElem?_replicate]
      split_ifs <;> rfl
    | some p =>
      have := hwritten f node hnode v p hp a ha
      rw [Nat.zero_add] at this
      rw [this]
      rfl

/-! ## Lemmas on the interaction meshes -/

/-- What the frame loop of `computeInteractionMeshes` leaves alone. -/
theorem foldl_computeInteractionMesh_fields (cgal : Triangulation3) (fs : List Nat)
    (acc : AnimatedInteractionMesh) :
    (fs.foldl (fun acc i => computeInteractionMesh cgal acc i) acc).framerate = acc.framerate
    ∧ (fs.foldl (fun acc i => computeInteractionMesh cgal acc i) acc).numFrames = acc.numFrames
    ∧ (fs.foldl (fun acc i => computeInteractionMesh cgal acc i) acc).numVertices
        = acc.numVertices
    ∧ (fs.foldl (fun acc i => computeInteractionMesh cgal acc i) acc).state = acc.state
    ∧ (fs.foldl (fun acc i => computeInteractionMesh cgal acc i) acc).graph = acc.graph := by
  induction fs generalizing acc with
  | nil => exact ⟨rfl, rfl, rfl, rfl, rfl⟩
  | cons f fs ih =>
    rw [List.foldl_cons]
    exact ih (computeInteractionMesh cgal acc f)

theorem computeInteractionMeshes_fields (cgal : Triangulation3)
    (m : AnimatedInteractionMesh) :
    (computeInteractionMeshes cgal m).framerate = m.framerate
    ∧ (computeInteractionMeshes cgal m).numFrames = m.numFrames
    ∧ (computeInteractionMeshes cgal m).numVertices = m.numVertices
    ∧ (computeInteractionMeshes cgal m).state = m.state
    ∧ (computeInteractionMeshes cgal m).graph = m.graph :=
  foldl_computeInteractionMesh_fields cgal _ _

theorem tetraDoc_loads : loadAnimatedMesh tetraDoc noEdges = .ok tetraMesh := by
  simp [loadAnimatedMesh, tetraDoc, noEdges, tetraMesh, addVertices, pushViews,
    loadFrames, loadFrame, umul, toUnsigned, UINT_SIZE, List.range, List.range.loop,
    setPosition, viewOffset, loadEdgesFromYaml, loadEdgesLoop, computeVertexWeights,
    computeVertexWeightsLoop, computeFrameWeights, rawWeightPass]

theorem noLabelsDoc_loads : loadAnimatedMesh noLabelsDoc noEdges = .ok noLabelsMesh := by
  simp [loadAnimatedMesh, noLabelsDoc, noEdges, noLabelsMesh, addVertices,
    loadFrames, umul, toUnsigned, UINT_SIZE, loadEdgesFromYaml, loadEdgesLoop,
    computeVertexWeights, computeVertexWeightsLoop_nil]

theorem tetraMesh_points :
    triangulationPoints tetraCgal.defaultPoint tetraMesh 0 = tetraPoints := by
  simp [triangulationPoints, tetraCgal, tetraMesh, tetraPoints, vertexPoint, List.replicate]

/-- What `recomputeCachedData ()` stores for a loaded mesh. -/
theorem recomputeCachedData_loaded {doc : TrajectoryDoc} {character : CharacterDoc}
    {m : AnimatedInteractionMesh} (h : loadAnimatedMesh doc character = .ok m) :
    (recomputeCachedData m).state = m.state
    ∧ (recomputeCachedData m).numVertices = m.numVertices
    ∧ (0 < m.numVertices → (recomputeCachedData m).numFrames = m.numFrames)
    ∧ (m.numVertices = 0 → (recomputeCachedData m).numFrames = 0) := by
  obtain ⟨h1, -, h3, h4, h5, -, -⟩ := loadAnimatedMesh_ok h
  have hlen : m.graph.vertices.length = doc.partLabels.length := by
    rw [h5, labelledVertices_length]
  have hnv : toUnsigned m.graph.vertices.length = m.numVertices := by rw [hlen, h4]
  unfold recomputeCachedData
  simp only [hnv]
  split_ifs with h0
  · exact ⟨rfl, rfl, fun hpos => absurd h0 (by omega), fun _ => rfl⟩
  · refine ⟨rfl, rfl, fun _ => ?_, fun hz => absurd hz h0⟩
    have hL : 0 < doc.partLabels.length := by
      rcases Nat.eq_zero_or_pos doc.partLabels.length with hz | hp
      · rw [h4, hz] at h0
        exact absurd rfl h0
      · exact hp
    have hv0 := labelledVertices_getElem? (toUnsigned doc.partLabels.length) doc.numFrames
      doc.partLabels 0 0
    rw [List.getElem?_eq_getElem hL, ← h5] at hv0
    show toUnsigned (match m.graph.vertices[0]? with
      | some v => v.positions.length
      | none => 0) = m.numFrames
    rw [hv0]
    simp only [Option.map_some', List.length_map, List.length_range]
    rw [h3]
    exact Nat.mod_eq_of_lt h1

/-! ## Lemmas on documents given node by node -/

theorem loadFrameYaml_toYaml (check : VertexNode → Except String Unit)
    (hcheck : ∀ items, check (.sequence items) = .ok ()) (frameId : Nat)
    (node : List (ℚ × ℚ × ℚ)) :
    ∀ (vertex : Nat) (m : AnimatedInteractionMesh),
      loadFrameYaml check frameId
          (node.map (fun p => VertexNode.sequence [p.1, p.2.1, p.2.2])) vertex m
        = loadFrame frameId node vertex m := by
  induction node with
  | nil => intro vertex m; rfl
  | cons p rest ih =>
    intro vertex m
    obtain ⟨x, y, z⟩ := p
    simp only [List.map_cons, loadFrameYaml, loadVertexYaml, loadFrame, hcheck]
    by_cases hv : vertex ≥ m.numVertices
    · rw [if_pos hv, if_pos hv]
    · rw [if_neg hv, if_neg hv]
      exact ih _ _

theorem loadFramesYaml_toYaml (check : VertexNode → Except String Unit)
    (hcheck : ∀ items, check (.sequence items) = .ok ())
    (frames : List (List (ℚ × ℚ × ℚ))) :
    ∀ (frameId : Nat) (m : AnimatedInteractionMesh),
      loadFramesYaml check
          (frames.map (fun node => node.map (fun p => VertexNode.sequence [p.1, p.2.1, p.2.2])))
          frameId m
        = loadFrames frames frameId m := by
  induction frames with
  | nil => intro frameId m; rfl
  | cons node rest ih =>
    intro frameId m
    simp only [List.map_cons, loadFramesYaml, loadFrames]
    by_cases hf : frameId ≥ m.numFrames
    · rw [if_pos hf, if_pos hf]
    · rw [if_neg hf, if_neg hf, loadFrameYaml_toYaml check hcheck]
      cases loadFrame frameId node 0 m with
      | error e => rfl
      | ok m1 => exact ih _ _

/-- On a document whose frame entries all are `[x, y, z]` sequences the loader
on nodes is `loadAnimatedMesh`, whenever the type check lets sequences pass. -/
theorem loadAnimatedMeshYaml_toYaml (check : VertexNode → Except String Unit)
    (hcheck : ∀ items, check (.sequence items) = .ok ())
    (doc : TrajectoryDoc) (character : CharacterDoc) :
    loadAnimatedMeshYaml check doc.toYaml character = loadAnimatedMesh doc character := by
  unfold loadAnimatedMeshYaml loadAnimatedMesh TrajectoryDoc.toYaml
  simp only [loadFramesYaml_toYaml check hcheck]

/-- A frame that starts with a scalar stops the frame loop, whatever the type
check answers: by the check, by the frame count, by the vertex count or by the
read of the first coordinate. -/
theorem loadFramesYaml_scalar_head (check : VertexNode → Except String Unit) (value : ℚ)
    (node : List VertexNode) (rest : List (List VertexNode)) (frameId : Nat)
    (m : AnimatedInteractionMesh) :
    ∃ e, loadFramesYaml check ((VertexNode.scalar value :: node) :: rest) frameId m
      = .error e := by
  unfold loadFramesYaml
  by_cases hf : frameId ≥ m.numFrames
  · rw [if_pos hf]; exact ⟨_, rfl⟩
  · rw [if_neg hf]
    unfold loadFrameYaml loadVertexYaml
    cases check (VertexNode.scalar value) with
    | error e => exact ⟨_, rfl⟩
    | ok u =>
      simp only []
      by_cases hv : 0 ≥ m.numVertices
      · rw [if_pos hv]; exact ⟨_, rfl⟩
      · rw [if_neg hv]; exact ⟨_, rfl⟩

theorem loadAnimatedMeshYaml_frames_error (check : VertexNode → Except String Unit)
    (doc : YamlTrajectory) (character : CharacterDoc)
    (h : ∀ m : AnimatedInteractionMesh, ∃ e, loadFramesYaml check doc.frames 0 m = .error e) :
    ∃ e, loadAnimatedMeshYaml check doc character = .error e := by
  unfold loadAnimatedMeshYaml
  split_ifs with ht hn
  · exact ⟨_, rfl⟩
  · exact ⟨_, rfl⟩
  · simp only []
    cases addVertices (umul (umul doc.numFrames (toUnsigned doc.partLabels.length)) 3)
        (toUnsigned doc.partLabels.length) doc.numFrames doc.partLabels 0 with
    | error e => exact ⟨_, rfl⟩
    | ok vs =>
      simp only []
      obtain ⟨e, he⟩ := h
        { framerate := doc.frameRate, numFrames := doc.numFrames,
          numVertices := toUnsigned doc.partLabels.length,
          state := List.replicate
            (umul (umul doc.numFrames (toUnsigned doc.partLabels.length)) 3) 0,
          graph := { vertices := vs, edges := [] }, interactionMeshes := [] }
      rw [he]
      exact ⟨_, rfl⟩

/-- The first frame `writeTrajectory` emits for a mesh with a vertex and a frame
starts with a scalar. -/
theorem writeTrajectory_frames_head (m : AnimatedInteractionMesh) (hwf : m.WellFormed)
    (hnv : 0 < m.numVertices) (hnf : 0 < m.numFrames) :
    ∃ value node rest,
      (writeTrajectory m).frames = (VertexNode.scalar value :: node) :: rest := by
  obtain ⟨n, hn⟩ := Nat.exists_eq_succ_of_ne_zero (Nat.pos_iff_ne_zero.mp hnf)
  have hlt := hwf.size_lt
  have hlen := hwf.state_length
  have hmul : 3 * m.numVertices ≤ 3 * m.numVertices * m.numFrames :=
    Nat.le_mul_of_pos_right _ hnf
  have hsize : m.optimizationVectorSizeOneFrame = 3 * m.numVertices := by
    unfold optimizationVectorSizeOneFrame umul
    exact Nat.mod_eq_of_lt (by omega)
  have hseg : (m.makeOptimizationVectorOneFrame 0).length = 3 * m.numVertices := by
    unfold makeOptimizationVectorOneFrame segment
    rw [hsize, Nat.zero_mul, List.drop_zero, List.length_take]
    omega
  cases hx : m.makeOptimizationVectorOneFrame 0 with
  | nil => rw [hx] at hseg; simp only [List.length_nil] at hseg; omega
  | cons value tail =>
    refine ⟨value, tail.map VertexNode.scalar, ?_⟩
    unfold writeTrajectory
    simp only [hn, Nat.succ_eq_add_one, List.range_succ_eq_map, List.map_cons, hx]
    exact ⟨_, rfl⟩

/-- The loader rejects what `writeTrajectory` emits for any loaded mesh with a
vertex and a frame, with any skeleton file and whatever the type check
answers. -/
theorem loadAnimatedMeshYaml_writeTrajectory_error (check : VertexNode → Except String Unit)
    (doc : TrajectoryDoc) (character skeleton : CharacterDoc) (m : AnimatedInteractionMesh)
    (h : loadAnimatedMesh doc character = .ok m)
    (hnv : 0 < m.numVertices) (hnf : 0 < m.numFrames) :
    ∃ e, loadAnimatedMeshYaml check (writeTrajectory m) skeleton = .error e := by
  obtain ⟨value, node, rest, hframes⟩ :=
    writeTrajectory_frames_head m (loadAnimatedMesh_wellFormed h hnf).1 hnv hnf
  apply loadAnimatedMeshYaml_frames_error
  intro m0
  rw [hframes]
  exact loadFramesYaml_scalar_head check value node rest 0 m0

/-! ## Lemmas on the weights of two meshes -/

/-- The slot of a frame after `computeVertexWeights`, edge by edge. -/
theorem computeVertexWeights_slot (m : AnimatedInteractionMesh) (f : Nat)
    (hf : f < m.numFrames) :
    m.computeVertexWeights.graph.edges.map (fun e => e.prop.weight[f]?)
      = m.graph.edges.map (fun e => some (m.rawWeight f e / m.rawWeightSum f)) := by
  apply List.ext_getElem?
  intro i
  rw [List.getElem?_map, List.getElem?_map]
  cases he : m.graph.edges[i]? with
  | none =>
    have hlen : m.graph.edges.length ≤ i := by
      by_contra hlt
      rw [List.getElem?_eq_getElem (by omega)] at he
      cases he
    have hnone : m.computeVertexWeights.graph.edges[i]? = none := by
      apply List.getElem?_eq_none
      show (computeVertexWeightsLoop m _ _).length ≤ i
      rw [computeVertexWeightsLoop_length]
      exact hlen
    rw [hnone]
    rfl
  | some e =>
    obtain ⟨e1, hget, -, -, -, hslots⟩ :=
      computeVertexWeightsLoop_range m m.graph.edges m.numFrames le_rfl i e he
    have hsome : m.computeVertexWeights.graph.edges[i]? = some e1 := hget
    rw [hsome]
    simp only [Option.map_some', Option.some.injEq]
    exact hslots f hf

/-- Raw weights of two edge lists with the same endpoints, in two meshes whose
raw weights differ by the factor `k` on these endpoints. -/
theorem rawWeight_map_scaled (m m1 : AnimatedInteractionMesh) (f : Nat) (k : ℚ)
    (es es1 : List GraphEdge)
    (hsk : es1.map GraphEdge.skeleton = es.map GraphEdge.skeleton)
    (hraw : ∀ e ∈ es, m1.rawWeight f e = k * m.rawWeight f e) :
    es1.map (m1.rawWeight f) = es.map (fun e => k * m.rawWeight f e) := by
  induction es generalizing es1 with
  | nil =>
    cases es1 with
    | nil => rfl
    | cons a l => simp at hsk
  | cons e es ih =>
    cases es1 with
    | nil => simp at hsk
    | cons a l =>
      simp only [List.map_cons, List.cons.injEq] at hsk ⊢
      refine ⟨?_, ih l hsk.2 (fun e' he' => hraw e' (List.mem_cons_of_mem _ he'))⟩
      rw [rawWeight_congr m1 f e a hsk.1]
      exact hraw e (List.mem_cons_self _ _)

theorem sum_map_scaled (k : ℚ) (g : GraphEdge → ℚ) (es : List GraphEdge) :
    (es.map (fun e => k * g e)).sum = k * (es.map g).sum := by
  induction es with
  | nil => simp
  | cons e es ih => rw [List.map_cons, List.sum_cons, ih, List.map_cons, List.sum_cons, mul_add]

/-- Two meshes with the same frame count and the same skeleton edges, whose raw
weights in frame `f` differ by one non-zero factor, get the same weights in
frame `f`. -/
theorem computeVertexWeights_slot_scaled (m m1 : AnimatedInteractionMesh) (f : Nat)
    (hf : f < m.numFrames) (hnf : m1.numFrames = m.numFrames) (k : ℚ) (hk : k ≠ 0)
    (hsk : m1.graph.edges.map GraphEdge.skeleton = m.graph.edges.map GraphEdge.skeleton)
    (hraw : ∀ e ∈ m.graph.edges, m1.rawWeight f e = k * m.rawWeight f e) :
    m1.computeVertexWeights.graph.edges.map (fun e => e.prop.weight[f]?)
      = m.computeVertexWeights.graph.edges.map (fun e => e.prop.weight[f]?) := by
  have hmap := rawWeight_map_scaled m m1 f k _ _ hsk hraw
  have hsum : m1.rawWeightSum f = k * m.rawWeightSum f := by
    unfold rawWeightSum
    rw [hmap, sum_map_scaled]
  rw [computeVertexWeights_slot m f hf, computeVertexWeights_slot m1 f (by omega)]
  have hleft : m1.graph.edges.map (fun e => some (m1.rawWeight f e / m1.rawWeightSum f))
      = (m1.graph.edges.map (m1.rawWeight f)).map (fun w => some (w / m1.rawWeightSum f)) := by
    rw [List.map_map]
    rfl
  rw [hleft, hmap, List.map_map, hsum]
  apply List.map_congr_left
  intro e _
  show some (k * m.rawWeight f e / (k * m.rawWeightSum f)) = _
  rw [mul_div_mul_left _ _ hk]

/-- The squared distance of two vertices whose positions in frame `f` are the
images, by the map `p ↦ c * p + t`, of their positions in another mesh. -/
theorem squaredDistance_similar (m m1 : AnimatedInteractionMesh) (f : Nat) (c : ℚ)
    (t : ℚ × ℚ × ℚ) (u v : Nat)
    (hu : ∀ a, a < 3 → m1.position u f a = c * m.position u f a + component t a)
    (hv : ∀ a, a < 3 → m1.position v f a = c * m.position v f a + component t a) :
    m1.squaredDistance u v f = c ^ 2 * m.squaredDistance u v f := by
  unfold squaredDistance
  rw [hu 0 (by decide), hu 1 (by decide), hu 2 (by decide),
    hv 0 (by decide), hv 1 (by decide), hv 2 (by decide)]
  ring

/-- Two vertices that differ in one coordinate are at a non-zero squared
distance. -/
theorem squaredDistance_ne_zero (m : AnimatedInteractionMesh) (f u v : Nat)
    (h : ∃ a, a < 3 ∧ m.position u f a ≠ m.position v f a) :
    m.squaredDistance u v f ≠ 0 := by
  obtain ⟨a, ha, hne⟩ := h
  have hd : m.position u f a - m.position v f a ≠ 0 := sub_ne_zero.mpr hne
  have hsq : 0 < (m.position u f a - m.position v f a) ^ 2 := by positivity
  have h0 : 0 ≤ (m.position u f 0 - m.position v f 0) ^ 2 := by positivity
  have h1 : 0 ≤ (m.position u f 1 - m.position v f 1) ^ 2 := by positivity
  have h2 : 0 ≤ (m.position u f 2 - m.position v f 2) ^ 2 := by positivity
  unfold squaredDistance
  interval_cases a <;> linarith

/-! ## Lemmas on the layout of the position views -/

/-- Every index below `3 * V * F` splits in one way into a frame, a vertex and
an axis. -/
theorem offset_split (V f v a : Nat) (hv : v < V) (ha : a < 3) :
    (f * V * 3 + v * 3 + a) / (V * 3) = f ∧ (f * V * 3 + v * 3 + a) % (V * 3) = v * 3 + a := by
  have hpos : 0 < V * 3 := by omega
  rw [Nat.div_mod_unique hpos]
  constructor
  · ring
  · omega

theorem offset_injective (V f v a f1 v1 a1 : Nat) (hv : v < V) (ha : a < 3)
    (hv1 : v1 < V) (ha1 : a1 < 3)
    (h : f * V * 3 + v * 3 + a = f1 * V * 3 + v1 * 3 + a1) :
    f = f1 ∧ v = v1 ∧ a = a1 := by
  obtain ⟨hq, hr⟩ := offset_split V f v a hv ha
  obtain ⟨hq1, hr1⟩ := offset_split V f1 v1 a1 hv1 ha1
  rw [h] at hq hr
  have hff : f = f1 := by rw [← hq, hq1]
  have hrr : v * 3 + a = v1 * 3 + a1 := by rw [← hr, hr1]
  exact ⟨hff, by omega, by omega⟩

theorem offset_surjective (V F k : Nat) (hk : k < 3 * V * F) :
    ∃ f v a, f < F ∧ v < V ∧ a < 3 ∧ f * V * 3 + v * 3 + a = k := by
  have hV : 0 < V := by
    rcases Nat.eq_zero_or_pos V with hz | hp
    · rw [hz] at hk
      simp at hk
    · exact hp
  have hpos : 0 < V * 3 := by omega
  refine ⟨k / (V * 3), k % (V * 3) / 3, k % (V * 3) % 3, ?_, ?_, Nat.mod_lt _ (by decide), ?_⟩
  · rw [Nat.div_lt_iff_lt_mul hpos]
    have e : F * (V * 3) = 3 * V * F := by ring
    rw [e]
    exact hk
  · have := Nat.mod_lt k hpos
    omega
  · have h1 := Nat.div_add_mod k (V * 3)
    have h2 := Nat.div_add_mod (k % (V * 3)) 3
    have e : k / (V * 3) * V * 3 = V * 3 * (k / (V * 3)) := by ring
    rw [e]
    omega

/-- In a layout whose size fits `unsigned`, the label loop of the loader puts
the views of a vertex at the exact offsets. -/
theorem pushViews_exact (V F v : Nat) (h : 3 * V * F < UINT_SIZE) (hv : v < V) :
    pushViews (3 * V * F) V v (List.range F)
      = .ok ((List.range F).map (fun f => f * V * 3 + v * 3)) := by
  have hb : F * V * 3 < UINT_SIZE := by
    have e : F * V * 3 = 3 * V * F := by ring
    omega
  have e : F * V * 3 = 3 * V * F := by ring
  rw [pushViews_ok_iff]
  constructor
  · intro f hf
    obtain ⟨h1, -, h3⟩ := offset_exact (List.mem_range.mp hf) hv hb
    omega
  · apply List.map_congr_left
    intro f hf
    exact ((offset_exact (List.mem_range.mp hf) hv hb).1).symm

/-- In a layout whose size fits `unsigned`, the frame loop of the snapshot
passes its assertion and puts the views of a vertex at the exact offsets. -/
theorem rebindViews_exact (V F v : Nat) (views : List Nat) (h : 3 * V * F < UINT_SIZE)
    (hv : v < V) (hlen : views.length = F) :
    rebindViews V (3 * V * F) v (List.range F) views
      = .ok ((List.range F).map (fun f => f * V * 3 + v * 3)) := by
  have hb : F * V * 3 < UINT_SIZE := by
    have e : F * V * 3 = 3 * V * F := by ring
    omega
  have e : F * V * 3 = 3 * V * F := by ring
  rw [rebindViews_ok_iff]
  constructor
  · intro f hf
    obtain ⟨-, h2, h3⟩ := offset_exact (List.mem_range.mp hf) hv hb
    omega
  · rw [foldl_set_range _ views F hlen]
    apply List.map_congr_left
    intro f hf
    exact ((offset_exact (List.mem_range.mp hf) hv hb).2.1).symm

/-! ## Lemmas on the edges and vertices of a frame graph -/

theorem tetraMesh_frameGraph : frameGraph tetraCgal tetraMesh 0 = tetraGraph := by
  unfold frameGraph
  rw [tetraMesh_points]
  simp [tetraCgal, tetraCirculations, tetraGraph, addFiniteEdges, addFacets, addTriangleEdges,
    InteractionMeshGraph.addEdge, InteractionMeshGraph.empty, Triangle.get,
    getVertexFromPosition, getVertexFromPositionLoop, positionMatches, tetraMesh,
    List.range, List.range.loop, List.replicate]

theorem addEdge_endpoints (g : InteractionMeshGraph) (u v : Nat) :
    (InteractionMeshGraph.addEdge g u v).edges.map endpoints
      = g.edges.map endpoints ++ [(u, v)] := by
  simp [InteractionMeshGraph.addEdge, endpoints]

theorem addTriangleEdges_endpoints (m : AnimatedInteractionMesh) (frameId : Nat)
    (t : Triangle) (g : InteractionMeshGraph) :
    (addTriangleEdges m frameId t g).edges.map endpoints
      = g.edges.map endpoints ++ triangleSides m frameId t := by
  simp [addTriangleEdges, triangleSides, List.range, List.range.loop, addEdge_endpoints]

theorem foldl_addTriangleEdges_endpoints (m : AnimatedInteractionMesh) (frameId : Nat)
    (ts : List Triangle) (g : InteractionMeshGraph) :
    (ts.foldl (fun g t => addTriangleEdges m frameId t g) g).edges.map endpoints
      = g.edges.map endpoints ++ (ts.map (triangleSides m frameId)).flatten := by
  induction ts generalizing g with
  | nil => simp
  | cons t ts ih =>
    rw [List.foldl_cons, ih, addTriangleEdges_endpoints, List.map_cons, List.flatten_cons,
      List.append_assoc]

/-- The edges of a graph after the loop over the finite edges: the edges it
had, then one edge for every side of every triangle visited, in the order of
the visits. -/
theorem addFiniteEdges_endpoints (m : AnimatedInteractionMesh) (frameId : Nat)
    (cs : List FacetCirculation) (g : InteractionMeshGraph) :
    (addFiniteEdges m frameId cs g).edges.map endpoints
      = g.edges.map endpoints
        ++ ((visitedTriangles cs).map (triangleSides m frameId)).flatten := by
  induction cs generalizing g with
  | nil => simp [addFiniteEdges, visitedTriangles]
  | cons c cs ih =>
    have hstep : addFiniteEdges m frameId (c :: cs) g
        = addFiniteEdges m frameId cs (addFacets m frameId c g) := rfl
    have hv : visitedTriangles (c :: cs) = (c.first :: c.next) ++ visitedTriangles cs := by
      simp [visitedTriangles]
    rw [hstep, ih, hv]
    unfold addFacets
    rw [foldl_addTriangleEdges_endpoints, List.map_append, List.flatten_append,
      List.append_assoc]

theorem endpointBound_append (es : List InteractionMeshGraphEdge)
    (e : InteractionMeshGraphEdge) :
    endpointBound (es ++ [e]) = max (endpointBound es) (max e.source e.target + 1) := by
  unfold endpointBound
  induction es with
  | nil => simp
  | cons a l ih =>
    simp only [List.cons_append, List.map_cons, List.foldr_cons, ih]
    omega

/-- A graph grown by `boost::add_edge` alone: its vertices carry no label, and
there are as many as the largest endpoint requires. -/
theorem addEdge_grown (g : InteractionMeshGraph) (u v : Nat)
    (h : (∀ x ∈ g.vertices, x.label = "") ∧ g.vertices.length = endpointBound g.edges) :
    (∀ x ∈ (InteractionMeshGraph.addEdge g u v).vertices, x.label = "")
    ∧ (InteractionMeshGraph.addEdge g u v).vertices.length
        = endpointBound (InteractionMeshGraph.addEdge g u v).edges := by
  obtain ⟨hlabel, hlen⟩ := h
  unfold InteractionMeshGraph.addEdge
  simp only [endpointBound_append]
  split_ifs with hge
  · constructor
    · intro x hx
      rcases List.mem_append.mp hx with hx | hx
      · exact hlabel x hx
      · rw [List.eq_of_mem_replicate hx]
    · rw [List.length_append, List.length_replicate, ← hlen]
      omega
  · refine ⟨hlabel, ?_⟩
    rw [← hlen]
    omega

theorem addTriangleEdges_grown (m : AnimatedInteractionMesh) (frameId : Nat) (t : Triangle)
    (g : InteractionMeshGraph)
    (h : (∀ x ∈ g.vertices, x.label = "") ∧ g.vertices.length = endpointBound g.edges) :
    (∀ x ∈ (addTriangleEdges m frameId t g).vertices, x.label = "")
    ∧ (addTriangleEdges m frameId t g).vertices.length
        = endpointBound (addTriangleEdges m frameId t g).edges := by
  simp only [addTriangleEdges, List.range, List.range.loop, List.foldl_cons, List.foldl_nil]
  exact addEdge_grown _ _ _ (addEdge_grown _ _ _ (addEdge_grown _ _ _ h))

theorem foldl_addTriangleEdges_grown (m : AnimatedInteractionMesh) (frameId : Nat)
    (ts : List Triangle) (g : InteractionMeshGraph)
    (h : (∀ x ∈ g.vertices, x.label = "") ∧ g.vertices.length = endpointBound g.edges) :
    (∀ x ∈ (ts.foldl (fun g t => addTriangleEdges m frameId t g) g).vertices, x.label = "")
    ∧ (ts.foldl (fun g t => addTriangleEdges m frameId t g) g).vertices.length
        = endpointBound (ts.foldl (fun g t => addTriangleEdges m frameId t g) g).edges := by
  induction ts generalizing g with
  | nil => exact h
  | cons t ts ih =>
    rw [List.foldl_cons]
    exact ih _ (addTriangleEdges_grown m frameId t g h)

theorem addFiniteEdges_grown (m : AnimatedInteractionMesh) (frameId : Nat)
    (cs : List FacetCirculation) (g : InteractionMeshGraph)
    (h : (∀ x ∈ g.vertices, x.label = "") ∧ g.vertices.length = endpointBound g.edges) :
    (∀ x ∈ (addFiniteEdges m frameId cs g).vertices, x.label = "")
    ∧ (addFiniteEdges m frameId cs g).vertices.length
        = endpointBound (addFiniteEdges m frameId cs g).edges := by
  induction cs generalizing g with
  | nil => exact h
  | cons c cs ih =>
    have hstep : addFiniteEdges m frameId (c :: cs) g
        = addFiniteEdges m frameId cs (addFacets m frameId c g) := rfl
    rw [hstep]
    exact ih _ (foldl_addTriangleEdges_grown m frameId _ g h)

theorem frameGraph_grown (cgal : Triangulation3) (m : AnimatedInteractionMesh) (f : Nat) :
    (∀ x ∈ (frameGraph cgal m f).vertices, x.label = "")
    ∧ (frameGraph cgal m f).vertices.length = endpointBound (frameGraph cgal m f).edges :=
  addFiniteEdges_grown m f _ _ ⟨by simp [InteractionMeshGraph.empty], rfl⟩

/-! ## Lemmas on the graphs of all frames -/

theorem foldl_modify_range {α : Type} (F : Nat → α → α) (n : Nat) (l : List α) (j : Nat) :
    ((List.range n).foldl (fun acc i => List.modify (F i) i acc) l)[j]?
      = if j < n then (l[j]?).map (F j) else l[j]? := by
  induction n with
  | zero => simp
  | succ n ih =>
    rw [List.range_succ, List.foldl_append, List.foldl_cons, List.foldl_nil,
      List.getElem?_modify, ih]
    by_cases hjn : n = j
    · subst hjn
      simp
    · have hne : ¬ (n = j) := hjn
      by_cases hlt : j < n
      · have hlt1 : j < n + 1 := by omega
        simp [hne, hlt, hlt1]
      · have hlt1 : ¬ j < n + 1 := by omega
        simp [hne, hlt, hlt1]

theorem length_foldl_modify {α : Type} (F : Nat → α → α) (fs : List Nat) (l : List α) :
    (fs.foldl (fun acc i => List.modify (F i) i acc) l).length = l.length := by
  induction fs generalizing l with
  | nil => rfl
  | cons f fs ih => rw [List.foldl_cons, ih, List.length_modify]

/-- The frame loop of `computeInteractionMeshes` only rewrites the list of
graphs, each frame with the triangulation of the positions of that frame. -/
theorem foldl_computeInteractionMesh_eq (cgal : Triangulation3) (m : AnimatedInteractionMesh)
    (fs : List Nat) (l : List InteractionMeshGraph) :
    fs.foldl (fun acc i => computeInteractionMesh cgal acc i) { m with interactionMeshes := l }
      = { m with interactionMeshes :=
            fs.foldl (fun acc i => List.modify
              (addFiniteEdges m i
                (cgal.incidentFacets (triangulationPoints cgal.defaultPoint m i))) i acc) l } := by
  induction fs generalizing l with
  | nil => rfl
  | cons f fs ih =>
    rw [List.foldl_cons, List.foldl_cons]
    exact ih _

theorem resizeMeshes_length (l : List InteractionMeshGraph) (n : Nat) :
    (resizeMeshes l n).length = n := by
  simp [resizeMeshes]
  omega

theorem computeInteractionMeshes_length (cgal : Triangulation3)
    (m : AnimatedInteractionMesh) :
    (computeInteractionMeshes cgal m).interactionMeshes.length = m.numFrames := by
  unfold computeInteractionMeshes
  rw [foldl_computeInteractionMesh_eq]
  dsimp only
  rw [length_foldl_modify, resizeMeshes_length]

/-- The graph of every frame after `computeInteractionMeshes`: the graph of that
frame after the resize, with the edges of the triangulation of that frame
added. -/
theorem computeInteractionMeshes_frame (cgal : Triangulation3)
    (m : AnimatedInteractionMesh) (f : Nat) :
    (computeInteractionMeshes cgal m).interactionMeshes[f]?
      = ((resizeMeshes m.interactionMeshes m.numFrames)[f]?).map
          (addFiniteEdges m f
            (cgal.incidentFacets (triangulationPoints cgal.defaultPoint m f))) := by
  unfold computeInteractionMeshes
  rw [foldl_computeInteractionMesh_eq]
  dsimp only
  rw [foldl_modify_range
    (fun i => addFiniteEdges m i
      (cgal.incidentFacets (triangulationPoints cgal.defaultPoint m i)))]
  split_ifs with hlt
  · rfl
  · have hnone : (resizeMeshes m.interactionMeshes m.numFrames)[f]? = none :=
      List.getElem?_eq_none (by rw [resizeMeshes_length]; omega)
    rw [hnone]
    rfl

/-- On a mesh without earlier interaction meshes, the graph of frame `f` after
`computeInteractionMeshes` is the one built from an empty graph. -/
theorem computeInteractionMeshes_fresh (cgal : Triangulation3)
    (m : AnimatedInteractionMesh) (hfresh : m.interactionMeshes = []) (f : Nat)
    (hf : f < m.numFrames) :
    (computeInteractionMeshes cgal m).interactionMeshes[f]? = some (frameGraph cgal m f) := by
  rw [computeInteractionMeshes_frame, hfresh]
  have hget : (resizeMeshes [] m.numFrames)[f]? = some InteractionMeshGraph.empty := by
    simp [resizeMeshes, List.getElem?_replicate, hf]
  rw [hget]
  rfl

theorem triDoc_loads : loadAnimatedMesh triDoc noEdges = .ok triMesh := by
  simp [loadAnimatedMesh, triDoc, noEdges, triMesh, addVertices, pushViews,
    loadFrames, loadFrame, umul, toUnsigned, UINT_SIZE, List.range, List.range.loop,
    setPosition, viewOffset, loadEdgesFromYaml, loadEdgesLoop, computeVertexWeights,
    computeVertexWeightsLoop, computeFrameWeights, rawWeightPass]

theorem triMesh_points :
    triangulationPoints triCgal.defaultPoint triMesh 0 = triPoints := by
  simp [triangulationPoints, triCgal, triMesh, triPoints, vertexPoint, List.replicate]

theorem triMesh_frameGraph : frameGraph triCgal triMesh 0 = triGraph := by
  unfold frameGraph
  rw [triMesh_points]
  simp [triCgal, tetraCirculations, triGraph, addFiniteEdges, addFacets, addTriangleEdges,
    InteractionMeshGraph.addEdge, InteractionMeshGraph.empty, Triangle.get,
    getVertexFromPosition, getVertexFromPositionLoop, positionMatches, triMesh,
    List.range, List.range.loop, List.replicate]

/-! ## Lemmas on the cached counts -/

/-- The counts `recomputeCachedData ()` stores for a graph with at least one
vertex. -/
theorem recomputeCachedData_counts (m : AnimatedInteractionMesh) (v : Vertex)
    (vs : List Vertex) (hg : m.graph.vertices = v :: vs)
    (hne : toUnsigned (vs.length + 1) ≠ 0) :
    (recomputeCachedData m).numVertices = toUnsigned (vs.length + 1)
    ∧ (recomputeCachedData m).numFrames = toUnsigned v.positions.length := by
  unfold recomputeCachedData
  simp only [hg, List.length_cons, List.getElem?_cons_zero]
  rw [if_neg hne]
  exact ⟨rfl, rfl⟩

/-! ## Lemmas on the graph of a tetrahedron -/

theorem recomputeCachedData_state (m : AnimatedInteractionMesh) :
    (recomputeCachedData m).state = m.state
    ∧ (recomputeCachedData m).graph.vertices = m.graph.vertices := by
  unfold recomputeCachedData
  simp only []
  split_ifs
  · exact ⟨rfl, rfl⟩
  · exact ⟨rfl, rfl⟩

/-- The snapshot stops on its assertion when the view of the first vertex in
the first frame does not fit the new vector. -/
theorem makeFromOptimizationVariables_first_view_error (m : AnimatedInteractionMesh)
    (x : List ℚ) (v : Vertex) (vs : List Vertex) (hg : m.graph.vertices = v :: vs)
    (hF : 0 < m.numFrames) (hbad : x.length < 3) :
    makeFromOptimizationVariables x m
      = .error "assertion failed: offset <= animatedMesh->state ().size () - 3" := by
  obtain ⟨n, hnum⟩ : ∃ n, m.numFrames = n + 1 := ⟨m.numFrames - 1, by omega⟩
  have hz : uadd (umul (umul 0 m.numVertices) 3) (umul 0 3) = 0 := by
    simp [uadd, umul]
  have hint : ¬ ((uadd (umul (umul 0 m.numVertices) 3) (umul 0 3) : Nat) : Int)
      ≤ (x.length : Int) - 3 := by
    rw [hz]
    omega
  unfold makeFromOptimizationVariables
  rw [hg, hnum]
  simp only [rebindVertices]
  rw [List.range_succ_eq_map]
  simp only [rebindViews]
  rw [if_neg hint]

theorem manyFramesMesh_counts :
    manyFramesMesh.numVertices = 1 ∧ manyFramesMesh.numFrames = 1431655766
    ∧ manyFramesMesh.graph.vertices = [Vertex.mk "marker" (List.replicate 1431655766 0)] := by
  obtain ⟨hv, hf⟩ := recomputeCachedData_counts manyViewsMesh
    (Vertex.mk "marker" (List.replicate 1431655766 0)) [] rfl (by decide)
  rw [List.length_replicate] at hf
  exact ⟨hv, hf, (recomputeCachedData_state manyViewsMesh).2⟩

theorem manyVerticesMesh_counts :
    manyVerticesMesh.numVertices = 1431655766 ∧ manyVerticesMesh.numFrames = 1
    ∧ manyVerticesMesh.state = [5, 7, 9]
    ∧ manyVerticesMesh.graph.vertices
        = Vertex.mk "marker" [0] :: List.replicate 1431655765 (Vertex.mk "marker" [0]) := by
  have hg : manyVerticesGraph.graph.vertices
      = Vertex.mk "marker" [0] :: List.replicate 1431655765 (Vertex.mk "marker" [0]) :=
    List.replicate_succ (Vertex.mk "marker" [0]) 1431655765
  have hlen : (List.replicate 1431655765 (Vertex.mk "marker" [0])).length + 1 = 1431655766 := by
    rw [List.length_replicate]
  obtain ⟨hv, hf⟩ := recomputeCachedData_counts manyVerticesGraph
    (Vertex.mk "marker" [0]) (List.replicate 1431655765 (Vertex.mk "marker" [0])) hg
    (by rw [hlen]; decide)
  rw [hlen] at hv
  have hone : toUnsigned (Vertex.mk "marker" [0]).positions.length = 1 := by decide
  have hmany : toUnsigned 1431655766 = 1431655766 := by decide
  obtain ⟨hs, hvs⟩ := recomputeCachedData_state manyVerticesGraph
  unfold manyVerticesMesh
  refine ⟨hv.trans hmany, hf.trans hone, hs, ?_⟩
  rw [hvs]
  exact hg

theorem rebindVertices_labels (nv nf S : Nat) (vs : List Vertex) :
    ∀ (vid : Nat) (vs1 : List Vertex), rebindVertices nv nf S vs vid = .ok vs1 →
      vs1.map (fun v => v.label) = vs.map (fun v => v.label) := by
  induction vs with
  | nil =>
    intro vid vs1 h
    simp only [rebindVertices] at h
    injection h with h
    rw [← h]
  | cons v vs ih =>
    intro vid vs1 h
    simp only [rebindVertices] at h
    cases hviews : rebindViews nv S vid (List.range nf) v.positions with
    | error e => rw [hviews] at h; cases h
    | ok views =>
      rw [hviews] at h
      cases hrest : rebindVertices nv nf S vs (uadd vid 1) with
      | error e => rw [hrest] at h; cases h
      | ok rest =>
        rw [hrest] at h
        injection h with h
        rw [← h, List.map_cons, List.map_cons, ih _ _ hrest]

/-- Whenever the snapshot returns a mesh, that mesh has the metadata, the
vertex labels and the skeleton edges of the source. -/
theorem makeFromOptimizationVariables_preserves (m r : AnimatedInteractionMesh) (x : List ℚ)
    (h : makeFromOptimizationVariables x m = .ok r) :
    r.framerate = m.framerate ∧ r.numFrames = m.numFrames ∧ r.numVertices = m.numVertices
    ∧ r.graph.vertices.map (fun v => v.label) = m.graph.vertices.map (fun v => v.label)
    ∧ r.graph.edges.map GraphEdge.skeleton = m.graph.edges.map GraphEdge.skeleton := by
  unfold makeFromOptimizationVariables at h
  cases hvs : rebindVertices m.numVertices m.numFrames x.length m.graph.vertices 0 with
  | error e => rw [hvs] at h; cases h
  | ok vs =>
    rw [hvs] at h
    injection h with h
    rw [← h]
    exact ⟨rfl, rfl, rfl, rebindVertices_labels _ _ _ _ _ _ hvs,
      computeVertexWeights_skeleton _⟩

theorem makeOptimizationVector_state (m : AnimatedInteractionMesh) :
    m.makeOptimizationVector = m.state :=
  rfl

theorem makeOptimizationVectorOneFrame_state (m : AnimatedInteractionMesh) (frameId : Nat) :
    m.makeOptimizationVectorOneFrame frameId
      = (m.state.drop (frameId * umul 3 m.numVertices)).take (umul 3 m.numVertices) :=
  rfl

/-! ## Evaluation of the weights on the chain of three markers -/

theorem chainDoc_loads : loadAnimatedMesh chainDoc chainCharacter = .ok chainMesh := by
  simp [loadAnimatedMesh, chainDoc, chainCharacter, chainMesh, addVertices, pushViews,
    loadFrames, loadFrame, umul, toUnsigned, UINT_SIZE, List.range, List.range.loop,
    setPosition, viewOffset, loadEdgesFromYaml, loadEdgesLoop, loadEdge, getVertexFromLabel,
    getVertexFromLabelLoop, vertexEnd, addEdge, computeVertexWeights,
    computeVertexWeightsLoop, computeFrameWeights, rawWeightPass, setRawWeight,
    normalizeWeight, resize, squaredDistance, position]
  norm_num [rawWeightPass, setRawWeight, normalizeWeight, resize, squaredDistance, position,
    viewOffset]

theorem chainMesh_weights :
    chainMesh.computeVertexWeights.graph.edges.map (fun e => e.prop.weight[0]?)
      = [some (4 / 5), some (1 / 5)]
    ∧ chainMesh.computeVertexWeights.graph.edges.map (fun e => e.prop.weight[1]?)
      = [some (1 / 5), some (4 / 5)] := by
  constructor
  · rw [computeVertexWeights_slot chainMesh 0 (by decide)]
    norm_num [chainMesh, rawWeight, rawWeightSum, squaredDistance, position, viewOffset]
  · rw [computeVertexWeights_slot chainMesh 1 (by decide)]
    norm_num [chainMesh, rawWeight, rawWeightSum, squaredDistance, position, viewOffset]

theorem chainMoved_weights :
    chainMoved.computeVertexWeights.graph.edges.map (fun e => e.prop.weight[1]?)
      = [some (1 / 2), some (1 / 2)] := by
  rw [computeVertexWeights_slot chainMoved 1 (by decide)]
  norm_num [chainMoved, chainMesh, rawWeight, rawWeightSum, squaredDistance, position,
    viewOffset]

/-! ## Lemmas on the weights in a given arithmetic -/

theorem resizeIn_length {D : Type} (A : Arithmetic D) (w : List D) (n : Nat) :
    (resizeIn A w n).length = n := by
  simp [resizeIn]
  omega

theorem sizedIn_length {D : Type} (A : Arithmetic D) (n : Nat) (w : List D) :
    (sizedIn A n w).length = n := by
  unfold sizedIn
  split_ifs with h
  · exact resizeIn_length A w n
  · exact not_not.mp h

theorem sizedIn_of_length {D : Type} (A : Arithmetic D) {n : Nat} {w : List D}
    (h : w.length = n) : sizedIn A n w = w := by
  simp [sizedIn, h]

/-- The weight sequence the raw pass stores in an edge, for a frame of the
mesh, in the arithmetic `A`. -/
theorem setRawWeightIn_weight {D : Type} (A : Arithmetic D) (m : AnimatedInteractionMesh)
    (f : Nat) (hf : f < m.numFrames) (e : WeightedEdge D) :
    (setRawWeightIn A m f e).weight
      = (sizedIn A m.numFrames e.weight).set f (rawWeightIn A m f e.source e.target) := by
  have hlen : f < (sizedIn A m.numFrames e.weight).length := by
    rw [sizedIn_length]; exact hf
  have hget : ((sizedIn A m.numFrames e.weight).set f
      (squaredNormIn A m e.source e.target f)).getD f (A.ofRat 0)
      = squaredNormIn A m e.source e.target f := by
    rw [List.getD_eq_getElem?_getD, List.getElem?_set_self hlen]
    rfl
  show (if A.isZero (((sizedIn A m.numFrames e.weight).set f
        (squaredNormIn A m e.source e.target f)).getD f (A.ofRat 0)) = true
      then ((sizedIn A m.numFrames e.weight).set f
        (squaredNormIn A m e.source e.target f)).set f (A.ofRat 1)
      else ((sizedIn A m.numFrames e.weight).set f
        (squaredNormIn A m e.source e.target f)).set f
          (A.div (A.ofRat 1) (((sizedIn A m.numFrames e.weight).set f
            (squaredNormIn A m e.source e.target f)).getD f (A.ofRat 0)))) = _
  rw [hget]
  unfold rawWeightIn
  split_ifs <;> rw [List.set_set]

theorem setRawWeightIn_getD {D : Type} (A : Arithmetic D) (m : AnimatedInteractionMesh)
    (f : Nat) (hf : f < m.numFrames) (e : WeightedEdge D) :
    (setRawWeightIn A m f e).weight.getD f (A.ofRat 0)
      = rawWeightIn A m f e.source e.target := by
  rw [setRawWeightIn_weight A m f hf, List.getD_eq_getElem?_getD,
    List.getElem?_set_self (by rw [sizedIn_length]; exact hf)]
  rfl

theorem rawWeightPassIn_eq {D : Type} (A : Arithmetic D) (m : AnimatedInteractionMesh)
    (f : Nat) (hf : f < m.numFrames) (es : List (WeightedEdge D)) (acc : D) :
    rawWeightPassIn A m f es acc
      = (es.map (setRawWeightIn A m f),
          (rawWeightsIn A m f (es.map (fun e => (e.source, e.target)))).foldl A.add acc) := by
  induction es generalizing acc with
  | nil => simp [rawWeightPassIn, rawWeightsIn]
  | cons e es ih =>
    simp only [rawWeightPassIn, ih, setRawWeightIn_getD A m f hf, List.map_cons,
      rawWeightsIn, List.foldl_cons]

/-- One frame of `computeVertexWeights` in the arithmetic `A`: what it stores in
the slot of the frame, and what it leaves in the others. -/
theorem computeFrameWeightsIn_eq {D : Type} (A : Arithmetic D) (m : AnimatedInteractionMesh)
    (f : Nat) (hf : f < m.numFrames) (es : List (WeightedEdge D)) (total : D)
    (htotal : (rawWeightsIn A m f (es.map (fun e => (e.source, e.target)))).foldl
      A.add (A.ofRat 0) = total) :
    computeFrameWeightsIn A m f es
      = es.map (fun e => { e with
          weight := (sizedIn A m.numFrames e.weight).set f
            (if A.isPositive total then A.div (rawWeightIn A m f e.source e.target) total
             else rawWeightIn A m f e.source e.target) }) := by
  unfold computeFrameWeightsIn
  simp only [rawWeightPassIn_eq A m f hf, htotal]
  split_ifs with hpos
  · rw [List.map_map]
    apply List.map_congr_left
    intro e _
    have hw := setRawWeightIn_weight A m f hf e
    have hg := setRawWeightIn_getD A m f hf e
    show ({ setRawWeightIn A m f e with
        weight := (setRawWeightIn A m f e).weight.set f
          (A.div ((setRawWeightIn A m f e).weight.getD f (A.ofRat 0)) total) }
        : WeightedEdge D) = _
    rw [hg, hw, List.set_set]
    rfl
  · apply List.map_congr_left
    intro e _
    have hw := setRawWeightIn_weight A m f hf e
    show setRawWeightIn A m f e = _
    cases hse : setRawWeightIn A m f e with
    | mk s t w =>
      have h1 : (setRawWeightIn A m f e).source = e.source := rfl
      have h2 : (setRawWeightIn A m f e).target = e.target := rfl
      rw [hse] at hw h1 h2
      simp only at hw h1 h2
      rw [hw, h1, h2]

theorem computeVertexWeightsLoopIn_append {D : Type} (A : Arithmetic D)
    (m : AnimatedInteractionMesh) (fs : List Nat) (f : Nat) (es : List (WeightedEdge D)) :
    computeVertexWeightsLoopIn A m (fs ++ [f]) es
      = computeFrameWeightsIn A m f (computeVertexWeightsLoopIn A m fs es) := by
  induction fs generalizing es with
  | nil => rfl
  | cons g fs ih => exact ih (computeFrameWeightsIn A m g es)

/-- After the first `n` frames, in the arithmetic `A`, the edges keep their
endpoints, their weight sequences have `numFrames` elements (once a frame has
been done), and slot `f < n` holds the normalized weight of that frame. -/
theorem computeVertexWeightsLoopIn_range {D : Type} (A : Arithmetic D)
    (m : AnimatedInteractionMesh) (es : List (WeightedEdge D)) (n : Nat)
    (hn : n ≤ m.numFrames) :
    (computeVertexWeightsLoopIn A m (List.range n) es).map (fun e => (e.source, e.target))
        = es.map (fun e => (e.source, e.target))
      ∧ (0 < n → ∀ e ∈ computeVertexWeightsLoopIn A m (List.range n) es,
          e.weight.length = m.numFrames)
      ∧ ∀ f, f < n →
          (computeVertexWeightsLoopIn A m (List.range n) es).map (fun e => e.weight[f]?)
            = es.map (fun e => some
                (if A.isPositive ((rawWeightsIn A m f
                      (es.map (fun e => (e.source, e.target)))).foldl A.add (A.ofRat 0))
                 then A.div (rawWeightIn A m f e.source e.target)
                   ((rawWeightsIn A m f
                      (es.map (fun e => (e.source, e.target)))).foldl A.add (A.ofRat 0))
                 else rawWeightIn A m f e.source e.target)) := by
  induction n with
  | zero =>
    refine ⟨rfl, fun h => absurd h (lt_irrefl 0), ?_⟩
    intro f hf
    exact absurd hf (Nat.not_lt_zero f)
  | succ n ih =>
    obtain ⟨hends, hlen, hslots⟩ := ih (by omega)
    have hnf : n < m.numFrames := by omega
    rw [List.range_succ, computeVertexWeightsLoopIn_append,
      computeFrameWeightsIn_eq A m n hnf _ _ (by rw [hends])]
    refine ⟨?_, ?_, ?_⟩
    · rw [List.map_map]
      exact hends
    · intro _ e he
      obtain ⟨e0, -, rfl⟩ := List.mem_map.mp he
      show ((sizedIn A m.numFrames e0.weight).set n _).length = m.numFrames
      rw [List.length_set, sizedIn_length]
    · intro f hf
      rw [List.map_map]
      rcases Nat.lt_or_eq_of_le (Nat.lt_succ_iff.mp hf) with hlt | heq
      · have hpos : 0 < n := by omega
        rw [← hslots f hlt]
        apply List.map_congr_left
        intro e he
        show ((sizedIn A m.numFrames e.weight).set n _)[f]? = e.weight[f]?
        rw [List.getElem?_set_ne (by omega), sizedIn_of_length A (hlen hpos e he)]
      · subst heq
        have hmap : (computeVertexWeightsLoopIn A m (List.range f) es).map
            ((fun e : WeightedEdge D => e.weight[f]?) ∘ fun e => { e with
              weight := (sizedIn A m.numFrames e.weight).set f
                (if A.isPositive ((rawWeightsIn A m f
                      (es.map (fun e => (e.source, e.target)))).foldl A.add (A.ofRat 0))
                 then A.div (rawWeightIn A m f e.source e.target)
                   ((rawWeightsIn A m f
                      (es.map (fun e => (e.source, e.target)))).foldl A.add (A.ofRat 0))
                 else rawWeightIn A m f e.source e.target) })
            = ((computeVertexWeightsLoopIn A m (List.range f) es).map
                (fun e => (e.source, e.target))).map (fun p => some
                (if A.isPositive ((rawWeightsIn A m f
                      (es.map (fun e => (e.source, e.target)))).foldl A.add (A.ofRat 0))
                 then A.div (rawWeightIn A m f p.1 p.2)
                   ((rawWeightsIn A m f
                      (es.map (fun e => (e.source, e.target)))).foldl A.add (A.ofRat 0))
                 else rawWeightIn A m f p.1 p.2)) := by
          rw [List.map_map]
          apply List.map_congr_left
          intro e _
          show ((sizedIn A m.numFrames e.weight).set f _)[f]? = _
          rw [List.getElem?_set_self (by rw [sizedIn_length]; exact hnf)]
          rfl
        rw [hmap, hends, List.map_map]
        rfl

theorem weightedEdges_ends {D : Type} (A : Arithmetic D) (m : AnimatedInteractionMesh) :
    (weightedEdges A m).map (fun e => (e.source, e.target))
      = m.graph.edges.map (fun e => (e.source, e.target)) := by
  unfold weightedEdges
  rw [List.map_map]
  rfl

/-- The endpoints of the edges after `computeVertexWeights` in the arithmetic
`A`. -/
theorem computeVertexWeightsIn_ends {D : Type} (A : Arithmetic D)
    (m : AnimatedInteractionMesh) :
    (computeVertexWeightsIn A m).map (fun e => (e.source, e.target))
      = m.graph.edges.map (fun e => (e.source, e.target)) := by
  unfold computeVertexWeightsIn
  rw [(computeVertexWeightsLoopIn_range A m _ m.numFrames le_rfl).1, weightedEdges_ends]

/-- The slot of a frame after `computeVertexWeights` in the arithmetic `A`, edge
by edge. -/
theorem computeVertexWeightsIn_slot {D : Type} (A : Arithmetic D)
    (m : AnimatedInteractionMesh) (f : Nat) (hf : f < m.numFrames) :
    (computeVertexWeightsIn A m).map (fun e => e.weight[f]?)
      = m.graph.edges.map (fun e => some (normalizedWeightIn A m f e.source e.target)) := by
  unfold computeVertexWeightsIn
  rw [(computeVertexWeightsLoopIn_range A m _ m.numFrames le_rfl).2.2 f hf, weightedEdges_ends]
  unfold weightedEdges
  rw [List.map_map]
  rfl

/-! ## The exact arithmetic gives the weights of `computeVertexWeights` -/

theorem squaredNormIn_exact (m : AnimatedInteractionMesh) (s t f : Nat) :
    squaredNormIn exactArithmetic m s t f = m.squaredDistance s t f := by
  unfold squaredNormIn squaredDistance exactArithmetic
  simp only
  ring

theorem setRawWeightIn_exact (m : AnimatedInteractionMesh) (f : Nat) (e : GraphEdge) :
    setRawWeightIn exactArithmetic m f (GraphEdge.weighted e)
      = GraphEdge.weighted (setRawWeight m f e) := by
  unfold setRawWeightIn setRawWeight GraphEdge.weighted
  simp only [squaredNormIn_exact]
  simp [exactArithmetic, resizeIn, resize]

theorem rawWeightPassIn_exact (m : AnimatedInteractionMesh) (f : Nat) (es : List GraphEdge)
    (acc : ℚ) :
    rawWeightPassIn exactArithmetic m f (es.map GraphEdge.weighted) acc
      = ((rawWeightPass m f es acc).1.map GraphEdge.weighted, (rawWeightPass m f es acc).2) := by
  induction es generalizing acc with
  | nil => rfl
  | cons e es ih =>
    simp only [List.map_cons, rawWeightPassIn, rawWeightPass, setRawWeightIn_exact]
    rw [show exactArithmetic.add acc
        ((GraphEdge.weighted (setRawWeight m f e)).weight.getD f (exactArithmetic.ofRat 0))
        = acc + (setRawWeight m f e).prop.weight.getD f 0 from rfl, ih]

theorem computeFrameWeightsIn_exact (m : AnimatedInteractionMesh) (f : Nat)
    (es : List GraphEdge) :
    computeFrameWeightsIn exactArithmetic m f (es.map GraphEdge.weighted)
      = (computeFrameWeights m f es).map GraphEdge.weighted := by
  unfold computeFrameWeightsIn computeFrameWeights
  simp only [rawWeightPassIn_exact]
  have hpos : (exactArithmetic.isPositive (rawWeightPass m f es 0).2 = true)
      ↔ (rawWeightPass m f es 0).2 > 0 := by
    simp [exactArithmetic]
  have hzero : exactArithmetic.ofRat 0 = 0 := rfl
  rw [hzero]
  by_cases h : (rawWeightPass m f es 0).2 > 0
  · rw [if_pos (hpos.mpr h), if_pos h, List.map_map, List.map_map]
    rfl
  · rw [if_neg (fun h1 => h (hpos.mp h1)), if_neg h]

theorem computeVertexWeightsLoopIn_exact (m : AnimatedInteractionMesh) (fs : List Nat)
    (es : List GraphEdge) :
    computeVertexWeightsLoopIn exactArithmetic m fs (es.map GraphEdge.weighted)
      = (computeVertexWeightsLoop m fs es).map GraphEdge.weighted := by
  induction fs generalizing es with
  | nil => rfl
  | cons f fs ih =>
    rw [computeVertexWeightsLoopIn, computeFrameWeightsIn_exact, ih]
    rfl

/-- In the exact arithmetic, `computeVertexWeights` in a given arithmetic is
`computeVertexWeights`. -/
theorem computeVertexWeightsIn_exact (m : AnimatedInteractionMesh) :
    computeVertexWeightsIn exactArithmetic m
      = m.computeVertexWeights.graph.edges.map GraphEdge.weighted := by
  have hw : weightedEdges exactArithmetic m = m.graph.edges.map GraphEdge.weighted := by
    unfold weightedEdges
    apply List.map_congr_left
    intro e _
    show (⟨e.source, e.target, e.prop.weight.map (fun x => x)⟩ : WeightedEdge ℚ) = _
    rw [List.map_id']
    rfl
  unfold computeVertexWeightsIn
  rw [hw, computeVertexWeightsLoopIn_exact]
  rfl

/-! ## Lemmas on rounding to `double` -/

theorem log_two_eq (x : ℚ) (e : ℤ) (hlo : (2 : ℚ) ^ e ≤ x) (hhi : x < (2 : ℚ) ^ (e + 1)) :
    Int.log 2 x = e := by
  have hpos : 0 < x := lt_of_lt_of_le (by positivity) hlo
  have hge : e ≤ Int.log 2 x :=
    (Int.zpow_le_iff_le_log (by norm_num) hpos).mp (by exact_mod_cast hlo)
  have hlt : Int.log 2 x < e + 1 :=
    (Int.lt_zpow_iff_log_lt (by norm_num) hpos).mp (by exact_mod_cast hhi)
  omega

/-- A rational within less than one half of an integer rounds to it. -/
theorem roundHalfEven_eq (q : ℚ) (n : ℤ) (h : |q - n| < 1 / 2) : roundHalfEven q = n := by
  have habs := abs_lt.mp h
  unfold roundHalfEven
  have hfl : ⌊q⌋ = n ∨ ⌊q⌋ = n - 1 := by
    have hge : n - 1 ≤ ⌊q⌋ := by
      apply Int.le_floor.mpr
      push_cast
      linarith [habs.1]
    have hlt : ⌊q⌋ < n + 1 := by
      apply Int.floor_lt.mpr
      push_cast
      linarith [habs.2]
    omega
  rcases hfl with hfl | hfl
  · rw [hfl, if_pos (by linarith [habs.2])]
  · rw [hfl]
    push_cast
    rw [if_neg (by linarith [habs.1]), if_pos (by linarith [habs.1])]
    ring

/-- A rational half way between two integers rounds to the even one. -/
theorem roundHalfEven_tie (q : ℚ) (n : ℤ) (h : q = n + 1 / 2 ∨ q = n - 1 / 2)
    (hn : n % 2 = 0) : roundHalfEven q = n := by
  unfold roundHalfEven
  rcases h with h | h
  · have hfl : ⌊q⌋ = n := by
      rw [Int.floor_eq_iff]
      constructor <;> rw [h] <;> linarith
    rw [hfl, h, if_neg (by norm_num), if_neg (by norm_num), if_pos hn]
  · have hfl : ⌊q⌋ = n - 1 := by
      rw [Int.floor_eq_iff]
      push_cast
      constructor <;> rw [h] <;> linarith
    rw [hfl, h]
    push_cast
    rw [if_neg (by norm_num), if_neg (by norm_num), if_neg (by omega)]
    ring

/-- The value of `roundDouble` from the binary exponent of the number and the
integer its significand rounds to. -/
theorem roundDouble_of (x : ℚ) (e n : ℤ) (hlo : (2 : ℚ) ^ e ≤ |x|)
    (hhi : |x| < (2 : ℚ) ^ (e + 1))
    (hn : roundHalfEven (x / 2 ^ (max e (-1022) - 52)) = n) :
    roundDouble x
      = if (2 : ℚ) ^ (1024 : ℕ) ≤ |(n : ℚ) * 2 ^ (max e (-1022) - 52)|
        then .infinite (decide (x < 0))
        else .finite (n * 2 ^ (max e (-1022) - 52)) := by
  have hx : x ≠ 0 := by
    intro h0
    rw [h0, abs_zero] at hlo
    exact absurd hlo (not_le.mpr (by positivity))
  unfold roundDouble
  rw [if_neg hx]
  simp only [log_two_eq |x| e hlo hhi, hn]

theorem roundDouble_zero : roundDouble 0 = .finite 0 := by
  simp [roundDouble]


theorem roundDouble_one : roundDouble 1 = .finite 1 := by
  rw [roundDouble_of _ 0 4503599627370496 (by norm_num [le_abs]) (by norm_num [abs_lt])
    (roundHalfEven_eq _ _ (by norm_num [abs_lt]))]
  norm_num [le_abs]

theorem roundDouble_two : roundDouble 2 = .finite 2 := by
  rw [roundDouble_of _ 1 4503599627370496 (by norm_num [le_abs]) (by norm_num [abs_lt])
    (roundHalfEven_eq _ _ (by norm_num [abs_lt]))]
  norm_num [le_abs]

theorem roundDouble_three : roundDouble 3 = .finite 3 := by
  rw [roundDouble_of _ 1 6755399441055744 (by norm_num [le_abs]) (by norm_num [abs_lt])
    (roundHalfEven_eq _ _ (by norm_num [abs_lt]))]
  norm_num [le_abs]

theorem roundDouble_four : roundDouble 4 = .finite 4 := by
  rw [roundDouble_of _ 2 4503599627370496 (by norm_num [le_abs]) (by norm_num [abs_lt])
    (roundHalfEven_eq _ _ (by norm_num [abs_lt]))]
  norm_num [le_abs]

theorem roundDouble_nine : roundDouble 9 = .finite 9 := by
  rw [roundDouble_of _ 3 5066549580791808 (by norm_num [le_abs]) (by norm_num [abs_lt])
    (roundHalfEven_eq _ _ (by norm_num [abs_lt]))]
  norm_num [le_abs]

theorem roundDouble_ten : roundDouble 10 = .finite 10 := by
  rw [roundDouble_of _ 3 5629499534213120 (by norm_num [le_abs]) (by norm_num [abs_lt])
    (roundHalfEven_eq _ _ (by norm_num [abs_lt]))]
  norm_num [le_abs]

theorem roundDouble_thirty_six : roundDouble 36 = .finite 36 := by
  rw [roundDouble_of _ 5 5066549580791808 (by norm_num [le_abs]) (by norm_num [abs_lt])
    (roundHalfEven_eq _ _ (by norm_num [abs_lt]))]
  norm_num [le_abs]

theorem roundDouble_neg_one : roundDouble (-1) = .finite (-1) := by
  rw [roundDouble_of _ 0 (-4503599627370496) (by norm_num [le_abs]) (by norm_num [abs_lt])
    (roundHalfEven_eq _ _ (by norm_num [abs_lt]))]
  norm_num [le_abs]

theorem roundDouble_neg_two : roundDouble (-2) = .finite (-2) := by
  rw [roundDouble_of _ 1 (-4503599627370496) (by norm_num [le_abs]) (by norm_num [abs_lt])
    (roundHalfEven_eq _ _ (by norm_num [abs_lt]))]
  norm_num [le_abs]

theorem roundDouble_neg_three : roundDouble (-3) = .finite (-3) := by
  rw [roundDouble_of _ 1 (-6755399441055744) (by norm_num [le_abs]) (by norm_num [abs_lt])
    (roundHalfEven_eq _ _ (by norm_num [abs_lt]))]
  norm_num [le_abs]

theorem roundDouble_neg_six : roundDouble (-6) = .finite (-6) := by
  rw [roundDouble_of _ 2 (-6755399441055744) (by norm_num [le_abs]) (by norm_num [abs_lt])
    (roundHalfEven_eq _ _ (by norm_num [abs_lt]))]
  norm_num [le_abs]

theorem roundDouble_quarter : roundDouble (1 / 4) = .finite (1 / 4) := by
  rw [roundDouble_of _ (-2) 4503599627370496 (by norm_num [le_abs]) (by norm_num [abs_lt])
    (roundHalfEven_eq _ _ (by norm_num [abs_lt]))]
  norm_num [le_abs]

theorem roundDouble_half : roundDouble (1 / 2) = .finite (1 / 2) := by
  rw [roundDouble_of _ (-1) 4503599627370496 (by norm_num [le_abs]) (by norm_num [abs_lt])
    (roundHalfEven_eq _ _ (by norm_num [abs_lt]))]
  norm_num [le_abs]

theorem roundDouble_chain_sum : roundDouble (1 + 1 / 4) = .finite (5 / 4) := by
  rw [roundDouble_of _ 0 5629499534213120 (by norm_num [le_abs]) (by norm_num [abs_lt])
    (roundHalfEven_eq _ _ (by norm_num [abs_lt]))]
  norm_num [le_abs]

theorem roundDouble_chain_first :
    roundDouble (1 / (5 / 4))
      = .finite (3602879701896397 / 4503599627370496) := by
  rw [roundDouble_of _ (-1) 7205759403792794 (by norm_num [le_abs]) (by norm_num [abs_lt])
    (roundHalfEven_eq _ _ (by norm_num [abs_lt]))]
  norm_num [le_abs]

theorem roundDouble_chain_second :
    roundDouble (1 / 4 / (5 / 4))
      = .finite (3602879701896397 / 18014398509481984) := by
  rw [roundDouble_of _ (-3) 7205759403792794 (by norm_num [le_abs]) (by norm_num [abs_lt])
    (roundHalfEven_eq _ _ (by norm_num [abs_lt]))]
  norm_num [le_abs]

theorem roundDouble_ninth :
    roundDouble (1 / 9)
      = .finite (2001599834386887 / 18014398509481984) := by
  rw [roundDouble_of _ (-4) 8006399337547548 (by norm_num [le_abs]) (by norm_num [abs_lt])
    (roundHalfEven_eq _ _ (by norm_num [abs_lt]))]
  norm_num [le_abs]

theorem roundDouble_thirty_sixth :
    roundDouble (1 / 36)
      = .finite (2001599834386887 / 72057594037927936) := by
  rw [roundDouble_of _ (-6) 8006399337547548 (by norm_num [le_abs]) (by norm_num [abs_lt])
    (roundHalfEven_eq _ _ (by norm_num [abs_lt]))]
  norm_num [le_abs]

theorem roundDouble_ninth_stored :
    roundDouble (2001599834386887 / 18014398509481984)
      = .finite (2001599834386887 / 18014398509481984) := by
  rw [roundDouble_of _ (-4) 8006399337547548 (by norm_num [le_abs]) (by norm_num [abs_lt])
    (roundHalfEven_eq _ _ (by norm_num [abs_lt]))]
  norm_num [le_abs]

theorem roundDouble_similar_sum :
    roundDouble (2001599834386887 / 18014398509481984 + 2001599834386887 / 72057594037927936)
      = .finite (2501999792983609 / 18014398509481984) := by
  rw [roundDouble_of _ (-3) 5003999585967218 (by norm_num [le_abs]) (by norm_num [abs_lt])
    (roundHalfEven_tie _ _ (by norm_num) (by decide))]
  norm_num [le_abs]

theorem roundDouble_similar_first :
    roundDouble (2001599834386887 / 18014398509481984 / (2501999792983609 / 18014398509481984))
      = .finite (7205759403792793 / 9007199254740992) := by
  rw [roundDouble_of _ (-1) 7205759403792793 (by norm_num [le_abs]) (by norm_num [abs_lt])
    (roundHalfEven_eq _ _ (by norm_num [abs_lt]))]
  norm_num [le_abs]

theorem roundDouble_similar_second :
    roundDouble (2001599834386887 / 72057594037927936 / (2501999792983609 / 18014398509481984))
      = .finite (7205759403792793 / 36028797018963968) := by
  rw [roundDouble_of _ (-3) 7205759403792793 (by norm_num [le_abs]) (by norm_num [abs_lt])
    (roundHalfEven_eq _ _ (by norm_num [abs_lt]))]
  norm_num [le_abs]

theorem roundDouble_tiny : roundDouble tiny = .finite tiny := by
  unfold tiny
  rw [roundDouble_of _ (-600) (2 ^ 52) (by norm_num [le_abs]) (by norm_num [abs_lt])
    (roundHalfEven_eq _ _ (by norm_num [abs_lt]))]
  norm_num [le_abs]

theorem roundDouble_neg_tiny : roundDouble (-tiny) = .finite (-tiny) := by
  unfold tiny
  rw [roundDouble_of _ (-600) (-2 ^ 52) (by norm_num [le_abs]) (by norm_num [abs_lt])
    (roundHalfEven_eq _ _ (by norm_num [abs_lt]))]
  norm_num [le_abs]

/-- The square of `tiny` underflows: it rounds to zero. -/
theorem roundDouble_tiny_sq : roundDouble (tiny * tiny) = .finite 0 := by
  unfold tiny
  rw [roundDouble_of _ (-1200) 0 (by norm_num [le_abs]) (by norm_num [abs_lt])
    (roundHalfEven_eq _ _ (by norm_num [abs_lt]))]
  norm_num [le_abs]

theorem roundDouble_huge : roundDouble huge = .finite huge := by
  unfold huge
  rw [roundDouble_of _ 600 (2 ^ 52) (by norm_num [le_abs]) (by norm_num [abs_lt])
    (roundHalfEven_eq _ _ (by norm_num [abs_lt]))]
  norm_num [le_abs]

theorem roundDouble_neg_huge : roundDouble (-huge) = .finite (-huge) := by
  unfold huge
  rw [roundDouble_of _ 600 (-2 ^ 52) (by norm_num [le_abs]) (by norm_num [abs_lt])
    (roundHalfEven_eq _ _ (by norm_num [abs_lt]))]
  norm_num [le_abs]

/-- The square of `huge` overflows: it rounds to an infinity. -/
theorem roundDouble_huge_sq : roundDouble (huge * huge) = .infinite false := by
  unfold huge
  rw [roundDouble_of _ 1200 (2 ^ 52) (by norm_num [le_abs]) (by norm_num [abs_lt])
    (roundHalfEven_eq _ _ (by norm_num [abs_lt]))]
  norm_num [le_abs]

/-! ## Evaluation of the weights in the arithmetic of `double` -/

theorem Double.sub_finite (a b : ℚ) :
    Double.sub (.finite a) (.finite b) = roundDouble (a - b) := rfl

theorem Double.mul_finite (a b : ℚ) :
    Double.mul (.finite a) (.finite b) = roundDouble (a * b) := rfl

theorem Double.add_finite (a b : ℚ) :
    Double.add (.finite a) (.finite b) = roundDouble (a + b) := rfl

theorem Double.div_finite (a b : ℚ) (hb : b ≠ 0) :
    Double.div (.finite a) (.finite b) = roundDouble (a / b) := by
  show (if b = 0 then _ else roundDouble (a / b)) = _
  rw [if_neg hb]

/-- The squared norm in the arithmetic of `double`, operation by operation. -/
theorem squaredNormIn_ieee (m : AnimatedInteractionMesh) (s t f : Nat) :
    squaredNormIn ieeeArithmetic m s t f
      = Double.add (Double.add
          (Double.mul
            (Double.sub (roundDouble (m.position s f 0)) (roundDouble (m.position t f 0)))
            (Double.sub (roundDouble (m.position s f 0)) (roundDouble (m.position t f 0))))
          (Double.mul
            (Double.sub (roundDouble (m.position s f 1)) (roundDouble (m.position t f 1)))
            (Double.sub (roundDouble (m.position s f 1)) (roundDouble (m.position t f 1)))))
          (Double.mul
            (Double.sub (roundDouble (m.position s f 2)) (roundDouble (m.position t f 2)))
            (Double.sub (roundDouble (m.position s f 2)) (roundDouble (m.position t f 2)))) :=
  rfl

/-- The squared norm, in the arithmetic of `double`, of two positions that
differ by `d` in the first coordinate, where `x`, `y`, `d` and the common
second and third coordinates are values of `double`, and the square of `d`
rounds to `q`. -/
theorem squaredNormIn_ieee_axis (m : AnimatedInteractionMesh) (s t f : Nat)
    (x y b c d : ℚ) (q : Double)
    (hsx : m.position s f 0 = x) (htx : m.position t f 0 = y)
    (hsy : m.position s f 1 = b) (hty : m.position t f 1 = b)
    (hsz : m.position s f 2 = c) (htz : m.position t f 2 = c)
    (hx : roundDouble x = .finite x) (hy : roundDouble y = .finite y)
    (hb : roundDouble b = .finite b) (hc : roundDouble c = .finite c)
    (hd : roundDouble (x - y) = .finite d) (hq : roundDouble (d * d) = q)
    (hq0 : Double.add (Double.add q (.finite 0)) (.finite 0) = q) :
    squaredNormIn ieeeArithmetic m s t f = q := by
  rw [squaredNormIn_ieee, hsx, htx, hsy, hty, hsz, htz, hx, hy, hb, hc,
    Double.sub_finite, Double.sub_finite, Double.sub_finite, hd, sub_self, sub_self,
    roundDouble_zero, Double.mul_finite, Double.mul_finite, hq, mul_zero, roundDouble_zero, hq0]

theorem Double.add_zero_finite (a : ℚ) (ha : roundDouble a = .finite a) :
    Double.add (Double.add (.finite a) (.finite 0)) (.finite 0) = .finite a := by
  rw [Double.add_finite, add_zero, ha, Double.add_finite, add_zero, ha]

theorem rawWeightIn_ieee (m : AnimatedInteractionMesh) (f s t : Nat) :
    rawWeightIn ieeeArithmetic m f s t
      = if Double.isZero (squaredNormIn ieeeArithmetic m s t f) = true then roundDouble 1
        else Double.div (roundDouble 1) (squaredNormIn ieeeArithmetic m s t f) := rfl

/-- The raw weight, in the arithmetic of `double`, of an edge whose squared norm
is the finite non-zero `q`. -/
theorem rawWeightIn_ieee_finite (m : AnimatedInteractionMesh) (f s t : Nat) (q : ℚ)
    (hq : squaredNormIn ieeeArithmetic m s t f = .finite q) (hne : q ≠ 0) :
    rawWeightIn ieeeArithmetic m f s t = roundDouble (1 / q) := by
  rw [rawWeightIn_ieee, hq, roundDouble_one, Double.div_finite _ _ hne]
  have hz : Double.isZero (.finite q) = false := by
    show decide (q = 0) = false
    exact decide_eq_false hne
  rw [hz]
  rfl

/-- The raw weight, in the arithmetic of `double`, of an edge whose squared norm
is computed as zero. -/
theorem rawWeightIn_ieee_zero (m : AnimatedInteractionMesh) (f s t : Nat)
    (hq : squaredNormIn ieeeArithmetic m s t f = .finite 0) :
    rawWeightIn ieeeArithmetic m f s t = .finite 1 := by
  rw [rawWeightIn_ieee, hq, roundDouble_one]
  rfl

/-- The raw weight, in the arithmetic of `double`, of an edge whose squared norm
is computed as an infinity. -/
theorem rawWeightIn_ieee_infinite (m : AnimatedInteractionMesh) (f s t : Nat) (negative : Bool)
    (hq : squaredNormIn ieeeArithmetic m s t f = .infinite negative) :
    rawWeightIn ieeeArithmetic m f s t = .finite 0 := by
  rw [rawWeightIn_ieee, hq, roundDouble_one]
  rfl

/-- The accumulated sum of the raw weights of a mesh with one skeleton edge. -/
theorem rawWeightSumIn_one {D : Type} (A : Arithmetic D) (m : AnimatedInteractionMesh)
    (f : Nat) (s t : Nat)
    (hedges : m.graph.edges.map (fun e => (e.source, e.target)) = [(s, t)]) :
    rawWeightSumIn A m f = A.add (A.ofRat 0) (rawWeightIn A m f s t) := by
  unfold rawWeightSumIn
  rw [hedges]
  rfl

/-- The accumulated sum of the raw weights of a mesh with two skeleton edges. -/
theorem rawWeightSumIn_two {D : Type} (A : Arithmetic D) (m : AnimatedInteractionMesh)
    (f : Nat) (s t u v : Nat)
    (hedges : m.graph.edges.map (fun e => (e.source, e.target)) = [(s, t), (u, v)]) :
    rawWeightSumIn A m f
      = A.add (A.add (A.ofRat 0) (rawWeightIn A m f s t)) (rawWeightIn A m f u v) := by
  unfold rawWeightSumIn
  rw [hedges]
  rfl

/-- The accumulated sum, in the arithmetic of `double`, of two finite raw
weights of which the first is a value of `double`. -/
theorem rawWeightSumIn_ieee_two (m : AnimatedInteractionMesh) (f : Nat) (s t u v : Nat)
    (hedges : m.graph.edges.map (fun e => (e.source, e.target)) = [(s, t), (u, v)])
    (a b : ℚ) (ha : rawWeightIn ieeeArithmetic m f s t = .finite a)
    (hb : rawWeightIn ieeeArithmetic m f u v = .finite b)
    (hstored : roundDouble a = .finite a) :
    rawWeightSumIn ieeeArithmetic m f = roundDouble (a + b) := by
  rw [rawWeightSumIn_two ieeeArithmetic m f s t u v hedges, ha, hb]
  show Double.add (Double.add (roundDouble 0) (.finite a)) (.finite b) = _
  rw [roundDouble_zero, Double.add_finite, zero_add, hstored, Double.add_finite]

/-- The weight, in the arithmetic of `double`, of an edge with the finite raw
weight `a` when the accumulated sum is the finite positive `total`. -/
theorem normalizedWeightIn_ieee_finite (m : AnimatedInteractionMesh) (f s t : Nat)
    (a total : ℚ) (ha : rawWeightIn ieeeArithmetic m f s t = .finite a)
    (htotal : rawWeightSumIn ieeeArithmetic m f = .finite total) (hpos : 0 < total) :
    normalizedWeightIn ieeeArithmetic m f s t = roundDouble (a / total) := by
  unfold normalizedWeightIn
  rw [htotal, ha]
  have hp : ieeeArithmetic.isPositive (.finite total) = true := by
    show decide (0 < total) = true
    exact decide_eq_true hpos
  rw [if_pos hp]
  exact Double.div_finite a total (ne_of_gt hpos)

theorem chainMesh_ends :
    chainMesh.graph.edges.map (fun e => (e.source, e.target)) = [(0, 1), (1, 2)] := rfl

theorem chainSimilar_ends :
    chainSimilar.graph.edges.map (fun e => (e.source, e.target)) = [(0, 1), (1, 2)] := rfl

theorem closeMesh_ends :
    closeMesh.graph.edges.map (fun e => (e.source, e.target)) = [(0, 1), (0, 2)] := rfl

theorem farMesh_ends :
    farMesh.graph.edges.map (fun e => (e.source, e.target)) = [(0, 1)] := rfl

/-- The first frame of `chainMesh`. -/
theorem chainMesh_points :
    chainMesh.framePoint 0 0 = (0, 0, 0) ∧ chainMesh.framePoint 1 0 = (1, 0, 0)
    ∧ chainMesh.framePoint 2 0 = (3, 0, 0) := by
  simp [framePoint, position, viewOffset, chainMesh]

/-- The first frame of `chainSimilar`. -/
theorem chainSimilar_points :
    chainSimilar.framePoint 0 0 = (1, 1, 1) ∧ chainSimilar.framePoint 1 0 = (4, 1, 1)
    ∧ chainSimilar.framePoint 2 0 = (10, 1, 1) := by
  simp [framePoint, position, viewOffset, chainSimilar, chainMesh]

/-- The frame of `closeMesh`. -/
theorem closeMesh_points :
    closeMesh.framePoint 0 0 = (0, 0, 0) ∧ closeMesh.framePoint 1 0 = (tiny, 0, 0)
    ∧ closeMesh.framePoint 2 0 = (1, 0, 0) := by
  simp [framePoint, position, viewOffset, closeMesh]

/-- The frame of `farMesh`. -/
theorem farMesh_points :
    farMesh.framePoint 0 0 = (0, 0, 0) ∧ farMesh.framePoint 1 0 = (huge, 0, 0) := by
  simp [framePoint, position, viewOffset, farMesh]

theorem framePoint_eq (m : AnimatedInteractionMesh) (v f : Nat) (x y z : ℚ)
    (h : m.framePoint v f = (x, y, z)) :
    m.position v f 0 = x ∧ m.position v f 1 = y ∧ m.position v f 2 = z := by
  unfold framePoint at h
  simp only [Prod.mk.injEq] at h
  exact h

/-- The squared norms computed in `double` for the two edges of `chainMesh` in
its first frame. -/
theorem chainMesh_squaredNorm :
    squaredNormIn ieeeArithmetic chainMesh 0 1 0 = .finite 1
    ∧ squaredNormIn ieeeArithmetic chainMesh 1 2 0 = .finite 4 := by
  obtain ⟨ha, hb, hc⟩ := chainMesh_points
  obtain ⟨ha0, ha1, ha2⟩ := framePoint_eq _ _ _ _ _ _ ha
  obtain ⟨hb0, hb1, hb2⟩ := framePoint_eq _ _ _ _ _ _ hb
  obtain ⟨hc0, hc1, hc2⟩ := framePoint_eq _ _ _ _ _ _ hc
  constructor
  · exact squaredNormIn_ieee_axis chainMesh 0 1 0 0 1 0 0 (-1) (.finite 1)
      ha0 hb0 ha1 hb1 ha2 hb2 roundDouble_zero roundDouble_one roundDouble_zero roundDouble_zero
      (by rw [zero_sub]; exact roundDouble_neg_one)
      (by rw [neg_mul_neg, mul_one]; exact roundDouble_one)
      (Double.add_zero_finite 1 roundDouble_one)
  · exact squaredNormIn_ieee_axis chainMesh 1 2 0 1 3 0 0 (-2) (.finite 4)
      hb0 hc0 hb1 hc1 hb2 hc2 roundDouble_one roundDouble_three roundDouble_zero roundDouble_zero
      (by rw [show (1 : ℚ) - 3 = -2 by norm_num]; exact roundDouble_neg_two)
      (by rw [show (-2 : ℚ) * -2 = 4 by norm_num]; exact roundDouble_four)
      (Double.add_zero_finite 4 roundDouble_four)

/-- The squared norms computed in `double` for the two edges of `chainSimilar`
in its first frame. -/
theorem chainSimilar_squaredNorm :
    squaredNormIn ieeeArithmetic chainSimilar 0 1 0 = .finite 9
    ∧ squaredNormIn ieeeArithmetic chainSimilar 1 2 0 = .finite 36 := by
  obtain ⟨ha, hb, hc⟩ := chainSimilar_points
  obtain ⟨ha0, ha1, ha2⟩ := framePoint_eq _ _ _ _ _ _ ha
  obtain ⟨hb0, hb1, hb2⟩ := framePoint_eq _ _ _ _ _ _ hb
  obtain ⟨hc0, hc1, hc2⟩ := framePoint_eq _ _ _ _ _ _ hc
  constructor
  · exact squaredNormIn_ieee_axis chainSimilar 0 1 0 1 4 1 1 (-3) (.finite 9)
      ha0 hb0 ha1 hb1 ha2 hb2 roundDouble_one roundDouble_four roundDouble_one roundDouble_one
      (by rw [show (1 : ℚ) - 4 = -3 by norm_num]; exact roundDouble_neg_three)
      (by rw [show (-3 : ℚ) * -3 = 9 by norm_num]; exact roundDouble_nine)
      (Double.add_zero_finite 9 roundDouble_nine)
  · exact squaredNormIn_ieee_axis chainSimilar 1 2 0 4 10 1 1 (-6) (.finite 36)
      hb0 hc0 hb1 hc1 hb2 hc2 roundDouble_four roundDouble_ten roundDouble_one roundDouble_one
      (by rw [show (4 : ℚ) - 10 = -6 by norm_num]; exact roundDouble_neg_six)
      (by rw [show (-6 : ℚ) * -6 = 36 by norm_num]; exact roundDouble_thirty_six)
      (Double.add_zero_finite 36 roundDouble_thirty_six)

/-- The squared norms computed in `double` for the two edges of `closeMesh`: the
first one underflows to zero. -/
theorem closeMesh_squaredNorm :
    squaredNormIn ieeeArithmetic closeMesh 0 1 0 = .finite 0
    ∧ squaredNormIn ieeeArithmetic closeMesh 0 2 0 = .finite 1 := by
  obtain ⟨ha, hb, hc⟩ := closeMesh_points
  obtain ⟨ha0, ha1, ha2⟩ := framePoint_eq _ _ _ _ _ _ ha
  obtain ⟨hb0, hb1, hb2⟩ := framePoint_eq _ _ _ _ _ _ hb
  obtain ⟨hc0, hc1, hc2⟩ := framePoint_eq _ _ _ _ _ _ hc
  constructor
  · exact squaredNormIn_ieee_axis closeMesh 0 1 0 0 tiny 0 0 (-tiny) (.finite 0)
      ha0 hb0 ha1 hb1 ha2 hb2 roundDouble_zero roundDouble_tiny roundDouble_zero roundDouble_zero
      (by rw [zero_sub]; exact roundDouble_neg_tiny)
      (by rw [neg_mul_neg]; exact roundDouble_tiny_sq)
      (Double.add_zero_finite 0 roundDouble_zero)
  · exact squaredNormIn_ieee_axis closeMesh 0 2 0 0 1 0 0 (-1) (.finite 1)
      ha0 hc0 ha1 hc1 ha2 hc2 roundDouble_zero roundDouble_one roundDouble_zero roundDouble_zero
      (by rw [zero_sub]; exact roundDouble_neg_one)
      (by rw [neg_mul_neg, mul_one]; exact roundDouble_one)
      (Double.add_zero_finite 1 roundDouble_one)

/-- The squared norm computed in `double` for the edge of `farMesh` overflows
to an infinity. -/
theorem farMesh_squaredNorm :
    squaredNormIn ieeeArithmetic farMesh 0 1 0 = .infinite false := by
  obtain ⟨ha, hb⟩ := farMesh_points
  obtain ⟨ha0, ha1, ha2⟩ := framePoint_eq _ _ _ _ _ _ ha
  obtain ⟨hb0, hb1, hb2⟩ := framePoint_eq _ _ _ _ _ _ hb
  exact squaredNormIn_ieee_axis farMesh 0 1 0 0 huge 0 0 (-huge) (.infinite false)
    ha0 hb0 ha1 hb1 ha2 hb2 roundDouble_zero roundDouble_huge roundDouble_zero roundDouble_zero
    (by rw [zero_sub]; exact roundDouble_neg_huge)
    (by rw [neg_mul_neg]; exact roundDouble_huge_sq)
    rfl

/-- The weights `computeVertexWeights` stores in `double` for the first frame
of `chainMesh`: the values of `double` nearest to `4 / 5` and `1 / 5`. -/
theorem chainMesh_ieee_weights :
    (computeVertexWeightsIn ieeeArithmetic chainMesh).map (fun e => e.weight[0]?)
      = [some (.finite (3602879701896397 / 4503599627370496)),
         some (.finite (3602879701896397 / 18014398509481984))] := by
  have hfirst : rawWeightIn ieeeArithmetic chainMesh 0 0 1 = .finite 1 := by
    rw [rawWeightIn_ieee_finite chainMesh 0 0 1 1 chainMesh_squaredNorm.1 one_ne_zero,
      div_one, roundDouble_one]
  have hsecond : rawWeightIn ieeeArithmetic chainMesh 0 1 2 = .finite (1 / 4) := by
    rw [rawWeightIn_ieee_finite chainMesh 0 1 2 4 chainMesh_squaredNorm.2 (by norm_num),
      roundDouble_quarter]
  have htotal : rawWeightSumIn ieeeArithmetic chainMesh 0 = .finite (5 / 4) := by
    rw [rawWeightSumIn_ieee_two chainMesh 0 0 1 1 2 chainMesh_ends 1 (1 / 4) hfirst hsecond
      roundDouble_one, roundDouble_chain_sum]
  rw [computeVertexWeightsIn_slot ieeeArithmetic chainMesh 0 (by decide)]
  show [some (normalizedWeightIn ieeeArithmetic chainMesh 0 0 1),
    some (normalizedWeightIn ieeeArithmetic chainMesh 0 1 2)] = _
  rw [normalizedWeightIn_ieee_finite chainMesh 0 0 1 1 (5 / 4) hfirst htotal (by norm_num),
    normalizedWeightIn_ieee_finite chainMesh 0 1 2 (1 / 4) (5 / 4) hsecond htotal (by norm_num),
    roundDouble_chain_first, roundDouble_chain_second]

/-- The weights `computeVertexWeights` stores in `double` for the first frame
of `chainSimilar`: one unit in the last place below those of `chainMesh`. -/
theorem chainSimilar_ieee_weights :
    (computeVertexWeightsIn ieeeArithmetic chainSimilar).map (fun e => e.weight[0]?)
      = [some (.finite (7205759403792793 / 9007199254740992)),
         some (.finite (7205759403792793 / 36028797018963968))] := by
  have hfirst : rawWeightIn ieeeArithmetic chainSimilar 0 0 1
      = .finite (2001599834386887 / 18014398509481984) := by
    rw [rawWeightIn_ieee_finite chainSimilar 0 0 1 9 chainSimilar_squaredNorm.1 (by norm_num),
      roundDouble_ninth]
  have hsecond : rawWeightIn ieeeArithmetic chainSimilar 0 1 2
      = .finite (2001599834386887 / 72057594037927936) := by
    rw [rawWeightIn_ieee_finite chainSimilar 0 1 2 36 chainSimilar_squaredNorm.2 (by norm_num),
      roundDouble_thirty_sixth]
  have htotal : rawWeightSumIn ieeeArithmetic chainSimilar 0
      = .finite (2501999792983609 / 18014398509481984) := by
    rw [rawWeightSumIn_ieee_two chainSimilar 0 0 1 1 2 chainSimilar_ends _ _ hfirst hsecond
      roundDouble_ninth_stored, roundDouble_similar_sum]
  rw [computeVertexWeightsIn_slot ieeeArithmetic chainSimilar 0 (by decide)]
  show [some (normalizedWeightIn ieeeArithmetic chainSimilar 0 0 1),
    some (normalizedWeightIn ieeeArithmetic chainSimilar 0 1 2)] = _
  rw [normalizedWeightIn_ieee_finite chainSimilar 0 0 1 _ _ hfirst htotal (by norm_num),
    normalizedWeightIn_ieee_finite chainSimilar 0 1 2 _ _ hsecond htotal (by norm_num),
    roundDouble_similar_first, roundDouble_similar_second]

/-- The weights `computeVertexWeights` stores in `double` for `closeMesh`: one
half for each edge. -/
theorem closeMesh_ieee_weights :
    (computeVertexWeightsIn ieeeArithmetic closeMesh).map (fun e => e.weight[0]?)
      = [some (.finite (1 / 2)), some (.finite (1 / 2))] := by
  have hfirst : rawWeightIn ieeeArithmetic closeMesh 0 0 1 = .finite 1 :=
    rawWeightIn_ieee_zero closeMesh 0 0 1 closeMesh_squaredNorm.1
  have hsecond : rawWeightIn ieeeArithmetic closeMesh 0 0 2 = .finite 1 := by
    rw [rawWeightIn_ieee_finite closeMesh 0 0 2 1 closeMesh_squaredNorm.2 one_ne_zero,
      div_one, roundDouble_one]
  have htotal : rawWeightSumIn ieeeArithmetic closeMesh 0 = .finite 2 := by
    rw [rawWeightSumIn_ieee_two closeMesh 0 0 1 0 2 closeMesh_ends 1 1 hfirst hsecond
      roundDouble_one, one_add_one_eq_two, roundDouble_two]
  rw [computeVertexWeightsIn_slot ieeeArithmetic closeMesh 0 (by decide)]
  show [some (normalizedWeightIn ieeeArithmetic closeMesh 0 0 1),
    some (normalizedWeightIn ieeeArithmetic closeMesh 0 0 2)] = _
  rw [normalizedWeightIn_ieee_finite closeMesh 0 0 1 1 2 hfirst htotal (by norm_num),
    normalizedWeightIn_ieee_finite closeMesh 0 0 2 1 2 hsecond htotal (by norm_num),
    roundDouble_half]

/-- The sum accumulated and the weight stored in `double` for `farMesh`: both are
zero. -/
theorem farMesh_ieee_weights :
    rawWeightSumIn ieeeArithmetic farMesh 0 = .finite 0
    ∧ (computeVertexWeightsIn ieeeArithmetic farMesh).map (fun e => e.weight[0]?)
        = [some (.finite 0)] := by
  have hraw : rawWeightIn ieeeArithmetic farMesh 0 0 1 = .finite 0 :=
    rawWeightIn_ieee_infinite farMesh 0 0 1 false farMesh_squaredNorm
  have htotal : rawWeightSumIn ieeeArithmetic farMesh 0 = .finite 0 := by
    rw [rawWeightSumIn_one ieeeArithmetic farMesh 0 0 1 farMesh_ends, hraw]
    show Double.add (roundDouble 0) (.finite 0) = _
    rw [roundDouble_zero, Double.add_finite, add_zero, roundDouble_zero]
  refine ⟨htotal, ?_⟩
  rw [computeVertexWeightsIn_slot ieeeArithmetic farMesh 0 (by decide)]
  show [some (normalizedWeightIn ieeeArithmetic farMesh 0 0 1)] = _
  unfold normalizedWeightIn
  rw [htotal, hraw]
  rfl

/-! ## The weights of the specification are those of the exact arithmetic -/

theorem rawWeightIn_exact (m : AnimatedInteractionMesh) (f : Nat) (e : GraphEdge) :
    rawWeightIn exactArithmetic m f e.source e.target = m.rawWeight f e := by
  unfold rawWeightIn rawWeight
  rw [squaredNormIn_exact]
  by_cases h : m.squaredDistance e.source e.target f = 0
  · rw [if_pos h, if_pos (show exactArithmetic.isZero _ = true from decide_eq_true h)]
    rfl
  · rw [if_neg h, if_neg (by
      rw [show exactArithmetic.isZero (m.squaredDistance e.source e.target f) = false from
        decide_eq_false h]
      exact Bool.false_ne_true)]
    rfl

theorem foldl_add_sum (l : List ℚ) (a : ℚ) :
    l.foldl exactArithmetic.add a = a + l.sum := by
  induction l generalizing a with
  | nil => simp
  | cons x l ih =>
    rw [List.foldl_cons, ih, List.sum_cons]
    show a + x + l.sum = a + (x + l.sum)
    ring

theorem rawWeightSumIn_exact (m : AnimatedInteractionMesh) (f : Nat) :
    rawWeightSumIn exactArithmetic m f = m.rawWeightSum f := by
  unfold rawWeightSumIn rawWeightsIn rawWeightSum
  rw [foldl_add_sum, List.map_map]
  have hmap : m.graph.edges.map
      ((fun p : Nat × Nat => rawWeightIn exactArithmetic m f p.1 p.2)
        ∘ fun e => (e.source, e.target))
      = m.graph.edges.map (m.rawWeight f) := by
    apply List.map_congr_left
    intro e _
    exact rawWeightIn_exact m f e
  rw [hmap]
  show (0 : ℚ) + _ = _
  rw [zero_add]

/-- In the exact arithmetic, with a positive sum of the raw weights, the weight
of an edge is its raw weight divided by that sum. -/
theorem normalizedWeightIn_exact (m : AnimatedInteractionMesh) (f : Nat) (e : GraphEdge)
    (hpos : 0 < m.rawWeightSum f) :
    normalizedWeightIn exactArithmetic m f e.source e.target
      = m.rawWeight f e / m.rawWeightSum f := by
  unfold normalizedWeightIn
  rw [rawWeightSumIn_exact, rawWeightIn_exact,
    if_pos (show exactArithmetic.isPositive _ = true from decide_eq_true hpos)]
  rfl

/-- The edge at an index after `computeVertexWeights` in the arithmetic `A`: it
has the endpoints of the edge of the mesh at that index and, in the slot of a
frame of the mesh, the normalized weight. -/
theorem computeVertexWeightsIn_getElem {D : Type} (A : Arithmetic D)
    (m : AnimatedInteractionMesh) (f : Nat) (hf : f < m.numFrames) (i : Nat) (e : GraphEdge)
    (he : m.graph.edges[i]? = some e) :
    ∃ e1, (computeVertexWeightsIn A m)[i]? = some e1
      ∧ e1.source = e.source ∧ e1.target = e.target
      ∧ e1.weight[f]? = some (normalizedWeightIn A m f e.source e.target) := by
  have hends := congrArg (fun l => l[i]?) (computeVertexWeightsIn_ends A m)
  have hslot := congrArg (fun l => l[i]?) (computeVertexWeightsIn_slot A m f hf)
  simp only [List.getElem?_map, he, Option.map_some'] at hends hslot
  cases hget : (computeVertexWeightsIn A m)[i]? with
  | none =>
    rw [hget] at hends
    simp at hends
  | some e1 =>
    rw [hget] at hends hslot
    simp only [Option.map_some', Option.some.injEq, Prod.mk.injEq] at hends hslot
    exact ⟨e1, rfl, hends.1, hends.2, hslot⟩

/-- The squared distance of two positions that differ in the first coordinate
only. -/
theorem squaredDistance_axis (m : AnimatedInteractionMesh) (s t f : Nat) (x y b c : ℚ)
    (hs : m.framePoint s f = (x, b, c)) (ht : m.framePoint t f = (y, b, c)) :
    m.squaredDistance s t f = (x - y) ^ 2 := by
  obtain ⟨hsx, hsy, hsz⟩ := framePoint_eq m s f x b c hs
  obtain ⟨htx, hty, htz⟩ := framePoint_eq m t f y b c ht
  unfold squaredDistance
  rw [hsx, hsy, hsz, htx, hty, htz]
  ring

theorem rawWeight_of (m : AnimatedInteractionMesh) (f : Nat) (e : GraphEdge) (q : ℚ)
    (hq : m.squaredDistance e.source e.target f = q) (hne : q ≠ 0) :
    m.rawWeight f e = 1 / q := by
  unfold rawWeight
  rw [hq, if_neg hne]

theorem closeMesh_edges :
    closeMesh.graph.edges = [⟨0, 1, ⟨1, []⟩⟩, ⟨0, 2, ⟨1, []⟩⟩] := rfl

theorem closeMesh_state : closeMesh.state = [0, 0, 0, tiny, 0, 0, 1, 0, 0] := rfl

theorem farMesh_state : farMesh.state = [0, 0, 0, huge, 0, 0] := rfl

/-- The squared distances and raw weights of `closeMesh` in exact arithmetic. -/
theorem closeMesh_exact :
    closeMesh.squaredDistance 0 1 0 = 1 / 2 ^ 1200
    ∧ closeMesh.graph.edges.map (closeMesh.rawWeight 0) = [2 ^ 1200, 1] := by
  obtain ⟨ha, hb, hc⟩ := closeMesh_points
  have hfirst : closeMesh.squaredDistance 0 1 0 = 1 / 2 ^ 1200 := by
    rw [squaredDistance_axis closeMesh 0 1 0 0 tiny 0 0 ha hb]
    unfold tiny
    norm_num
  have hsecond : closeMesh.squaredDistance 0 2 0 = 1 := by
    rw [squaredDistance_axis closeMesh 0 2 0 0 1 0 0 ha hc]
    norm_num
  refine ⟨hfirst, ?_⟩
  rw [closeMesh_edges, List.map_cons, List.map_cons, List.map_nil,
    rawWeight_of closeMesh 0 ⟨0, 1, ⟨1, []⟩⟩ (1 / 2 ^ 1200) hfirst (by norm_num),
    rawWeight_of closeMesh 0 ⟨0, 2, ⟨1, []⟩⟩ 1 hsecond one_ne_zero]
  norm_num

/-- The positions of `closeMesh`, `farMesh`, `chainMesh` and `chainSimilar` are
values of `double`. -/
theorem sample_states_stored :
    closeMesh.state.map roundDouble = closeMesh.state.map Double.finite
    ∧ farMesh.state.map roundDouble = farMesh.state.map Double.finite
    ∧ chainMesh.state.map roundDouble = chainMesh.state.map Double.finite
    ∧ chainSimilar.state.map roundDouble = chainSimilar.state.map Double.finite := by
  refine ⟨?_, ?_, ?_, ?_⟩
  · rw [closeMesh_state]
    simp only [List.map_cons, List.map_nil, roundDouble_zero, roundDouble_one, roundDouble_tiny]
  · rw [farMesh_state]
    simp only [List.map_cons, List.map_nil, roundDouble_zero, roundDouble_huge]
  · rw [show chainMesh.state = [0, 0, 0, 1, 0, 0, 3, 0, 0, 0, 0, 0, 2, 0, 0, 3, 0, 0] from rfl]
    simp only [List.map_cons, List.map_nil, roundDouble_zero, roundDouble_one, roundDouble_two,
      roundDouble_three]
  · rw [show chainSimilar.state = [1, 1, 1, 4, 1, 1, 10, 1, 1, 0, 0, 0, 2, 0, 0, 3, 0, 0]
      from rfl]
    simp only [List.map_cons, List.map_nil, roundDouble_zero, roundDouble_one, roundDouble_two,
      roundDouble_three, roundDouble_four, roundDouble_ten]

/-- The sum of the raw weights of `chainMesh` in its first frame, in exact
arithmetic. -/
theorem chainMesh_rawWeightSum : chainMesh.rawWeightSum 0 = 5 / 4 := by
  norm_num [chainMesh, rawWeight, rawWeightSum, squaredDistance, position, viewOffset]

/-- The weights of `chainSimilar` in its first frame, in exact arithmetic. -/
theorem chainSimilar_weights :
    chainSimilar.computeVertexWeights.graph.edges.map (fun e => e.prop.weight[0]?)
      = [some (4 / 5), some (1 / 5)] := by
  rw [computeVertexWeights_slot chainSimilar 0 (by decide)]
  norm_num [chainSimilar, chainMesh, rawWeight, rawWeightSum, squaredDistance, position,
    viewOffset]

/-- The weights of `closeMesh` in exact arithmetic. -/
theorem closeMesh_weights :
    closeMesh.computeVertexWeights.graph.edges.map (fun e => e.prop.weight[0]?)
      = [some (2 ^ 1200 / (2 ^ 1200 + 1)), some (1 / (2 ^ 1200 + 1))] := by
  have hraw := closeMesh_exact.2
  have hsum : closeMesh.rawWeightSum 0 = 2 ^ 1200 + 1 := by
    unfold rawWeightSum
    rw [hraw, List.sum_cons, List.sum_cons, List.sum_nil, add_zero]
  rw [computeVertexWeights_slot closeMesh 0 (by decide), hsum]
  have hmap : closeMesh.graph.edges.map
      (fun e => some (closeMesh.rawWeight 0 e / (2 ^ 1200 + 1)))
      = (closeMesh.graph.edges.map (closeMesh.rawWeight 0)).map
          (fun w => some (w / (2 ^ 1200 + 1))) := by
    rw [List.map_map]
    rfl
  rw [hmap, hraw]
  rfl

/-- The raw weight of the edge of `farMesh` in exact arithmetic. -/
theorem farMesh_exact : farMesh.rawWeightSum 0 = 1 / 2 ^ 1200 := by
  obtain ⟨ha, hb⟩ := farMesh_points
  have hsq : farMesh.squaredDistance 0 1 0 = 2 ^ 1200 := by
    rw [squaredDistance_axis farMesh 0 1 0 0 huge 0 0 ha hb]
    unfold huge
    norm_num
  unfold rawWeightSum
  rw [show farMesh.graph.edges = [⟨0, 1, ⟨1, []⟩⟩] from rfl, List.map_cons, List.map_nil,
    rawWeight_of farMesh 0 ⟨0, 1, ⟨1, []⟩⟩ (2 ^ 1200) hsq (by norm_num), List.sum_cons,
    List.sum_nil, add_zero]

/-! ## Lemmas on the weights of two meshes in a given arithmetic -/

theorem skeleton_ends (es es1 : List GraphEdge)
    (hsk : es1.map GraphEdge.skeleton = es.map GraphEdge.skeleton) :
    es1.map (fun e => (e.source, e.target)) = es.map (fun e => (e.source, e.target)) := by
  have h := congrArg (List.map (fun p : Nat × Nat × ℚ => (p.1, p.2.1))) hsk
  rw [List.map_map, List.map_map] at h
  exact h

theorem squaredNormIn_congr {D : Type} (A : Arithmetic D) (m m1 : AnimatedInteractionMesh)
    (f s t : Nat)
    (hpos : ∀ a, a < 3 →
      m1.position s f a = m.position s f a ∧ m1.position t f a = m.position t f a) :
    squaredNormIn A m1 s t f = squaredNormIn A m s t f := by
  unfold squaredNormIn
  simp only [(hpos 0 (by decide)).1, (hpos 1 (by decide)).1, (hpos 2 (by decide)).1,
    (hpos 0 (by decide)).2, (hpos 1 (by decide)).2, (hpos 2 (by decide)).2]

theorem rawWeightIn_congr {D : Type} (A : Arithmetic D) (m m1 : AnimatedInteractionMesh)
    (f s t : Nat)
    (hpos : ∀ a, a < 3 →
      m1.position s f a = m.position s f a ∧ m1.position t f a = m.position t f a) :
    rawWeightIn A m1 f s t = rawWeightIn A m f s t := by
  unfold rawWeightIn
  rw [squaredNormIn_congr A m m1 f s t hpos]

/-- Two meshes with the same frame count and the same skeleton edges, in which
the endpoints of the skeleton edges have the same positions in frame `f`, get
the same weights in frame `f`, in every arithmetic. -/
theorem computeVertexWeightsIn_frame_local {D : Type} (A : Arithmetic D)
    (m m1 : AnimatedInteractionMesh) (f : Nat)
    (hf : f < m.numFrames) (hnf : m1.numFrames = m.numFrames)
    (hsk : m1.graph.edges.map GraphEdge.skeleton = m.graph.edges.map GraphEdge.skeleton)
    (hpos : ∀ e ∈ m.graph.edges, ∀ a, a < 3 →
      m1.position e.source f a = m.position e.source f a
      ∧ m1.position e.target f a = m.position e.target f a) :
    (computeVertexWeightsIn A m1).map (fun e => e.weight[f]?)
      = (computeVertexWeightsIn A m).map (fun e => e.weight[f]?) := by
  have hends := skeleton_ends _ _ hsk
  have hraws : rawWeightsIn A m1 f (m.graph.edges.map (fun e => (e.source, e.target)))
      = rawWeightsIn A m f (m.graph.edges.map (fun e => (e.source, e.target))) := by
    unfold rawWeightsIn
    rw [List.map_map, List.map_map]
    apply List.map_congr_left
    intro e he
    exact rawWeightIn_congr A m m1 f e.source e.target (hpos e he)
  have htotal : rawWeightSumIn A m1 f = rawWeightSumIn A m f := by
    unfold rawWeightSumIn
    rw [hends, hraws]
  rw [computeVertexWeightsIn_slot A m f hf, computeVertexWeightsIn_slot A m1 f (by omega)]
  have hleft : m1.graph.edges.map
      (fun e => some (normalizedWeightIn A m1 f e.source e.target))
      = (m1.graph.edges.map (fun e => (e.source, e.target))).map
          (fun p => some (normalizedWeightIn A m1 f p.1 p.2)) := by
    rw [List.map_map]
    rfl
  rw [hleft, hends, List.map_map]
  apply List.map_congr_left
  intro e he
  show some (normalizedWeightIn A m1 f e.source e.target) = _
  unfold normalizedWeightIn
  rw [htotal, rawWeightIn_congr A m m1 f e.source e.target (hpos e he)]

/-! ## Theorems -/

/-- C1, as stated, fails: on the mesh `manyFramesMesh`, with 1 vertex and
1431655766 frames (both counts fit `unsigned`), `optimizationVectorSize ()`
returns 2 while the product `3 * numVertices * numFrames` is 4294967298. -/
theorem optimizationVectorSize_wraps :
    manyFramesMesh.numVertices = 1 ∧ manyFramesMesh.numFrames = 1431655766
    ∧ manyFramesMesh.optimizationVectorSize = 2
    ∧ 3 * manyFramesMesh.numVertices * manyFramesMesh.numFrames = 4294967298
    ∧ manyFramesMesh.optimizationVectorSize
        ≠ 3 * manyFramesMesh.numVertices * manyFramesMesh.numFrames := by
  obtain ⟨hv, hf⟩ := recomputeCachedData_counts manyViewsMesh
    (Vertex.mk "marker" (List.replicate 1431655766 0)) [] rfl (by decide)
  rw [List.length_replicate] at hf
  have hv1 : manyFramesMesh.numVertices = 1 := hv
  have hf1 : manyFramesMesh.numFrames = 1431655766 := hf
  refine ⟨hv1, hf1, ?_, ?_, ?_⟩
  · rw [optimizationVectorSize, hv1, hf1]; decide
  · rw [hv1, hf1]
  · rw [optimizationVectorSize, hv1, hf1]; decide

/-- C1, amended: for every mesh whose product `3 * numVertices * numFrames` fits
`unsigned` (is below `2 ^ 32`), `optimizationVectorSize ()` returns exactly that
product. -/
theorem optimizationVectorSize_eq (m : AnimatedInteractionMesh)
    (h : 3 * m.numVertices * m.numFrames < UINT_SIZE) :
    m.optimizationVectorSize = 3 * m.numVertices * m.numFrames := by
  rw [optimizationVectorSize_eq_mod]
  exact Nat.mod_eq_of_lt h

/-- Witness of C1 amended: a mesh with 4 vertices and 5 frames has an
optimization vector of size 60. -/
theorem optimizationVectorSize_eq_witness :
    3 * 4 * 5 < UINT_SIZE
    ∧ ({ empty with numVertices := 4, numFrames := 5 } : AnimatedInteractionMesh
        ).optimizationVectorSize = 3 * 4 * 5 :=
  ⟨by decide,
   optimizationVectorSize_eq { empty with numVertices := 4, numFrames := 5 } (by decide)⟩

/-- C7: `getVertexFromLabel` returns an index `r` that is at most the end
iterator; no vertex before `r` carries the label; when `r` is not the end
iterator vertex `r` carries the label (so `r` is the vertex of smallest index
with that label); and `r` is the end iterator exactly when no vertex carries the
label. -/
theorem getVertexFromLabel_first (m : AnimatedInteractionMesh) (label : String) :
    m.getVertexFromLabel label ≤ m.vertexEnd
    ∧ (∀ j, j < m.getVertexFromLabel label → m.vertexLabel j ≠ some label)
    ∧ (m.getVertexFromLabel label < m.vertexEnd →
        m.vertexLabel (m.getVertexFromLabel label) = some label)
    ∧ (m.getVertexFromLabel label = m.vertexEnd ↔
        ∀ j, j < m.vertexEnd → m.vertexLabel j ≠ some label) := by
  obtain ⟨hle, hbefore, hat, hend⟩ := getVertexFromLabel_least m label
  refine ⟨hle, ?_, hat, hend⟩
  intro j hj
  exact hbefore j hj

/-- C9: `getVertexFromPosition (f, x, y, z)` returns an index `r` that is at
most the end iterator; no vertex before `r` has frame-`f` position `(x, y, z)`;
when `r` is not the end iterator vertex `r` has that position on all three
components (so `r` is the vertex of smallest index with that position); and `r`
is the end iterator exactly when no vertex has that position in frame `f`. -/
theorem getVertexFromPosition_first (m : AnimatedInteractionMesh) (f : Nat) (x y z : ℚ) :
    m.getVertexFromPosition f x y z ≤ m.vertexEnd
    ∧ (∀ j, j < m.getVertexFromPosition f x y z → ¬ m.HasPosition j f x y z)
    ∧ (m.getVertexFromPosition f x y z < m.vertexEnd →
        m.HasPosition (m.getVertexFromPosition f x y z) f x y z)
    ∧ (m.getVertexFromPosition f x y z = m.vertexEnd ↔
        ∀ j, j < m.vertexEnd → ¬ m.HasPosition j f x y z) := by
  rw [getVertexFromPosition_eq_findIdx]
  obtain ⟨h1, h2, h3, h4⟩ :=
    findIdx_least (positionMatches m.state f x y z) m.graph.vertices
  refine ⟨h1, ?_, ?_, ?_⟩
  · intro j hj hp
    have hlt : j < m.graph.vertices.length := lt_of_lt_of_le hj h1
    have hv := List.getElem?_eq_getElem hlt
    have := h2 j hj _ hv
    rw [(positionMatches_iff m f x y z j _ hv).mpr hp] at this
    cases this
  · intro h
    obtain ⟨a, ha, hp⟩ := h3 h
    exact (positionMatches_iff m f x y z _ a ha).mp hp
  · unfold vertexEnd
    rw [h4]
    constructor
    · intro h j hj hp
      have hv := List.getElem?_eq_getElem hj
      have := h j hj _ hv
      rw [(positionMatches_iff m f x y z j _ hv).mpr hp] at this
      cases this
    · intro h j hj a ha
      have := h j hj
      rw [← positionMatches_iff m f x y z j a ha] at this
      simpa using this

/-- C10: an entry whose start label or end label matches no vertex, or whose
two labels resolve to the same vertex, adds no edge and does not stop the
loading: for every list of entries around it, `loadEdgesFromYaml` (a total
function: it never fails) yields the same mesh, hence the same skeleton graph,
as on the list with that entry removed. -/
theorem loadEdgesFromYaml_skip (m : AnimatedInteractionMesh) (before after : List EdgeEntry)
    (e : EdgeEntry)
    (h : (∀ v ∈ m.graph.vertices, v.label ≠ e.startMarker)
      ∨ (∀ v ∈ m.graph.vertices, v.label ≠ e.endMarker)
      ∨ m.getVertexFromLabel e.startMarker = m.getVertexFromLabel e.endMarker) :
    loadEdgesFromYaml (before ++ e :: after) m = loadEdgesFromYaml (before ++ after) m := by
  unfold loadEdgesFromYaml
  rw [loadEdgesLoop_append, loadEdgesLoop_append, loadEdgesLoop]
  have hv := loadEdgesLoop_vertices m.vertexEnd before m
  have hskip : loadEdge m.vertexEnd (loadEdgesLoop m.vertexEnd before m) e
      = loadEdgesLoop m.vertexEnd before m := by
    apply loadEdge_skip
    rcases h with h | h | h
    · left
      rw [getVertexFromLabel_congr _ m hv]
      exact getVertexFromLabel_eq_end m _ h
    · right; left
      rw [getVertexFromLabel_congr _ m hv]
      exact getVertexFromLabel_eq_end m _ h
    · right; right
      rw [getVertexFromLabel_congr _ m hv, getVertexFromLabel_congr _ m hv]
      exact h
  rw [hskip]

/-- C2: in every mesh built by `loadAnimatedMesh`, for every frame
`f < numFrames`, vertex `v < numVertices` and axis `a < 3`, the view of vertex
`v` at frame `f` starts at offset `f * numVertices * 3 + v * 3`; its component
`a` is the element of the state vector at index
`f * numVertices * 3 + v * 3 + a` (an index inside the vector); and writing
the component writes that element of the state vector. -/
theorem loadAnimatedMesh_view_layout (doc : TrajectoryDoc) (character : CharacterDoc)
    (m : AnimatedInteractionMesh) (h : loadAnimatedMesh doc character = .ok m)
    (f v a : Nat) (hf : f < m.numFrames) (hv : v < m.numVertices) (ha : a < 3) :
    viewOffset m.graph v f = f * m.numVertices * 3 + v * 3
    ∧ m.state[f * m.numVertices * 3 + v * 3 + a]? = some (m.position v f a)
    ∧ ∀ x, (m.setPosition v f a x).state
        = m.state.set (f * m.numVertices * 3 + v * 3 + a) x := by
  have hwf := (loadAnimatedMesh_wellFormed h (by omega)).1
  have hoff := hwf.viewOffset_eq hv hf
  have hlt := hwf.offset_lt hv hf ha
  refine ⟨hoff, ?_, ?_⟩
  · unfold position
    rw [hoff, List.getD_eq_getElem?_getD, List.getElem?_eq_getElem hlt]
    rfl
  · intro x
    unfold setPosition
    rw [hoff]

/-- Witness of C2: in the mesh loaded from the sample document the view of
vertex 1 at frame 1 is at offset `1 * 2 * 3 + 1 * 3 = 9`. -/
theorem loadAnimatedMesh_view_layout_witness :
    loadAnimatedMesh sampleDoc sampleCharacter = .ok sampleMesh
    ∧ viewOffset sampleMesh.graph 1 1 = 1 * sampleMesh.numVertices * 3 + 1 * 3
    ∧ sampleMesh.state[1 * sampleMesh.numVertices * 3 + 1 * 3 + 2]?
        = some (sampleMesh.position 1 1 2)
    ∧ ∀ x, (sampleMesh.setPosition 1 1 2 x).state
        = sampleMesh.state.set (1 * sampleMesh.numVertices * 3 + 1 * 3 + 2) x :=
  ⟨sampleDoc_loads,
   loadAnimatedMesh_view_layout sampleDoc sampleCharacter sampleMesh sampleDoc_loads 1 1 2
     (by decide) (by decide) (by decide)⟩

/-- C8, as stated, fails: the document `duplicateDoc` lists the label "hand"
twice; it loads; index 1 is below `numVertices` and the label of index 1 is
"hand"; yet `getVertexFromLabel` returns index 0 for it, not index 1. -/
theorem getVertexFromLabel_duplicate :
    loadAnimatedMesh duplicateDoc noEdges = .ok duplicateMesh
    ∧ 1 < duplicateMesh.numVertices
    ∧ duplicateDoc.partLabels[1]? = some "hand"
    ∧ duplicateMesh.getVertexFromLabel "hand" = 0
    ∧ duplicateMesh.getVertexFromLabel "hand" ≠ 1 :=
  ⟨duplicateDoc_loads, by decide, by decide, by decide, by decide⟩

/-- C8, amended: for every mesh loaded from a `partLabels` list and every index
`i < numVertices` whose label does not occur at a smaller index of the list (in
particular when the labels are pairwise distinct), the list has an `i`-th label
and looking it up with `getVertexFromLabel` returns `i`. -/
theorem getVertexFromLabel_loaded (doc : TrajectoryDoc) (character : CharacterDoc)
    (m : AnimatedInteractionMesh) (h : loadAnimatedMesh doc character = .ok m)
    (i : Nat) (hi : i < m.numVertices)
    (hfirst : ∀ j, j < i → doc.partLabels[j]? ≠ doc.partLabels[i]?) :
    ∃ label, doc.partLabels[i]? = some label ∧ m.getVertexFromLabel label = i := by
  have hnv := (loadAnimatedMesh_ok h).2.2.2.1
  have hiL : i < doc.partLabels.length := by
    have : toUnsigned doc.partLabels.length ≤ doc.partLabels.length := Nat.mod_le _ _
    omega
  have hlabel := List.getElem?_eq_getElem hiL
  refine ⟨doc.partLabels[i], hlabel, ?_⟩
  obtain ⟨h1, h2, h3, -⟩ := getVertexFromLabel_least m doc.partLabels[i]
  have hend := loadAnimatedMesh_vertexEnd h
  have hle : m.getVertexFromLabel doc.partLabels[i] ≤ i := by
    by_contra hgt
    exact h2 i (by omega) (by rw [loadAnimatedMesh_vertexLabel h, hlabel])
  rcases Nat.lt_or_eq_of_le hle with hlt | heq
  · have := h3 (by omega)
    rw [loadAnimatedMesh_vertexLabel h, ← hlabel] at this
    exact absurd this (hfirst _ hlt)
  · exact heq

/-- Witness of C8 amended: in the mesh loaded from the sample document the
label "hand", of index 1, is looked up as index 1. -/
theorem getVertexFromLabel_loaded_witness :
    loadAnimatedMesh sampleDoc sampleCharacter = .ok sampleMesh
    ∧ 1 < sampleMesh.numVertices
    ∧ (∀ j, j < 1 → sampleDoc.partLabels[j]? ≠ sampleDoc.partLabels[1]?)
    ∧ ∃ label, sampleDoc.partLabels[1]? = some label
        ∧ sampleMesh.getVertexFromLabel label = 1 :=
  ⟨sampleDoc_loads, by decide, by decide,
   getVertexFromLabel_loaded sampleDoc sampleCharacter sampleMesh sampleDoc_loads 1
     (by decide) (by decide)⟩

/-- Witness of C10: the entry `("head", "foot", 2)` names a marker that the
sample mesh does not have; the list with it and the list without it load the
same edges. -/
theorem loadEdgesFromYaml_skip_witness :
    ((∀ v ∈ sampleMesh.graph.vertices, v.label ≠ "head")
      ∨ (∀ v ∈ sampleMesh.graph.vertices, v.label ≠ "foot")
      ∨ sampleMesh.getVertexFromLabel "head" = sampleMesh.getVertexFromLabel "foot")
    ∧ loadEdgesFromYaml ([⟨"head", "hand", 1⟩] ++ ⟨"head", "foot", 2⟩ :: [⟨"hand", "head", 3⟩])
        sampleMesh
      = loadEdgesFromYaml ([⟨"head", "hand", 1⟩] ++ [⟨"hand", "head", 3⟩]) sampleMesh :=
  ⟨Or.inr (Or.inl (by decide)),
   loadEdgesFromYaml_skip sampleMesh [⟨"head", "hand", 1⟩] [⟨"hand", "head", 3⟩]
     ⟨"head", "foot", 2⟩ (Or.inr (Or.inl (by decide)))⟩

/-- C3, as stated, fails: on the mesh `manyVerticesMesh`, with 1431655766
vertices and one frame, `makeOptimizationVectorOneFrame (0)` is `[5, 7]`: it has
2 elements, the `unsigned` value of `3 * numVertices_`, where
`3 * numVertices` is 4294967298. -/
theorem makeOptimizationVectorOneFrame_wraps :
    manyVerticesMesh.numVertices = 1431655766 ∧ 0 < manyVerticesMesh.numFrames
    ∧ manyVerticesMesh.makeOptimizationVector = [5, 7, 9]
    ∧ manyVerticesMesh.makeOptimizationVectorOneFrame 0 = [5, 7]
    ∧ 3 * manyVerticesMesh.numVertices = 4294967298 := by
  obtain ⟨hv, hf, hs, -⟩ := manyVerticesMesh_counts
  have hu : umul 3 1431655766 = 2 := by decide
  refine ⟨hv, by omega, (makeOptimizationVector_state _).trans hs, ?_, by rw [hv]⟩
  rw [makeOptimizationVectorOneFrame_state, hv, hs, hu]
  simp

/-- C3, amended: for every mesh in which `3 * numVertices` fits `unsigned` and
whose state vector holds at least `3 * numVertices * numFrames` elements, as in
every mesh that satisfies the class invariant, and for every
`frameId < numFrames`, `makeOptimizationVectorOneFrame (frameId)` has length
`3 * numVertices` and its `i`-th element is element
`frameId * 3 * numVertices + i` of the state vector: it is the sub-range from
`frameId * 3 * numVertices` (included) to `(frameId + 1) * 3 * numVertices`
(excluded). -/
theorem makeOptimizationVectorOneFrame_subrange (m : AnimatedInteractionMesh)
    (hsize : 3 * m.numVertices < UINT_SIZE)
    (hlen : 3 * m.numVertices * m.numFrames ≤ m.state.length)
    (frameId : Nat) (hf : frameId < m.numFrames) :
    (m.makeOptimizationVectorOneFrame frameId).length = 3 * m.numVertices
    ∧ (frameId + 1) * 3 * m.numVertices ≤ m.makeOptimizationVector.length
    ∧ ∀ i, i < 3 * m.numVertices →
        ∃ q, (m.makeOptimizationVectorOneFrame frameId)[i]? = some q
          ∧ m.makeOptimizationVector[frameId * 3 * m.numVertices + i]? = some q := by
  have h1 : (frameId + 1) * (3 * m.numVertices) ≤ m.numFrames * (3 * m.numVertices) :=
    Nat.mul_le_mul_right _ hf
  have e1 : m.numFrames * (3 * m.numVertices) = 3 * m.numVertices * m.numFrames := by ring
  have e2 : (frameId + 1) * (3 * m.numVertices)
      = frameId * (3 * m.numVertices) + 3 * m.numVertices := by ring
  have e3 : frameId * 3 * m.numVertices = frameId * (3 * m.numVertices) := by ring
  have e4 : (frameId + 1) * 3 * m.numVertices = (frameId + 1) * (3 * m.numVertices) := by ring
  have hone : umul 3 m.numVertices = 3 * m.numVertices := umul_eq_of_lt hsize
  unfold makeOptimizationVectorOneFrame optimizationVectorSizeOneFrame segment
    makeOptimizationVector
  rw [hone, e3, e4]
  refine ⟨?_, by omega, ?_⟩
  · rw [List.length_take, List.length_drop]
    omega
  · intro i hi
    have hidx : frameId * (3 * m.numVertices) + i < m.state.length := by omega
    refine ⟨m.state[frameId * (3 * m.numVertices) + i], ?_, List.getElem?_eq_getElem hidx⟩
    rw [List.getElem?_take, if_pos hi, List.getElem?_drop, List.getElem?_eq_getElem hidx]

/-- Witness of C3 amended: frame 1 of the sample mesh is the sub-range of 6
elements that starts at index 6. -/
theorem makeOptimizationVectorOneFrame_subrange_witness :
    3 * sampleMesh.numVertices < UINT_SIZE
    ∧ 3 * sampleMesh.numVertices * sampleMesh.numFrames ≤ sampleMesh.state.length
    ∧ 1 < sampleMesh.numFrames
    ∧ (sampleMesh.makeOptimizationVectorOneFrame 1).length = 3 * sampleMesh.numVertices
    ∧ (1 + 1) * 3 * sampleMesh.numVertices ≤ sampleMesh.makeOptimizationVector.length
    ∧ ∀ i, i < 3 * sampleMesh.numVertices →
        ∃ q, (sampleMesh.makeOptimizationVectorOneFrame 1)[i]? = some q
          ∧ sampleMesh.makeOptimizationVector[1 * 3 * sampleMesh.numVertices + i]? = some q :=
  ⟨by decide, by decide, by decide,
   makeOptimizationVectorOneFrame_subrange sampleMesh (by decide) (by decide) 1 (by decide)⟩

/-- C4 (identity snapshot): for every mesh `m` returned by `loadAnimatedMesh`,
`makeFromOptimizationVariables (m.makeOptimizationVector (), m)` returns a mesh
with the same frame and vertex counts in which every component of the position
of every vertex at every frame is the one it has in `m`. -/
theorem makeFromOptimizationVariables_identity (doc : TrajectoryDoc)
    (character : CharacterDoc) (m : AnimatedInteractionMesh)
    (h : loadAnimatedMesh doc character = .ok m) :
    ∃ r, makeFromOptimizationVariables m.makeOptimizationVector m = .ok r
      ∧ r.numFrames = m.numFrames ∧ r.numVertices = m.numVertices
      ∧ r.graph.vertices.length = m.graph.vertices.length
      ∧ ∀ v f a, r.position v f a = m.position v f a := by
  have hok : makeFromOptimizationVariables m.makeOptimizationVector m
      = .ok (computeVertexWeights { m with state := m.state, interactionMeshes := [] }) := by
    rcases Nat.eq_zero_or_pos m.numFrames with h0 | hpos
    · unfold makeFromOptimizationVariables makeOptimizationVector
      rw [h0, rebindVertices_zero_frames]
    · have hwf := (loadAnimatedMesh_wellFormed h hpos).1
      refine makeFromOptimizationVariables_ok m hwf m.state ?_
      rw [hwf.size_eq, hwf.state_length]
  exact ⟨_, hok, rfl, rfl, rfl, fun v f a => position_congr _ _ rfl rfl v f a⟩

/-- Witness of C4: the identity snapshot of the mesh loaded from the sample
document. -/
theorem makeFromOptimizationVariables_identity_witness :
    loadAnimatedMesh sampleDoc sampleCharacter = .ok sampleMesh
    ∧ ∃ r, makeFromOptimizationVariables sampleMesh.makeOptimizationVector sampleMesh = .ok r
      ∧ r.numFrames = sampleMesh.numFrames ∧ r.numVertices = sampleMesh.numVertices
      ∧ r.graph.vertices.length = sampleMesh.graph.vertices.length
      ∧ ∀ v f a, r.position v f a = sampleMesh.position v f a :=
  ⟨sampleDoc_loads,
   makeFromOptimizationVariables_identity sampleDoc sampleCharacter sampleMesh sampleDoc_loads⟩

/-- C5, as stated, fails: on the mesh `manyFramesMesh`, with 1 vertex and
1431655766 frames, `optimizationVectorSize ()` is 2, and on the vector `[0, 0]`
of that length `makeFromOptimizationVariables` stops on its assertion instead of
returning a mesh. -/
theorem makeFromOptimizationVariables_wraps :
    manyFramesMesh.numVertices = 1 ∧ manyFramesMesh.numFrames = 1431655766
    ∧ ([0, 0] : List ℚ).length = manyFramesMesh.optimizationVectorSize
    ∧ makeFromOptimizationVariables [0, 0] manyFramesMesh
        = .error "assertion failed: offset <= animatedMesh->state ().size () - 3" := by
  obtain ⟨hv, hf, hg⟩ := manyFramesMesh_counts
  refine ⟨hv, hf, ?_, ?_⟩
  · rw [optimizationVectorSize, hv, hf]
    decide
  · exact makeFromOptimizationVariables_first_view_error manyFramesMesh [0, 0] _ [] hg
      (by rw [hf]; decide) (by decide)

/-- C5, amended: for every source mesh `m` and every vector `x`, whenever
`makeFromOptimizationVariables (x, m)` returns a mesh, that mesh has the
framerate, `numFrames` and `numVertices` of `m`, the same vertex labels in the
same index order, and the same skeleton edges in the same order (same
endpoints, same scale on each edge); and it does return a mesh when `m`
satisfies the class invariant and `x` has length `m.optimizationVectorSize ()`. -/
theorem makeFromOptimizationVariables_topology (m : AnimatedInteractionMesh) (x : List ℚ) :
    (∀ r, makeFromOptimizationVariables x m = .ok r →
      r.framerate = m.framerate ∧ r.numFrames = m.numFrames
      ∧ r.numVertices = m.numVertices
      ∧ r.graph.vertices.map (fun v => v.label) = m.graph.vertices.map (fun v => v.label)
      ∧ r.graph.edges.map GraphEdge.skeleton = m.graph.edges.map GraphEdge.skeleton)
    ∧ (m.WellFormed → x.length = m.optimizationVectorSize →
        ∃ r, makeFromOptimizationVariables x m = .ok r) :=
  ⟨fun r h => makeFromOptimizationVariables_preserves m r x h,
   fun hwf hx => ⟨_, makeFromOptimizationVariables_ok m hwf x (by omega)⟩⟩

/-- Witness of C5 amended: a snapshot of the sample mesh on another vector of
12 elements is returned, and it has the topology of the sample mesh. -/
theorem makeFromOptimizationVariables_topology_witness :
    sampleMesh.WellFormed ∧ otherVector.length = sampleMesh.optimizationVectorSize
    ∧ ∃ r, makeFromOptimizationVariables otherVector sampleMesh = .ok r
      ∧ r.framerate = sampleMesh.framerate ∧ r.numFrames = sampleMesh.numFrames
      ∧ r.numVertices = sampleMesh.numVertices
      ∧ r.graph.vertices.map (fun v => v.label)
          = sampleMesh.graph.vertices.map (fun v => v.label)
      ∧ r.graph.edges.map GraphEdge.skeleton
          = sampleMesh.graph.edges.map GraphEdge.skeleton := by
  have hlen : otherVector.length = sampleMesh.optimizationVectorSize := by decide
  obtain ⟨r, hr⟩ :=
    (makeFromOptimizationVariables_topology sampleMesh otherVector).2 sampleMesh_wellFormed hlen
  exact ⟨sampleMesh_wellFormed, hlen, r, hr,
    (makeFromOptimizationVariables_topology sampleMesh otherVector).1 r hr⟩

/-- C6, as stated, fails: the sample mesh is a loaded mesh whose optimization
vector has 12 elements; `longVector` has 13, a different length; yet
`makeFromOptimizationVariables` returns a mesh on it. -/
theorem makeFromOptimizationVariables_accepts_longer :
    loadAnimatedMesh sampleDoc sampleCharacter = .ok sampleMesh
    ∧ longVector.length ≠ sampleMesh.optimizationVectorSize
    ∧ makeFromOptimizationVariables longVector sampleMesh
        = .ok (computeVertexWeights
            { sampleMesh with state := longVector, interactionMeshes := [] }) :=
  ⟨sampleDoc_loads, by decide,
   makeFromOptimizationVariables_ok sampleMesh sampleMesh_wellFormed longVector (by decide)⟩

/-- C6, amended: for every well-formed source mesh `m` and every vector `x`
shorter than `m.optimizationVectorSize ()`, `makeFromOptimizationVariables (x, m)`
stops on its assertion `offset <= size - 3` instead of returning a mesh. -/
theorem makeFromOptimizationVariables_rejects_shorter (m : AnimatedInteractionMesh)
    (hwf : m.WellFormed) (x : List ℚ) (hx : x.length < m.optimizationVectorSize) :
    ∃ e, makeFromOptimizationVariables x m = .error e := by
  rw [hwf.size_eq] at hx
  have e : m.numFrames * m.numVertices * 3 = 3 * m.numVertices * m.numFrames := by ring
  have hnf : 0 < m.numFrames := by
    rcases Nat.eq_zero_or_pos m.numFrames with h0 | h
    · rw [h0] at hx; simp at hx
    · exact h
  have hnv : 0 < m.numVertices := by
    rcases Nat.eq_zero_or_pos m.numVertices with h0 | h
    · rw [h0] at hx; simp at hx
    · exact h
  have hb : m.numFrames * m.numVertices * 3 < UINT_SIZE := by
    have := hwf.size_lt
    omega
  have hne : m.graph.vertices ≠ [] := by
    intro h0
    have := hwf.vertices_length
    rw [h0] at this
    simp at this
    omega
  have hfail := (rebindVertices_exact m.numVertices m.numFrames x.length hb hnf
      m.graph.vertices 0 (by rw [hwf.vertices_length]; omega)
      (by intro i v hv; rw [hwf.positions hv]; simp)).2
      (by omega) hne (by rw [hwf.vertices_length]; omega)
  unfold makeFromOptimizationVariables
  cases hr : rebindVertices m.numVertices m.numFrames x.length m.graph.vertices 0 with
  | error e => exact ⟨e, rfl⟩
  | ok vs => exact absurd hr (hfail vs)

/-- Witness of C6 amended: the empty vector is shorter than the optimization
vector of the sample mesh. -/
theorem makeFromOptimizationVariables_rejects_shorter_witness :
    sampleMesh.WellFormed ∧ ([] : List ℚ).length < sampleMesh.optimizationVectorSize
    ∧ ∃ e, makeFromOptimizationVariables [] sampleMesh = .error e :=
  ⟨sampleMesh_wellFormed, by decide,
   makeFromOptimizationVariables_rejects_shorter sampleMesh sampleMesh_wellFormed []
     (by decide)⟩

/-- C11: when `loadEdgesFromYaml` meets, after the entries `before`, an entry
whose labels resolve to two distinct existing vertices `s` and `t` (the vertices
carrying the start and the end label), the edge list of the skeleton graph
becomes the edge list it had before the entry followed by exactly one new edge,
which joins `s` and `t` and has the scale of the entry: one edge is gained and
every edge already present keeps its endpoints and scale. -/
theorem loadEdgesFromYaml_adds_edge (m : AnimatedInteractionMesh) (before : List EdgeEntry)
    (e : EdgeEntry)
    (hs : m.getVertexFromLabel e.startMarker < m.vertexEnd)
    (ht : m.getVertexFromLabel e.endMarker < m.vertexEnd)
    (hne : m.getVertexFromLabel e.startMarker ≠ m.getVertexFromLabel e.endMarker) :
    m.vertexLabel (m.getVertexFromLabel e.startMarker) = some e.startMarker
    ∧ m.vertexLabel (m.getVertexFromLabel e.endMarker) = some e.endMarker
    ∧ (loadEdgesFromYaml (before ++ [e]) m).graph.edges
        = (loadEdgesFromYaml before m).graph.edges
          ++ [{ source := m.getVertexFromLabel e.startMarker,
                target := m.getVertexFromLabel e.endMarker,
                prop := { scale := e.scale, weight := [] } }] := by
  refine ⟨(getVertexFromLabel_least m _).2.2.1 hs, (getVertexFromLabel_least m _).2.2.1 ht, ?_⟩
  unfold loadEdgesFromYaml
  rw [loadEdgesLoop_append]
  have hv := loadEdgesLoop_vertices m.vertexEnd before m
  have e1 := getVertexFromLabel_congr _ m hv e.startMarker
  have e2 := getVertexFromLabel_congr _ m hv e.endMarker
  simp only [loadEdgesLoop, loadEdge, e1, e2]
  rw [if_neg (Nat.ne_of_lt hs), if_neg (Nat.ne_of_lt ht), if_neg hne]
  rfl

/-- Witness of C11: on the sample mesh the entry `("hand", "head", 3)` met after
the entry `("head", "hand", 1)` adds one edge from vertex 1 to vertex 0. -/
theorem loadEdgesFromYaml_adds_edge_witness :
    sampleMesh.getVertexFromLabel "hand" < sampleMesh.vertexEnd
    ∧ sampleMesh.getVertexFromLabel "head" < sampleMesh.vertexEnd
    ∧ sampleMesh.getVertexFromLabel "hand" ≠ sampleMesh.getVertexFromLabel "head"
    ∧ sampleMesh.vertexLabel (sampleMesh.getVertexFromLabel "hand") = some "hand"
    ∧ sampleMesh.vertexLabel (sampleMesh.getVertexFromLabel "head") = some "head"
    ∧ (loadEdgesFromYaml ([⟨"head", "hand", 1⟩] ++ [⟨"hand", "head", 3⟩]) sampleMesh).graph.edges
        = (loadEdgesFromYaml [⟨"head", "hand", 1⟩] sampleMesh).graph.edges
          ++ [{ source := sampleMesh.getVertexFromLabel "hand",
                target := sampleMesh.getVertexFromLabel "head",
                prop := { scale := 3, weight := [] } }] :=
  ⟨by decide, by decide, by decide,
   loadEdgesFromYaml_adds_edge sampleMesh [⟨"head", "hand", 1⟩] ⟨"hand", "head", 3⟩
     (by decide) (by decide) (by decide)⟩

/-- C12, as stated, fails: in `closeMesh` the first edge joins the markers at
`(0, 0, 0)` and `(tiny, 0, 0)`, with `tiny` the value `1 / 2 ^ 600` of `double`.
Its endpoints do not coincide and their squared distance, `1 / 2 ^ 1200`, is not
zero, so that its stated raw weight is `2 ^ 1200`, against `1` for the second
edge, and the stated weights are `2 ^ 1200 / (2 ^ 1200 + 1)` and
`1 / (2 ^ 1200 + 1)`.  In `double` the squared norm underflows to zero, the raw
weight of the first edge is `1.` as well, and both edges get the weight one
half.  The endpoints differ in their first coordinate only, so the order in
which the three squares are added does not matter. -/
theorem computeVertexWeights_underflow :
    closeMesh.numFrames = 1
    ∧ closeMesh.graph.edges.map (fun e => (e.source, e.target)) = [(0, 1), (0, 2)]
    ∧ closeMesh.framePoint 0 0 = (0, 0, 0) ∧ closeMesh.framePoint 1 0 = (tiny, 0, 0)
    ∧ closeMesh.framePoint 2 0 = (1, 0, 0)
    ∧ tiny = 1 / 2 ^ 600
    ∧ closeMesh.state.map roundDouble = closeMesh.state.map Double.finite
    ∧ closeMesh.squaredDistance 0 1 0 = 1 / 2 ^ 1200
    ∧ closeMesh.graph.edges.map (closeMesh.rawWeight 0) = [2 ^ 1200, 1]
    ∧ closeMesh.computeVertexWeights.graph.edges.map (fun e => e.prop.weight[0]?)
        = [some (2 ^ 1200 / (2 ^ 1200 + 1)), some (1 / (2 ^ 1200 + 1))]
    ∧ squaredNormIn ieeeArithmetic closeMesh 0 1 0 = .finite 0
    ∧ (computeVertexWeightsIn ieeeArithmetic closeMesh).map (fun e => e.weight[0]?)
        = [some (.finite (1 / 2)), some (.finite (1 / 2))] :=
  ⟨rfl, closeMesh_ends, closeMesh_points.1, closeMesh_points.2.1, closeMesh_points.2.2, rfl,
    sample_states_stored.1, closeMesh_exact.1, closeMesh_exact.2, closeMesh_weights,
    closeMesh_squaredNorm.1, closeMesh_ieee_weights⟩

/-- C12, amended: after `computeVertexWeights`, carried out in any arithmetic
`A` of `double`, for every frame `f < numFrames` and every skeleton edge `e`
(the `i`-th edge), the `i`-th edge still has the endpoints of `e` and its weight
in slot `f` is `raw (e, f)` divided by the sum accumulated from the values
`raw (e', f)` of all skeleton edges `e'`, in their order, when that sum is
positive, and `raw (e, f)` itself otherwise; `raw (e, f)` is `1.` when the
squared norm computed for the difference of the endpoints is zero, and the
inverse of that squared norm otherwise.  In the exact arithmetic the computation
is the one of `computeVertexWeights` over the rationals, the sum is positive,
and the weight is the stated one: the inverse of the squared distance, or `1`
for coincident endpoints, divided by the sum of these. -/
theorem computeVertexWeightsIn_weight {D : Type} (A : Arithmetic D)
    (m : AnimatedInteractionMesh) (f : Nat) (hf : f < m.numFrames) (i : Nat) (e : GraphEdge)
    (he : m.graph.edges[i]? = some e) :
    (∃ e1, (computeVertexWeightsIn A m)[i]? = some e1
      ∧ e1.source = e.source ∧ e1.target = e.target
      ∧ e1.weight[f]? = some (normalizedWeightIn A m f e.source e.target))
    ∧ computeVertexWeightsIn exactArithmetic m
        = m.computeVertexWeights.graph.edges.map GraphEdge.weighted
    ∧ 0 < m.rawWeightSum f
    ∧ normalizedWeightIn exactArithmetic m f e.source e.target
        = m.rawWeight f e / m.rawWeightSum f := by
  have hne : m.graph.edges ≠ [] := by
    intro h0
    rw [h0] at he
    simp at he
  have hpos : 0 < m.rawWeightSum f := rawWeight_sum_pos m f _ hne
  exact ⟨computeVertexWeightsIn_getElem A m f hf i e he, computeVertexWeightsIn_exact m, hpos,
    normalizedWeightIn_exact m f e hpos⟩

/-- Witness of C12 amended: the arithmetic of `double`, the first frame and the
second edge of `chainMesh`; the weight stored is the value of `double` nearest to
`1 / 5`, and `1 / 5` in the exact arithmetic. -/
theorem computeVertexWeightsIn_weight_witness :
    0 < chainMesh.numFrames
    ∧ chainMesh.graph.edges[1]? = some ⟨1, 2, ⟨1, [1 / 5, 4 / 5]⟩⟩
    ∧ (computeVertexWeightsIn ieeeArithmetic chainMesh).map (fun e => e.weight[0]?)
        = [some (.finite (3602879701896397 / 4503599627370496)),
           some (.finite (3602879701896397 / 18014398509481984))]
    ∧ chainMesh.computeVertexWeights.graph.edges.map (fun e => e.prop.weight[0]?)
        = [some (4 / 5), some (1 / 5)]
    ∧ (∃ e1, (computeVertexWeightsIn ieeeArithmetic chainMesh)[1]? = some e1
        ∧ e1.source = 1 ∧ e1.target = 2
        ∧ e1.weight[0]? = some (normalizedWeightIn ieeeArithmetic chainMesh 0 1 2))
    ∧ computeVertexWeightsIn exactArithmetic chainMesh
        = chainMesh.computeVertexWeights.graph.edges.map GraphEdge.weighted
    ∧ 0 < chainMesh.rawWeightSum 0
    ∧ normalizedWeightIn exactArithmetic chainMesh 0 1 2
        = chainMesh.rawWeight 0 ⟨1, 2, ⟨1, [1 / 5, 4 / 5]⟩⟩ / chainMesh.rawWeightSum 0 :=
  ⟨by decide, rfl, chainMesh_ieee_weights, chainMesh_weights.1,
    computeVertexWeightsIn_weight ieeeArithmetic chainMesh 0 (by decide) 1
      ⟨1, 2, ⟨1, [1 / 5, 4 / 5]⟩⟩ rfl⟩

/-- C13, as stated, fails: `farMesh` has a skeleton edge, between the markers at
`(0, 0, 0)` and `(huge, 0, 0)`, with `huge` the value `2 ^ 600` of `double`; in
exact arithmetic the sum of its raw weights is `1 / 2 ^ 1200`, which is
positive.  In `double` the squared norm overflows to an infinity, the raw weight
of the edge is its inverse `0.`, the accumulated sum is `0.`, which is not
positive, and the weight is left at `0.`: the weights of the frame sum to 0, not
to 1. -/
theorem computeVertexWeights_overflow :
    farMesh.numFrames = 1
    ∧ farMesh.graph.edges.map (fun e => (e.source, e.target)) = [(0, 1)]
    ∧ farMesh.framePoint 0 0 = (0, 0, 0) ∧ farMesh.framePoint 1 0 = (huge, 0, 0)
    ∧ huge = 2 ^ 600
    ∧ farMesh.state.map roundDouble = farMesh.state.map Double.finite
    ∧ farMesh.rawWeightSum 0 = 1 / 2 ^ 1200
    ∧ squaredNormIn ieeeArithmetic farMesh 0 1 0 = .infinite false
    ∧ rawWeightIn ieeeArithmetic farMesh 0 0 1 = .finite 0
    ∧ rawWeightSumIn ieeeArithmetic farMesh 0 = .finite 0
    ∧ ieeeArithmetic.isPositive (rawWeightSumIn ieeeArithmetic farMesh 0) = false
    ∧ (computeVertexWeightsIn ieeeArithmetic farMesh).map (fun e => e.weight[0]?)
        = [some (.finite 0)] :=
  ⟨rfl, farMesh_ends, farMesh_points.1, farMesh_points.2, rfl, sample_states_stored.2.1,
    farMesh_exact, farMesh_squaredNorm,
    rawWeightIn_ieee_infinite farMesh 0 0 1 false farMesh_squaredNorm,
    farMesh_ieee_weights.1, by rw [farMesh_ieee_weights.1]; decide, farMesh_ieee_weights.2⟩

/-- C13, amended: after `computeVertexWeights`, carried out in exact arithmetic,
in every frame `f < numFrames` in which the sum of the raw weights is positive,
the weights of all skeleton edges in that frame sum to exactly 1. -/
theorem computeVertexWeights_sum_one (m : AnimatedInteractionMesh) (f : Nat)
    (hf : f < m.numFrames) (h : 0 < m.rawWeightSum f) :
    m.computeVertexWeights.weightSum f = 1 := by
  unfold weightSum
  rw [computeVertexWeights_frame m f hf]
  have hsum : (m.graph.edges.map (fun e => m.rawWeight f e / m.rawWeightSum f)).sum
      = (m.graph.edges.map (m.rawWeight f)).sum * (m.rawWeightSum f)⁻¹ := by
    rw [← List.sum_map_mul_right]
    rfl
  rw [hsum]
  exact mul_inv_cancel₀ (ne_of_gt h)

/-- Witness of C13 amended: the first frame of `chainMesh`, whose two edges have
the raw weights `1` and `1 / 4` and get the weights `4 / 5` and `1 / 5`. -/
theorem computeVertexWeights_sum_one_witness :
    0 < chainMesh.numFrames
    ∧ chainMesh.rawWeightSum 0 = 5 / 4
    ∧ 0 < chainMesh.rawWeightSum 0
    ∧ chainMesh.computeVertexWeights.graph.edges.map (fun e => e.prop.weight[0]?)
        = [some (4 / 5), some (1 / 5)]
    ∧ chainMesh.computeVertexWeights.weightSum 0 = 1 := by
  have hpos : 0 < chainMesh.rawWeightSum 0 := by
    rw [chainMesh_rawWeightSum]
    norm_num
  exact ⟨by decide, chainMesh_rawWeightSum, hpos, chainMesh_weights.1,
    computeVertexWeights_sum_one chainMesh 0 (by decide) hpos⟩

/-- C14, as stated, fails: in `oneFrameMesh`, the mesh `recomputeCachedData ()`
hands to `computeVertexWeights ()` after a frame was removed from the sample
mesh, the edge has a weight sequence of 2 elements; after the call it has 1
element: the sequence was shrunk. -/
theorem computeVertexWeights_shrinks :
    recomputeCachedData trimmedMesh = computeVertexWeights oneFrameMesh
    ∧ oneFrameMesh.graph.edges.map (fun e => e.prop.weight.length) = [2]
    ∧ oneFrameMesh.computeVertexWeights.graph.edges.map (fun e => e.prop.weight.length)
        = [1] := by
  refine ⟨?_, ?_, ?_⟩
  · simp [recomputeCachedData, trimmedMesh, oneFrameMesh, toUnsigned, UINT_SIZE]
    rfl
  · simp [oneFrameMesh, trimmedMesh, sampleMesh]
  · simp [oneFrameMesh, trimmedMesh, sampleMesh, computeVertexWeights,
      computeVertexWeightsLoop, List.range, List.range.loop, computeFrameWeights,
      rawWeightPass, setRawWeight, resize]
    split_ifs <;> simp [normalizeWeight]

/-- C14, amended: after `computeVertexWeights` on any mesh with at least one
frame, whatever the lengths of the weight sequences were before the call, every
skeleton edge's weight sequence has length exactly `numFrames` (a shorter
sequence is grown to that length, a longer one is cut down to it). -/
theorem computeVertexWeights_weight_sized (m : AnimatedInteractionMesh)
    (hnf : 0 < m.numFrames) :
    m.computeVertexWeights.graph.edges.length = m.graph.edges.length
    ∧ ∀ e1, e1 ∈ m.computeVertexWeights.graph.edges → e1.prop.weight.length = m.numFrames :=
  ⟨computeVertexWeightsLoop_length m _ _,
   fun e1 he1 => computeVertexWeights_weight_length m hnf e1 he1⟩

/-- Witness of C14 amended: the mesh `oneFrameMesh`, whose edge has a weight
sequence longer than its single frame. -/
theorem computeVertexWeights_weight_sized_witness :
    0 < oneFrameMesh.numFrames
    ∧ oneFrameMesh.computeVertexWeights.graph.edges.length = oneFrameMesh.graph.edges.length
    ∧ ∀ e1, e1 ∈ oneFrameMesh.computeVertexWeights.graph.edges →
        e1.prop.weight.length = oneFrameMesh.numFrames :=
  ⟨by decide, computeVertexWeights_weight_sized oneFrameMesh (by decide)⟩

/-- C15: whenever the `frames` list of the trajectory document has more entries
than the declared `numFrames`, or some frame entry lists more vertex entries
than `partLabels` has labels, `loadAnimatedMesh` fails: it returns no mesh, so
the excess data is never dropped silently. -/
theorem loadAnimatedMesh_rejects_excess (doc : TrajectoryDoc) (character : CharacterDoc)
    (h : doc.numFrames < doc.frames.length
      ∨ ∃ node ∈ doc.frames, doc.partLabels.length < node.length) :
    ∃ e, loadAnimatedMesh doc character = .error e := by
  cases hload : loadAnimatedMesh doc character with
  | error e => exact ⟨e, rfl⟩
  | ok m =>
    exfalso
    obtain ⟨vs, m1, -, hframes, -⟩ := loadAnimatedMesh_steps hload
    obtain ⟨hcount, hnodes⟩ := loadFrames_ok_bound _ _ _ _ hframes
    rcases h with h | ⟨node, hmem, hlong⟩
    · rcases hcount with h0 | hle
      · rw [h0] at h
        simp at h
      · have : (initialMesh doc vs).numFrames = doc.numFrames := rfl
        omega
    · have h1 := hnodes node hmem
      have h2 : (initialMesh doc vs).numVertices = toUnsigned doc.partLabels.length := rfl
      have h3 : toUnsigned doc.partLabels.length ≤ doc.partLabels.length := Nat.mod_le _ _
      omega

/-- Witness of C15: the sample document with a third frame added to its two
declared frames. -/
theorem loadAnimatedMesh_rejects_excess_witness :
    ({ sampleDoc with frames := sampleDoc.frames ++ [[]] } : TrajectoryDoc).numFrames
        < ({ sampleDoc with frames := sampleDoc.frames ++ [[]] } : TrajectoryDoc).frames.length
    ∧ ∃ e, loadAnimatedMesh { sampleDoc with frames := sampleDoc.frames ++ [[]] }
        sampleCharacter = .error e :=
  ⟨by decide,
   loadAnimatedMesh_rejects_excess { sampleDoc with frames := sampleDoc.frames ++ [[]] }
     sampleCharacter (Or.inl (by decide))⟩

/-- C16, as stated, fails: the document `manyFramesDoc` is well-formed, has one
label, declares 1431655766 frames and supplies none (its frames list is within
the declared bounds); `loadAnimatedMesh` yields no mesh for it, as the state
vector it sizes has `3 * 1431655766` modulo `2 ^ 32`, that is 2, elements and
cannot hold the first view. -/
theorem loadAnimatedMesh_overflow :
    manyFramesDoc.type = "MultiVector3Seq"
    ∧ manyFramesDoc.frames.length ≤ manyFramesDoc.numFrames
    ∧ (∀ node ∈ manyFramesDoc.frames, node.length ≤ manyFramesDoc.partLabels.length)
    ∧ umul (umul manyFramesDoc.numFrames (toUnsigned manyFramesDoc.partLabels.length)) 3 = 2
    ∧ loadAnimatedMesh manyFramesDoc noEdges
        = .error "position view outside of the state vector" :=
  ⟨rfl, by decide, by decide, by decide, manyFramesDoc_fails⟩

/-- C16, amended: for every well-formed trajectory document with labels `L`,
declared `numFrames` `F` and a frames list within the declared bounds, such
that `|L|`, `F` and `3 * |L| * F` are below `2 ^ 32`, `loadAnimatedMesh` yields a
mesh with `numVertices = |L|` and `numFrames = F`, whose `i`-th vertex carries
label `L[i]`, whose state vector has length `3 * |L| * F`, and in which the
position of vertex `v` at frame `f` is the 3-tuple `frames[f][v]` when the
document supplies it and `(0, 0, 0)` when it does not. -/
theorem loadAnimatedMesh_builds (doc : TrajectoryDoc) (character : CharacterDoc)
    (ht : doc.type = "MultiVector3Seq")
    (hL : doc.partLabels.length < UINT_SIZE) (hF : doc.numFrames < UINT_SIZE)
    (hsize : 3 * doc.partLabels.length * doc.numFrames < UINT_SIZE)
    (hframes : doc.frames.length ≤ doc.numFrames)
    (hnodes : ∀ node ∈ doc.frames, node.length ≤ doc.partLabels.length) :
    ∃ m, loadAnimatedMesh doc character = .ok m
      ∧ m.numVertices = doc.partLabels.length ∧ m.numFrames = doc.numFrames
      ∧ m.vertexEnd = doc.partLabels.length
      ∧ (∀ i, m.vertexLabel i = doc.partLabels[i]?)
      ∧ m.state.length = 3 * doc.partLabels.length * doc.numFrames
      ∧ ∀ f v a, f < doc.numFrames → v < doc.partLabels.length → a < 3 →
          m.position v f a = suppliedCoordinate doc f v a := by
  obtain ⟨m, hm, hpos⟩ :=
    loadAnimatedMesh_fits doc character ht hL hF hsize hframes hnodes
  obtain ⟨-, -, h3, h4, -, -, -⟩ := loadAnimatedMesh_ok hm
  have hu : toUnsigned doc.partLabels.length = doc.partLabels.length := Nat.mod_eq_of_lt hL
  rw [hu] at h4
  refine ⟨m, hm, h4, h3, loadAnimatedMesh_vertexEnd hm,
    fun i => loadAnimatedMesh_vertexLabel hm i, ?_, hpos⟩
  rw [loadAnimatedMesh_state_length hm, h3, h4]

/-- Witness of C16 amended: the document `sparseDoc`, which leaves out the
second marker in its second frame. -/
theorem loadAnimatedMesh_builds_witness :
    sparseDoc.type = "MultiVector3Seq"
    ∧ sparseDoc.partLabels.length < UINT_SIZE ∧ sparseDoc.numFrames < UINT_SIZE
    ∧ 3 * sparseDoc.partLabels.length * sparseDoc.numFrames < UINT_SIZE
    ∧ sparseDoc.frames.length ≤ sparseDoc.numFrames
    ∧ (∀ node ∈ sparseDoc.frames, node.length ≤ sparseDoc.partLabels.length)
    ∧ ∃ m, loadAnimatedMesh sparseDoc sampleCharacter = .ok m
      ∧ m.numVertices = sparseDoc.partLabels.length ∧ m.numFrames = sparseDoc.numFrames
      ∧ m.vertexEnd = sparseDoc.partLabels.length
      ∧ (∀ i, m.vertexLabel i = sparseDoc.partLabels[i]?)
      ∧ m.state.length = 3 * sparseDoc.partLabels.length * sparseDoc.numFrames
      ∧ ∀ f v a, f < sparseDoc.numFrames → v < sparseDoc.partLabels.length → a < 3 →
          m.position v f a = suppliedCoordinate sparseDoc f v a :=
  ⟨rfl, by decide, by decide, by decide, by decide, by decide,
   loadAnimatedMesh_builds sparseDoc sampleCharacter rfl (by decide) (by decide) (by decide)
     (by decide) (by decide)⟩

/-- C17 (defect of the code): the round trip fails on the mesh loaded from the
sample document.  `loadAnimatedMesh` accepts the sample document, whose frames
hold one `[x, y, z]` sequence per vertex; `writeTrajectory` on the mesh loaded
from it emits each frame as one flat sequence of six scalars; and
`loadAnimatedMesh` rejects the emitted document at the first entry of the first
frame, with the same skeleton file: with the error of the type check when it
refuses the scalar, and at the read of the first coordinate otherwise. -/
theorem writeTrajectory_not_reloaded :
    loadAnimatedMesh sampleDoc sampleCharacter = .ok sampleMesh
    ∧ sampleDoc.toYaml.frames
        = [[.sequence [1, 2, 3], .sequence [4, 5, 6]],
           [.sequence [7, 8, 9], .sequence [10, 11, 13]]]
    ∧ (writeTrajectory sampleMesh).frames
        = [[.scalar 1, .scalar 2, .scalar 3, .scalar 4, .scalar 5, .scalar 6],
           [.scalar 7, .scalar 8, .scalar 9, .scalar 10, .scalar 11, .scalar 13]]
    ∧ ∀ checkNodeType : VertexNode → Except String Unit,
        loadAnimatedMeshYaml checkNodeType (writeTrajectory sampleMesh) sampleCharacter
          = match checkNodeType (.scalar 1) with
            | .error e => .error e
            | .ok _ => .error "bad dereference" := by
  have hframes : (writeTrajectory sampleMesh).frames
      = [[.scalar 1, .scalar 2, .scalar 3, .scalar 4, .scalar 5, .scalar 6],
         [.scalar 7, .scalar 8, .scalar 9, .scalar 10, .scalar 11, .scalar 13]] := by
    simp [writeTrajectory, sampleMesh, makeOptimizationVectorOneFrame, segment,
      optimizationVectorSizeOneFrame, umul, UINT_SIZE, List.range, List.range.loop]
  refine ⟨sampleDoc_loads, ?_, hframes, ?_⟩
  · simp [TrajectoryDoc.toYaml, sampleDoc]
  · intro checkNodeType
    unfold loadAnimatedMeshYaml
    rw [hframes]
    cases hc : checkNodeType (.scalar 1) with
    | error e =>
      simp [writeTrajectory, sampleMesh, addVertices, pushViews, umul, toUnsigned, UINT_SIZE,
        List.range, List.range.loop, loadFramesYaml, loadFrameYaml, loadVertexYaml, hc]
    | ok u =>
      simp [writeTrajectory, sampleMesh, addVertices, pushViews, umul, toUnsigned, UINT_SIZE,
        List.range, List.range.loop, loadFramesYaml, loadFrameYaml, loadVertexYaml, hc]

/-- C19, as stated, fails: `noLabelsMesh` is returned by `loadAnimatedMesh` for
a document without markers that declares 5 frames; `recomputeCachedData` changes
its `numFrames` from 5 to 0. -/
theorem recomputeCachedData_resets_frames :
    loadAnimatedMesh noLabelsDoc noEdges = .ok noLabelsMesh
    ∧ noLabelsMesh.numFrames = 5
    ∧ (recomputeCachedData noLabelsMesh).numFrames = 0 :=
  ⟨noLabelsDoc_loads, rfl, rfl⟩

/-- C19, amended: every mesh returned by `loadAnimatedMesh` has a state vector
of length exactly `3 * numVertices * numFrames`; `computeVertexWeights` and
`computeInteractionMeshes` leave `numVertices`, `numFrames` and the state vector
unchanged; `recomputeCachedData` leaves the state vector and `numVertices`
unchanged, and `numFrames` as well when the mesh has at least one vertex
(without a vertex it sets `numFrames` to 0); after each of the three the
equality still holds. -/
theorem loadAnimatedMesh_size_invariant (cgal : Triangulation3) (doc : TrajectoryDoc)
    (character : CharacterDoc) (m : AnimatedInteractionMesh)
    (h : loadAnimatedMesh doc character = .ok m) :
    m.state.length = 3 * m.numVertices * m.numFrames
    ∧ (m.computeVertexWeights.numVertices = m.numVertices
        ∧ m.computeVertexWeights.numFrames = m.numFrames
        ∧ m.computeVertexWeights.state = m.state)
    ∧ ((computeInteractionMeshes cgal m).numVertices = m.numVertices
        ∧ (computeInteractionMeshes cgal m).numFrames = m.numFrames
        ∧ (computeInteractionMeshes cgal m).state = m.state)
    ∧ ((recomputeCachedData m).numVertices = m.numVertices
        ∧ (recomputeCachedData m).state = m.state
        ∧ (0 < m.numVertices → (recomputeCachedData m).numFrames = m.numFrames))
    ∧ (recomputeCachedData m).state.length
        = 3 * (recomputeCachedData m).numVertices * (recomputeCachedData m).numFrames := by
  have hlen := loadAnimatedMesh_state_length h
  obtain ⟨r1, r2, r3, r4⟩ := recomputeCachedData_loaded h
  obtain ⟨-, c2, c3, c4, -⟩ := computeInteractionMeshes_fields cgal m
  refine ⟨hlen, ⟨rfl, rfl, rfl⟩, ⟨c3, c2, c4⟩, ⟨r2, r1, r3⟩, ?_⟩
  rw [r1, r2, hlen]
  rcases Nat.eq_zero_or_pos m.numVertices with hz | hp
  · rw [hz]
    simp
  · rw [r3 hp]

/-- Witness of C19 amended: the mesh loaded from the sample document. -/
theorem loadAnimatedMesh_size_invariant_witness :
    loadAnimatedMesh sampleDoc sampleCharacter = .ok sampleMesh
    ∧ sampleMesh.state.length = 3 * sampleMesh.numVertices * sampleMesh.numFrames
    ∧ (sampleMesh.computeVertexWeights.numVertices = sampleMesh.numVertices
        ∧ sampleMesh.computeVertexWeights.numFrames = sampleMesh.numFrames
        ∧ sampleMesh.computeVertexWeights.state = sampleMesh.state)
    ∧ ((computeInteractionMeshes tetraCgal sampleMesh).numVertices = sampleMesh.numVertices
        ∧ (computeInteractionMeshes tetraCgal sampleMesh).numFrames = sampleMesh.numFrames
        ∧ (computeInteractionMeshes tetraCgal sampleMesh).state = sampleMesh.state)
    ∧ ((recomputeCachedData sampleMesh).numVertices = sampleMesh.numVertices
        ∧ (recomputeCachedData sampleMesh).state = sampleMesh.state
        ∧ (0 < sampleMesh.numVertices →
            (recomputeCachedData sampleMesh).numFrames = sampleMesh.numFrames))
    ∧ (recomputeCachedData sampleMesh).state.length
        = 3 * (recomputeCachedData sampleMesh).numVertices
            * (recomputeCachedData sampleMesh).numFrames :=
  ⟨sampleDoc_loads,
   loadAnimatedMesh_size_invariant tetraCgal sampleDoc sampleCharacter sampleMesh
     sampleDoc_loads⟩

/-- C21: for two meshes with the same `numFrames` and skeleton edges, whose
positions in frame `f < numFrames` agree on the vertices the skeleton edges
join, as they do when all vertex positions agree in frame `f`, and are
arbitrary in every other frame, `computeVertexWeights` leaves in slot `f` of
every skeleton edge the same weight in both meshes, in exact arithmetic and in
every arithmetic of `double`.  That the meshes have the same `numVertices` is
not needed. -/
theorem computeVertexWeights_frame_local (m m1 : AnimatedInteractionMesh) (f : Nat)
    (hf : f < m.numFrames) (hnf : m1.numFrames = m.numFrames)
    (hsk : m1.graph.edges.map GraphEdge.skeleton = m.graph.edges.map GraphEdge.skeleton)
    (hpos : ∀ e ∈ m.graph.edges, ∀ a, a < 3 →
      m1.position e.source f a = m.position e.source f a
      ∧ m1.position e.target f a = m.position e.target f a) :
    m1.computeVertexWeights.graph.edges.map (fun e => e.prop.weight[f]?)
        = m.computeVertexWeights.graph.edges.map (fun e => e.prop.weight[f]?)
    ∧ ∀ (D : Type) (A : Arithmetic D),
        (computeVertexWeightsIn A m1).map (fun e => e.weight[f]?)
          = (computeVertexWeightsIn A m).map (fun e => e.weight[f]?) := by
  refine ⟨?_, fun D A => computeVertexWeightsIn_frame_local A m m1 f hf hnf hsk hpos⟩
  apply computeVertexWeights_slot_scaled m m1 f hf hnf 1 one_ne_zero hsk
  intro e he
  have hd : m1.squaredDistance e.source e.target f = m.squaredDistance e.source e.target f := by
    unfold squaredDistance
    rw [(hpos e he 0 (by decide)).1, (hpos e he 1 (by decide)).1, (hpos e he 2 (by decide)).1,
      (hpos e he 0 (by decide)).2, (hpos e he 1 (by decide)).2, (hpos e he 2 (by decide)).2]
  unfold rawWeight
  rw [hd, one_mul]

/-- Witness of C21: the loaded mesh `chainMesh`, with two skeleton edges, and
`chainMoved`, which agree in frame 0 and differ in frame 1.  In frame 0 both
get the weights `4/5` and `1/5` in exact arithmetic, and the values of `double`
nearest to them in the arithmetic of `double`; in frame 1, where the positions
differ, the first gets `1/5` and `4/5` and the second `1/2` and `1/2`. -/
theorem computeVertexWeights_frame_local_witness :
    loadAnimatedMesh chainDoc chainCharacter = .ok chainMesh
    ∧ 0 < chainMesh.numFrames ∧ chainMoved.numFrames = chainMesh.numFrames
    ∧ chainMoved.graph.edges.map GraphEdge.skeleton
        = chainMesh.graph.edges.map GraphEdge.skeleton
    ∧ (∀ e ∈ chainMesh.graph.edges, ∀ a, a < 3 →
        chainMoved.position e.source 0 a = chainMesh.position e.source 0 a
        ∧ chainMoved.position e.target 0 a = chainMesh.position e.target 0 a)
    ∧ chainMesh.computeVertexWeights.graph.edges.map (fun e => e.prop.weight[0]?)
        = [some (4 / 5), some (1 / 5)]
    ∧ chainMesh.computeVertexWeights.graph.edges.map (fun e => e.prop.weight[1]?)
        = [some (1 / 5), some (4 / 5)]
    ∧ chainMoved.computeVertexWeights.graph.edges.map (fun e => e.prop.weight[1]?)
        = [some (1 / 2), some (1 / 2)]
    ∧ (computeVertexWeightsIn ieeeArithmetic chainMesh).map (fun e => e.weight[0]?)
        = [some (.finite (3602879701896397 / 4503599627370496)),
           some (.finite (3602879701896397 / 18014398509481984))]
    ∧ chainMoved.computeVertexWeights.graph.edges.map (fun e => e.prop.weight[0]?)
        = chainMesh.computeVertexWeights.graph.edges.map (fun e => e.prop.weight[0]?)
    ∧ ∀ (D : Type) (A : Arithmetic D),
        (computeVertexWeightsIn A chainMoved).map (fun e => e.weight[0]?)
          = (computeVertexWeightsIn A chainMesh).map (fun e => e.weight[0]?) := by
  have hpos : ∀ e ∈ chainMesh.graph.edges, ∀ a, a < 3 →
      chainMoved.position e.source 0 a = chainMesh.position e.source 0 a
      ∧ chainMoved.position e.target 0 a = chainMesh.position e.target 0 a := by
    intro e he a ha
    have hcases : e = ⟨0, 1, ⟨1, [4 / 5, 1 / 5]⟩⟩ ∨ e = ⟨1, 2, ⟨1, [1 / 5, 4 / 5]⟩⟩ := by
      simpa [chainMesh] using he
    rcases hcases with h | h <;> subst h <;> interval_cases a <;> exact ⟨rfl, rfl⟩
  exact ⟨chainDoc_loads, by decide, rfl, rfl, hpos,
    chainMesh_weights.1, chainMesh_weights.2, chainMoved_weights, chainMesh_ieee_weights,
    computeVertexWeights_frame_local chainMesh chainMoved 0 (by decide) rfl rfl hpos⟩

/-- C22: `computeVertexWeights` changes nothing but the per-frame weights of the
skeleton edges: the state vector, the vertices (labels and position views, hence
every position read through them), the skeleton edges in their order with
their endpoints and scales, `numVertices`, `numFrames`, the framerate and the
interaction meshes are the same after the call as before it. -/
theorem computeVertexWeights_frame_effect (m : AnimatedInteractionMesh) :
    m.computeVertexWeights.state = m.state
    ∧ m.computeVertexWeights.graph.vertices = m.graph.vertices
    ∧ (∀ v f a, m.computeVertexWeights.position v f a = m.position v f a)
    ∧ m.computeVertexWeights.graph.edges.map GraphEdge.skeleton
        = m.graph.edges.map GraphEdge.skeleton
    ∧ m.computeVertexWeights.numVertices = m.numVertices
    ∧ m.computeVertexWeights.numFrames = m.numFrames
    ∧ m.computeVertexWeights.framerate = m.framerate
    ∧ m.computeVertexWeights.interactionMeshes = m.interactionMeshes :=
  ⟨rfl, rfl, fun v f a => position_congr m _ rfl rfl v f a,
    computeVertexWeights_skeleton m, rfl, rfl, rfl, rfl⟩

/-- C23 (defect of the code): for the mesh loaded from the sample document, with
2 vertices, the list of points `computeInteractionMesh (0)` hands to the
triangulation has 4 entries, whatever a default-constructed point is: two
default points, which are the position of no vertex, and then the frame-0
positions of the two vertices.  The vector is constructed with `numVertices ()`
elements and the positions are pushed at its back. -/
theorem triangulationPoints_doubled :
    loadAnimatedMesh sampleDoc sampleCharacter = .ok sampleMesh
    ∧ sampleMesh.numVertices = 2
    ∧ ∀ defaultPoint : Point,
        triangulationPoints defaultPoint sampleMesh 0
          = [defaultPoint, defaultPoint, (1, 2, 3), (4, 5, 6)] := by
  refine ⟨sampleDoc_loads, rfl, ?_⟩
  intro defaultPoint
  simp [triangulationPoints, sampleMesh, vertexPoint, List.replicate]

/-- C24, as stated, fails: on the mesh loaded from `tetraDoc`, with the library
answer `tetraCgal`, the frame-0 graph after `computeInteractionMeshes` holds six
edges from vertex 0 to vertex 1 (and three from vertex 2 to vertex 0). -/
theorem computeInteractionMeshes_parallel_edges :
    loadAnimatedMesh tetraDoc noEdges = .ok tetraMesh
    ∧ ∃ g, (computeInteractionMeshes tetraCgal tetraMesh).interactionMeshes[0]? = some g
        ∧ (g.edges.map endpoints).count (0, 1) = 6
        ∧ (g.edges.map endpoints).count (2, 0) = 3 := by
  refine ⟨tetraDoc_loads, tetraGraph, ?_, by decide, by decide⟩
  rw [computeInteractionMeshes_fresh tetraCgal tetraMesh rfl 0 (by decide),
    tetraMesh_frameGraph]

/-- C24, amended: for every mesh, every frame that has a graph and every
sequence of facets the triangulation enumerates, `computeInteractionMesh`
appends to the graph of the frame one edge for each of the three sides of each
facet visited, in the order of the visits, after the edges the graph already
had: an edge is added whether or not its two vertices are already joined, so
facets that share a side, and repeated calls, leave parallel edges. -/
theorem computeInteractionMesh_appends (cgal : Triangulation3) (m : AnimatedInteractionMesh)
    (frameId : Nat) (g : InteractionMeshGraph) (hg : m.interactionMeshes[frameId]? = some g) :
    ∃ g1, (computeInteractionMesh cgal m frameId).interactionMeshes[frameId]? = some g1
      ∧ g1.edges.map endpoints
          = g.edges.map endpoints
            ++ ((visitedTriangles
                  (cgal.incidentFacets (triangulationPoints cgal.defaultPoint m frameId))).map
                (triangleSides m frameId)).flatten := by
  refine ⟨addFiniteEdges m frameId
    (cgal.incidentFacets (triangulationPoints cgal.defaultPoint m frameId)) g, ?_,
    addFiniteEdges_endpoints m frameId _ g⟩
  show (List.modify _ frameId m.interactionMeshes)[frameId]? = _
  rw [List.getElem?_modify, hg]
  simp

/-- Witness of C24 amended: a second call on the tetrahedron mesh, whose
frame-0 graph already holds the 36 edges of the first call. -/
theorem computeInteractionMesh_appends_witness :
    tetraMeshOnce.interactionMeshes[0]? = some tetraGraph
    ∧ ∃ g1, (computeInteractionMesh tetraCgal tetraMeshOnce 0).interactionMeshes[0]? = some g1
      ∧ g1.edges.map endpoints
          = tetraGraph.edges.map endpoints
            ++ ((visitedTriangles
                  (tetraCgal.incidentFacets
                    (triangulationPoints tetraCgal.defaultPoint tetraMeshOnce 0))).map
                (triangleSides tetraMeshOnce 0)).flatten :=
  ⟨rfl, computeInteractionMesh_appends tetraCgal tetraMeshOnce 0 tetraGraph rfl⟩

/-- C25 (defect of the code): on the mesh loaded from `triDoc`, with 3 vertices
none of which is at the origin, and the library answer `triCgal` (default points
at the origin, one tetrahedron spanned by the origin and the three markers),
the lookup of the origin returns the end iterator, and the frame-0 graph after
`computeInteractionMeshes` is `triGraph`: its first edge goes from 3 to 0, and 3
is not the index of an existing vertex.  The end iterator is dereferenced
without any test. -/
theorem computeInteractionMeshes_unchecked_lookup :
    loadAnimatedMesh triDoc noEdges = .ok triMesh
    ∧ triMesh.numVertices = 3
    ∧ triMesh.getVertexFromPosition 0 0 0 0 = triMesh.vertexEnd
    ∧ (computeInteractionMeshes triCgal triMesh).interactionMeshes[0]? = some triGraph
    ∧ (triGraph.edges.map endpoints).head? = some (3, 0)
    ∧ (triGraph.edges.map endpoints).count (3, 0) + (triGraph.edges.map endpoints).count (0, 3)
        + (triGraph.edges.map endpoints).count (3, 1) + (triGraph.edges.map endpoints).count (1, 3)
        + (triGraph.edges.map endpoints).count (3, 2) + (triGraph.edges.map endpoints).count (2, 3)
        = 18 := by
  refine ⟨triDoc_loads, rfl, ?_, ?_, by decide, by decide⟩
  · simp [getVertexFromPosition, getVertexFromPositionLoop, positionMatches, triMesh, vertexEnd]
  · rw [computeInteractionMeshes_fresh triCgal triMesh rfl 0 (by decide), triMesh_frameGraph]

/-- C26, as stated, fails: on the mesh loaded from `tetraDoc`, whose vertices are
labelled `a`, `b`, `c`, `d`, with the library answer `tetraCgal`, the four
vertices of the frame-0 graph after `computeInteractionMeshes` carry the empty
label. -/
theorem computeInteractionMeshes_unlabelled :
    loadAnimatedMesh tetraDoc noEdges = .ok tetraMesh
    ∧ tetraMesh.graph.vertices.map (fun v => v.label) = ["a", "b", "c", "d"]
    ∧ ∃ g, (computeInteractionMeshes tetraCgal tetraMesh).interactionMeshes[0]? = some g
        ∧ g.vertices.map (fun v => v.label) = ["", "", "", ""] := by
  refine ⟨tetraDoc_loads, rfl, tetraGraph, ?_, rfl⟩
  rw [computeInteractionMeshes_fresh tetraCgal tetraMesh rfl 0 (by decide),
    tetraMesh_frameGraph]

/-- C26, amended: after `computeInteractionMeshes`, `interactionMeshes ()` holds
exactly `numFrames` graphs, index-aligned by frame id: on a mesh that had no
interaction mesh before, the graph of frame `f` is the one built, from an empty
graph, with the triangulation of the frame-`f` positions.  Its vertex set is not
the one of the skeleton graph: all its vertices carry the empty label, and
there are as many as one more than the largest endpoint of its edges, none when
it has no edge. -/
theorem computeInteractionMeshes_graphs (cgal : Triangulation3)
    (m : AnimatedInteractionMesh) (hfresh : m.interactionMeshes = []) :
    (computeInteractionMeshes cgal m).interactionMeshes.length = m.numFrames
    ∧ ∀ f, f < m.numFrames →
        ∃ g, (computeInteractionMeshes cgal m).interactionMeshes[f]? = some g
          ∧ g = frameGraph cgal m f
          ∧ (∀ x ∈ g.vertices, x.label = "")
          ∧ g.vertices.length = endpointBound g.edges := by
  refine ⟨computeInteractionMeshes_length cgal m, ?_⟩
  intro f hf
  exact ⟨frameGraph cgal m f, computeInteractionMeshes_fresh cgal m hfresh f hf, rfl,
    frameGraph_grown cgal m f⟩

/-- Witness of C26 amended: the tetrahedron mesh. -/
theorem computeInteractionMeshes_graphs_witness :
    tetraMesh.interactionMeshes = []
    ∧ (computeInteractionMeshes tetraCgal tetraMesh).interactionMeshes.length
        = tetraMesh.numFrames
    ∧ ∀ f, f < tetraMesh.numFrames →
        ∃ g, (computeInteractionMeshes tetraCgal tetraMesh).interactionMeshes[f]? = some g
          ∧ g = frameGraph tetraCgal tetraMesh f
          ∧ (∀ x ∈ g.vertices, x.label = "")
          ∧ g.vertices.length = endpointBound g.edges :=
  ⟨rfl, computeInteractionMeshes_graphs tetraCgal tetraMesh rfl⟩

/-- C28, as stated, fails: `chainSimilar` is `chainMesh` with every position `p`
of its first frame replaced by `3 * p + (1, 1, 1)`, and no skeleton edge has
coincident endpoints.  In `double` the two edges of `chainMesh` get, in that
frame, the values nearest to `4 / 5` and `1 / 5`, and those of `chainSimilar`
the values one unit in the last place below: the inverses of 9 and 36 and their
sum are rounded.  Every squared norm is that of a difference in the first
coordinate only. -/
theorem computeVertexWeights_similarity_rounds :
    chainSimilar.numFrames = chainMesh.numFrames
    ∧ chainSimilar.graph = chainMesh.graph
    ∧ chainMesh.graph.edges.map (fun e => (e.source, e.target)) = [(0, 1), (1, 2)]
    ∧ chainMesh.framePoint 0 0 = (0, 0, 0) ∧ chainMesh.framePoint 1 0 = (1, 0, 0)
    ∧ chainMesh.framePoint 2 0 = (3, 0, 0)
    ∧ chainSimilar.framePoint 0 0 = (1, 1, 1) ∧ chainSimilar.framePoint 1 0 = (4, 1, 1)
    ∧ chainSimilar.framePoint 2 0 = (10, 1, 1)
    ∧ chainMesh.state.map roundDouble = chainMesh.state.map Double.finite
    ∧ chainSimilar.state.map roundDouble = chainSimilar.state.map Double.finite
    ∧ (computeVertexWeightsIn ieeeArithmetic chainMesh).map (fun e => e.weight[0]?)
        = [some (.finite (3602879701896397 / 4503599627370496)),
           some (.finite (3602879701896397 / 18014398509481984))]
    ∧ (computeVertexWeightsIn ieeeArithmetic chainSimilar).map (fun e => e.weight[0]?)
        = [some (.finite (7205759403792793 / 9007199254740992)),
           some (.finite (7205759403792793 / 36028797018963968))]
    ∧ (3602879701896397 : ℚ) / 4503599627370496 - 7205759403792793 / 9007199254740992
        = 1 / 2 ^ 53 :=
  ⟨rfl, rfl, chainMesh_ends, chainMesh_points.1, chainMesh_points.2.1, chainMesh_points.2.2,
    chainSimilar_points.1, chainSimilar_points.2.1, chainSimilar_points.2.2,
    sample_states_stored.2.2.1, sample_states_stored.2.2.2, chainMesh_ieee_weights,
    chainSimilar_ieee_weights, by norm_num⟩

/-- C28, amended: in exact arithmetic, for two meshes with the same `numFrames`
and skeleton edges, such that in frame `f < numFrames` no skeleton edge of the
first has coincident endpoints and the position of every endpoint of a skeleton
edge in the second is `c * p + t`, with `p` its position in the first, `c` a
non-zero scalar and `t` a 3-vector, `computeVertexWeights` leaves in slot `f` of
every skeleton edge the same weight in both meshes. -/
theorem computeVertexWeights_similarity (m m1 : AnimatedInteractionMesh) (f : Nat)
    (hf : f < m.numFrames) (hnf : m1.numFrames = m.numFrames)
    (hsk : m1.graph.edges.map GraphEdge.skeleton = m.graph.edges.map GraphEdge.skeleton)
    (hapart : ∀ e ∈ m.graph.edges,
      ∃ a, a < 3 ∧ m.position e.source f a ≠ m.position e.target f a)
    (c : ℚ) (hc : c ≠ 0) (t : ℚ × ℚ × ℚ)
    (hpos : ∀ e ∈ m.graph.edges, ∀ a, a < 3 →
      m1.position e.source f a = c * m.position e.source f a + component t a
      ∧ m1.position e.target f a = c * m.position e.target f a + component t a) :
    m1.computeVertexWeights.graph.edges.map (fun e => e.prop.weight[f]?)
      = m.computeVertexWeights.graph.edges.map (fun e => e.prop.weight[f]?) := by
  have hcc : c ^ 2 ≠ 0 := pow_ne_zero 2 hc
  apply computeVertexWeights_slot_scaled m m1 f hf hnf (1 / c ^ 2)
    (one_div_ne_zero hcc) hsk
  intro e he
  have hd := squaredDistance_similar m m1 f c t e.source e.target
    (fun a ha => (hpos e he a ha).1) (fun a ha => (hpos e he a ha).2)
  have hne := squaredDistance_ne_zero m f e.source e.target (hapart e he)
  unfold rawWeight
  rw [hd, if_neg (mul_ne_zero hcc hne), if_neg hne]
  field_simp

/-- Witness of C28 amended: `chainMesh` and `chainSimilar`, whose first frame is
the image of the first frame of `chainMesh` by `p ↦ 3 * p + (1, 1, 1)`; in exact
arithmetic the two edges get the weights `4 / 5` and `1 / 5` in both. -/
theorem computeVertexWeights_similarity_witness :
    0 < chainMesh.numFrames ∧ chainSimilar.numFrames = chainMesh.numFrames
    ∧ chainSimilar.graph.edges.map GraphEdge.skeleton
        = chainMesh.graph.edges.map GraphEdge.skeleton
    ∧ (∀ e ∈ chainMesh.graph.edges,
        ∃ a, a < 3 ∧ chainMesh.position e.source 0 a ≠ chainMesh.position e.target 0 a)
    ∧ (3 : ℚ) ≠ 0
    ∧ (∀ e ∈ chainMesh.graph.edges, ∀ a, a < 3 →
        chainSimilar.position e.source 0 a
          = 3 * chainMesh.position e.source 0 a + component (1, 1, 1) a
        ∧ chainSimilar.position e.target 0 a
          = 3 * chainMesh.position e.target 0 a + component (1, 1, 1) a)
    ∧ chainMesh.computeVertexWeights.graph.edges.map (fun e => e.prop.weight[0]?)
        = [some (4 / 5), some (1 / 5)]
    ∧ chainSimilar.computeVertexWeights.graph.edges.map (fun e => e.prop.weight[0]?)
        = [some (4 / 5), some (1 / 5)]
    ∧ chainSimilar.computeVertexWeights.graph.edges.map (fun e => e.prop.weight[0]?)
        = chainMesh.computeVertexWeights.graph.edges.map (fun e => e.prop.weight[0]?) := by
  have hedges : chainMesh.graph.edges
      = [⟨0, 1, ⟨1, [4 / 5, 1 / 5]⟩⟩, ⟨1, 2, ⟨1, [1 / 5, 4 / 5]⟩⟩] := rfl
  have hapart : ∀ e ∈ chainMesh.graph.edges,
      ∃ a, a < 3 ∧ chainMesh.position e.source 0 a ≠ chainMesh.position e.target 0 a := by
    intro e he
    rw [hedges] at he
    simp only [List.mem_cons, List.mem_singleton, List.not_mem_nil, or_false] at he
    rcases he with rfl | rfl
    · exact ⟨0, by decide, by norm_num [position, viewOffset, chainMesh]⟩
    · exact ⟨0, by decide, by norm_num [position, viewOffset, chainMesh]⟩
  have hpos : ∀ e ∈ chainMesh.graph.edges, ∀ a, a < 3 →
      chainSimilar.position e.source 0 a
        = 3 * chainMesh.position e.source 0 a + component (1, 1, 1) a
      ∧ chainSimilar.position e.target 0 a
        = 3 * chainMesh.position e.target 0 a + component (1, 1, 1) a := by
    intro e he a ha
    rw [hedges] at he
    simp only [List.mem_cons, List.mem_singleton, List.not_mem_nil, or_false] at he
    rcases he with rfl | rfl <;> interval_cases a <;>
      norm_num [position, viewOffset, chainMesh, chainSimilar, component]
  exact ⟨by decide, rfl, rfl, hapart, by norm_num, hpos, chainMesh_weights.1,
    chainSimilar_weights,
    computeVertexWeights_similarity chainMesh chainSimilar 0 (by decide) rfl rfl hapart 3
      (by norm_num) (1, 1, 1) hpos⟩

/-- C29, as stated, fails: with `numVertices = 1431655766`, `numFrames = 2` and
a state vector of length `3 * 1431655766 * 2 = 8589934596`, the frame loop of
`makeFromOptimizationVariables` passes its assertion for vertex 0 and puts the
view of frame 1 at offset 2, not at `1 * 1431655766 * 3 = 4294967298`: the
`unsigned` product `frameId * numVertices_ * 3` wraps, in the snapshot as in the
loader, and the views of frame 0 (elements 0, 1, 2) and of frame 1 (elements 2,
3, 4) share element 2. -/
theorem rebindViews_overlap :
    3 * 1431655766 * 2 = 8589934596
    ∧ rebindViews 1431655766 8589934596 0 (List.range 2) [0, 0] = .ok [0, 2]
    ∧ umul (umul 1 1431655766) 3 + 0 * 3 = 2
    ∧ 1 * 1431655766 * 3 + 0 * 3 = 4294967298 := by
  refine ⟨by norm_num, ?_, by decide, by norm_num⟩
  rw [rebindViews_ok_iff]
  constructor
  · intro f hf
    have hf2 : f < 2 := List.mem_range.mp hf
    interval_cases f <;> decide
  · decide

/-- C29, amended: for every `numVertices` `V` and `numFrames` `F` with
`3 * V * F < 2 ^ 32`, the loader and the snapshot put the view of vertex `v < V`
at frame `f < F` at offset `f * V * 3 + v * 3` of a state vector of length
`3 * V * F` (the assertion of `makeFromOptimizationVariables` holds), and the map
`(f, v, a) ↦ f * V * 3 + v * 3 + a` on `f < F`, `v < V`, `a < 3` is a bijection
onto the indices below `3 * V * F`: every view lies inside the vector and no two
views share an element. -/
theorem positionViews_layout (V F : Nat) (h : 3 * V * F < UINT_SIZE) :
    (∀ v, v < V →
      pushViews (3 * V * F) V v (List.range F)
        = .ok ((List.range F).map (fun f => f * V * 3 + v * 3)))
    ∧ (∀ v views, v < V → views.length = F →
      rebindViews V (3 * V * F) v (List.range F) views
        = .ok ((List.range F).map (fun f => f * V * 3 + v * 3)))
    ∧ (∀ f v a, f < F → v < V → a < 3 → f * V * 3 + v * 3 + a < 3 * V * F)
    ∧ (∀ f v a f1 v1 a1, f < F → v < V → a < 3 → f1 < F → v1 < V → a1 < 3 →
        f * V * 3 + v * 3 + a = f1 * V * 3 + v1 * 3 + a1 → f = f1 ∧ v = v1 ∧ a = a1)
    ∧ (∀ k, k < 3 * V * F → ∃ f v a, f < F ∧ v < V ∧ a < 3 ∧ f * V * 3 + v * 3 + a = k) := by
  refine ⟨fun v hv => pushViews_exact V F v h hv,
    fun v views hv hlen => rebindViews_exact V F v views h hv hlen, ?_, ?_,
    fun k hk => offset_surjective V F k hk⟩
  · intro f v a hf hv ha
    have hb : F * V * 3 < UINT_SIZE := by
      have e : F * V * 3 = 3 * V * F := by ring
      omega
    have e : F * V * 3 = 3 * V * F := by ring
    have := (offset_exact hf hv hb).2.2
    omega
  · intro f v a f1 v1 a1 _ hv ha _ hv1 ha1 heq
    exact offset_injective V f v a f1 v1 a1 hv ha hv1 ha1 heq

/-- Witness of C29 amended: two vertices and two frames, the layout of the
sample mesh. -/
theorem positionViews_layout_witness :
    3 * 2 * 2 < UINT_SIZE
    ∧ (∀ v, v < 2 →
      pushViews (3 * 2 * 2) 2 v (List.range 2)
        = .ok ((List.range 2).map (fun f => f * 2 * 3 + v * 3)))
    ∧ (∀ v views, v < 2 → views.length = 2 →
      rebindViews 2 (3 * 2 * 2) v (List.range 2) views
        = .ok ((List.range 2).map (fun f => f * 2 * 3 + v * 3)))
    ∧ (∀ f v a, f < 2 → v < 2 → a < 3 → f * 2 * 3 + v * 3 + a < 3 * 2 * 2)
    ∧ (∀ f v a f1 v1 a1, f < 2 → v < 2 → a < 3 → f1 < 2 → v1 < 2 → a1 < 3 →
        f * 2 * 3 + v * 3 + a = f1 * 2 * 3 + v1 * 3 + a1 → f = f1 ∧ v = v1 ∧ a = a1)
    ∧ (∀ k, k < 3 * 2 * 2 → ∃ f v a, f < 2 ∧ v < 2 ∧ a < 3 ∧ f * 2 * 3 + v * 3 + a = k) :=
  ⟨by decide, positionViews_layout 2 2 (by decide)⟩

end AnimatedInteractionMesh

/-! ## Theorems on the marker problem builder and the function factory -/

/-- C27 (defect of the code): for the recording `sampleTrajectory`, with 2
frames of 2 markers, `convertToTrajectory` builds a parameter vector of length
12 in which the 6 coordinates of frame 1 start at element 2, over the last 4
coordinates of frame 0, and the last 4 elements are never written: the segment
of frame `f` starts at `f * numMarkers`, not at `f * numMarkers * 3`. -/
theorem convertToTrajectory_overlaps :
    sampleTrajectory.positions = [[1, 2, 3, 4, 5, 6], [7, 8, 9, 10, 11, 12]]
    ∧ convertToTrajectory sampleTrajectory
        = .ok { parameters := [some 1, some 2, some 7, some 8, some 9, some 10, some 11,
                               some 12, none, none, none, none],
                outputSize := 2, timeStep := 1 / 100 } := by
  refine ⟨rfl, ?_⟩
  simp [convertToTrajectory, sampleTrajectory, copyFrames, assignSegment, List.replicate]

/-- C30, as stated, fails: `null` is a name of the function table other than
`bone-length`; on data without trajectory `buildConstraint` fails for it with
the error of its allocator, and for the name `lde`, on any data, it fails on the
null function the allocator returns: neither fails with `unknown constraint`. -/
theorem buildConstraint_other_errors :
    "null" ∈ listFunctions ∧ "lde" ∈ listFunctions
    ∧ buildConstraint { trajectory := none } "null"
        = .error "failed to create null function: no joint trajectory"
    ∧ ∀ data : MarkerFunctionData,
        buildConstraint data "lde" = .error "null function dereferenced" := by
  refine ⟨by decide, by decide, ?_, ?_⟩
  · simp [buildConstraint, buildFunction, buildFunctionLoop, detail.map, detail.null]
  · intro data
    simp [buildConstraint, buildFunction, buildFunctionLoop, detail.map,
      detail.laplacianDeformationEnergy]

/-- C30, amended: for every data and every constraint name, `buildConstraint`
returns no constraint.  A name absent from the function table fails with
`invalid function name`; the names `bone-length` and `lde` map to allocators
that return a null function, whose `outputSize` is then read; the name `null`
fails with the error of its allocator when the data hold no trajectory, and
with `unknown constraint` when they hold one. -/
theorem buildConstraint_fails (data : MarkerFunctionData) (name : String) :
    buildConstraint data name
      = .error
          (if name = "null" then
            (if data.trajectory = none then
              "failed to create null function: no joint trajectory"
             else "unknown constraint")
           else if name = "lde" ∨ name = "bone-length" then "null function dereferenced"
           else "invalid function name") := by
  by_cases h1 : name = "null"
  · subst h1
    cases ht : data.trajectory with
    | none =>
      simp [buildConstraint, buildFunction, buildFunctionLoop, detail.map, detail.null, ht]
    | some t =>
      simp [buildConstraint, buildFunction, buildFunctionLoop, detail.map, detail.null, ht]
  · by_cases h2 : name = "lde"
    · subst h2
      simp [buildConstraint, buildFunction, buildFunctionLoop, detail.map,
        detail.laplacianDeformationEnergy]
    · by_cases h3 : name = "bone-length"
      · subst h3
        simp [buildConstraint, buildFunction, buildFunctionLoop, detail.map,
          detail.boneLength]
      · have e1 : ¬ "null" = name := fun h => h1 h.symm
        have e2 : ¬ "lde" = name := fun h => h2 h.symm
        have e3 : ¬ "bone-length" = name := fun h => h3 h.symm
        simp [buildConstraint, buildFunction, buildFunctionLoop, detail.map, h1, h2, h3,
          e1, e2, e3]

end Retargeting
